import Mathlib

/-!
# MotionToGo: the GPU execution scheduler `GpuSystem`

A shallow embedding of `Source/Gpu/GpuSystem.cpp`, `Source/Gpu/GpuCommandList.cpp`
and `Source/ErrorHandling.hpp`.

* The C++ object is a record of its data members; a `com_ptr` is modelled by
  whether it is non-null, arrays by functions of the index.
* 64-bit fence values and the 32-bit frame index are natural numbers, with the
  wrap-around of the machine written out (`% UINT64_SIZE`, `% UINT32_SIZE`).
* The Direct3D 12 driver is a `Device`: it answers the call issued at tick `t`
  with the result code `hresult t`, reports the fence value `completed t`, and
  keeps the list of the calls it has received. Every theorem quantifies over
  the device, so it holds whatever the driver answers.
* A member function returns an `Outcome` together with the object and the
  device as they are left, also when it throws.
-/

namespace MotionToGo

/-! ## ErrorHandling.hpp -/

/-- Windows result code (`HRESULT`, a signed 32-bit value). -/
abbrev HRESULT := Int

/-- The `FAILED` test of the Windows headers: a failure code is negative. -/
def FAILED (hr : HRESULT) : Bool := decide (hr < 0)

/-- The `SUCCEEDED` test of the Windows headers. -/
def SUCCEEDED (hr : HRESULT) : Bool := decide (0 ≤ hr)

/-- Class `HrException` of `ErrorHandling.hpp`; the message text is left out. -/
structure HrException where
  hr_ : HRESULT
  deriving DecidableEq, Repr

/-- Member `HrException::Error`. -/
def HrException.Error (e : HrException) : HRESULT := e.hr_

/-- How a call of a member function ends. -/
inductive Outcome (α : Type) where
  /-- normal return -/
  | returned (a : α)
  /-- an `HrException` leaves the function -/
  | raised (e : HrException)
  /-- the calling thread is still inside `WaitForSingleObjectEx` when the fuel is used up -/
  | blocked
  /-- a null pointer is dereferenced or `Unreachable()` is reached -/
  | undefined
  deriving DecidableEq, Repr

/-! ## Constants of GpuSystem.hpp -/

/-- Number of values of `uint64_t`. -/
def UINT64_SIZE : Nat := 2 ^ 64

/-- Number of values of `uint32_t`. -/
def UINT32_SIZE : Nat := 2 ^ 32

/-- Constant `GpuSystem::FrameCount`. -/
def FrameCount : Nat := 3

/-- Constant `GpuSystem::MaxFenceValue`, that is `~0ull`. -/
def MaxFenceValue : Nat := 2 ^ 64 - 1

/-- Enumeration `GpuSystem::CmdQueueType`. -/
inductive CmdQueueType where
  | Graphics
  | VideoEncode
  | Num
  deriving DecidableEq, Repr

/-- The `static_cast<uint32_t>` of a queue type. -/
def CmdQueueType.index : CmdQueueType → Nat
  | .Graphics => 0
  | .VideoEncode => 1
  | .Num => 2

/-- The `static_cast<CmdQueueType>` of a loop index below `Num`. -/
def CmdQueueType.fromIndex (i : Nat) : CmdQueueType :=
  if i = 0 then .Graphics else if i = 1 then .VideoEncode else .Num

/-- The indices `0 .. Num - 1` that the loops over the queues run through. -/
def queueIndices : List Nat := List.range CmdQueueType.Num.index

/-! ## The driver -/

/-- A raw `ID3D12CommandAllocator*`: null, or the allocator of a queue index and a frame slot. -/
abbrev AllocatorPtr := Option (Nat × Nat)

/-- Calls that reach the driver, with the arguments the code passes
(and, for the two that report the fence, the value reported). -/
inductive DriverCall where
  | CreateCommandQueue (queue : Nat)
  | CreateCommandAllocator (queue frame : Nat)
  | CreateFence (initial : Nat)
  | CreateCommandList (type : CmdQueueType) (allocator : AllocatorPtr) (cmd_list : Nat)
  | Close (cmd_list : Nat)
  | ResetCommandList (cmd_list : Nat) (allocator : AllocatorPtr)
  | ResetCommandAllocator (queue frame : Nat)
  | Wait (queue : Nat) (value : Nat)
  | ExecuteCommandLists (queue : Nat) (cmd_list : Option Nat)
  | Signal (queue : Nat) (value : Nat)
  | GetCompletedValue (reported : Nat)
  | SetEventOnCompletion (value : Nat)
  | WaitForSingleObjectEx (reported : Nat)
  deriving DecidableEq, Repr

/-- The device and its driver, seen from the calling thread. -/
structure Device where
  /-- fence value the device reports at each tick -/
  completed : Nat → Nat
  /-- result code the driver gives to the call issued at each tick -/
  hresult : Nat → HRESULT
  /-- ticks elapsed: every driver call takes one -/
  now : Nat
  /-- the calls received so far, oldest first -/
  calls : List DriverCall

/-- Issue one driver call: its result code, and the device one tick later. -/
def Device.call (d : Device) (c : DriverCall) : HRESULT × Device :=
  (d.hresult d.now, { d with now := d.now + 1, calls := d.calls ++ [c] })

/-- The macro `TIFHR(hr)` of `ErrorHandling.hpp`, applied to a call expression `expr`:
`if (FAILED(hr)) throw HrException(hr, ...)`. The macro names its argument twice, so a call
that fails is evaluated a second time, and the exception carries the result code of the
second evaluation; a call that succeeds is evaluated once. -/
def TIFHR (expr : Device → HRESULT × Device) (d : Device) : Except HrException Unit × Device :=
  if FAILED (expr d).1 then (.error ⟨(expr (expr d).2).1⟩, (expr (expr d).2).2)
  else (.ok (), (expr d).2)

/-- Method `ID3D12Fence::GetCompletedValue`: a `uint64_t`. -/
def Device.GetCompletedValue (d : Device) : Nat × Device :=
  let reported := d.completed d.now % UINT64_SIZE
  (reported, { d with now := d.now + 1, calls := d.calls ++ [.GetCompletedValue reported] })

/-- First tick from `t` on, among `fuel` ticks, at which the fence has reached `target`. -/
def Device.firstReached (d : Device) (target : Nat) : Nat → Nat → Option Nat
  | 0, _ => none
  | fuel + 1, t =>
    if target ≤ d.completed t % UINT64_SIZE then some t
    else Device.firstReached d target fuel (t + 1)

/-- The call `::WaitForSingleObjectEx(fence_event_, INFINITE, FALSE)` on the event that
`SetEventOnCompletion(target, fence_event_)` has armed: the thread sleeps until the fence
has reached `target`. `none` when that does not happen within `fuel` ticks. -/
def Device.WaitForSingleObjectEx (d : Device) (fuel target : Nat) : Option Device :=
  match d.firstReached target fuel d.now with
  | none => none
  | some t =>
    some { d with
      now := t + 1
      calls := d.calls ++ [.WaitForSingleObjectEx (d.completed t % UINT64_SIZE)] }

/-! ## GpuCommandList.cpp -/

/-- Class `GpuCommandList`: the queue type and the native list (`none` is a null `com_ptr`). -/
structure GpuCommandList where
  type_ : CmdQueueType := .Num
  cmd_list_ : Option Nat := none
  deriving DecidableEq, Repr

/-- Member `GpuCommandList::Type`. -/
def GpuCommandList.Type (cmd_list : GpuCommandList) : CmdQueueType := cmd_list.type_

/-- Member `GpuCommandList::Close`: the result code of the native `Close` is dropped.
`none` when a null list is dereferenced or `Unreachable()` is reached. -/
def GpuCommandList.Close (cmd_list : GpuCommandList) (d : Device) : Option Device :=
  match cmd_list.type_ with
  | .Num => none
  | _ =>
    match cmd_list.cmd_list_ with
    | none => none
    | some h => some (d.call (.Close h)).2

/-- Member `GpuCommandList::Reset`: the result code of the native `Reset` is dropped.
`none` when a null list is dereferenced or `Unreachable()` is reached. -/
def GpuCommandList.Reset (cmd_list : GpuCommandList) (cmd_allocator : AllocatorPtr) (d : Device) :
    Option Device :=
  match cmd_list.type_ with
  | .Num => none
  | _ =>
    match cmd_list.cmd_list_ with
    | none => none
    | some h => some (d.call (.ResetCommandList h cmd_allocator)).2

/-- Constructor `GpuCommandList(gpu_system, cmd_allocator, type)`; `device` tells whether
`gpu_system.NativeDevice()` is non-null. The native list is named by the tick of its creation. -/
def GpuCommandList.construct (device : Bool) (d : Device) (cmd_allocator : AllocatorPtr)
    (type : CmdQueueType) : Outcome GpuCommandList × Device :=
  match type with
  | .Num => (.undefined, d)
  | _ =>
    if device then
      match (TIFHR (fun d1 => d1.call (.CreateCommandList type cmd_allocator d1.now)) d).1 with
      | .error e =>
        (.raised e, (TIFHR (fun d1 => d1.call (.CreateCommandList type cmd_allocator d1.now)) d).2)
      | .ok _ =>
        (.returned { type_ := type, cmd_list_ := some d.now },
          (TIFHR (fun d1 => d1.call (.CreateCommandList type cmd_allocator d1.now)) d).2)
    else (.undefined, d)

/-! ## GpuSystem.hpp: the data members -/

/-- Struct `GpuSystem::CmdQueue`. -/
structure CmdQueue where
  /-- True when `cmd_queue` is non-null. -/
  cmd_queue : Bool
  /-- True when `cmd_allocators[frame]` is non-null. -/
  cmd_allocators : Nat → Bool
  cmd_list_pool : List GpuCommandList

/-- Class `GpuSystem`. The allocator classes are declared in `GpuMemoryAllocator.hpp` and
`GpuDescriptorAllocator.hpp`, outside these sources: their states are the parameters
`MA` and `DA`. -/
structure GpuSystem (MA DA : Type) where
  /-- True when `device_` is non-null. -/
  device_ : Bool
  cmd_queues_ : Nat → CmdQueue
  /-- True when `fence_` is non-null. -/
  fence_ : Bool
  fence_vals_ : Nat → Nat
  /-- True when `fence_event_.get() != INVALID_HANDLE_VALUE`. -/
  fence_event_ : Bool
  frame_index_ : Nat
  upload_mem_allocator_ : MA
  readback_mem_allocator_ : MA
  cbv_srv_uav_desc_allocator_ : DA

/-- Member functions of `GpuMemoryAllocator` (declared in `GpuMemoryAllocator.hpp`, outside
these sources), as `GpuSystem` calls them: a parameter of the pass-throughs. -/
structure GpuMemoryAllocatorOps (MA MB : Type) where
  /-- Member `Allocate(size_in_bytes, alignment)` -/
  Allocate : MA → Nat → Nat → MB × MA
  /-- Member `Deallocate(mem_block, fence_value)` -/
  Deallocate : MA → MB → Nat → MA
  /-- Member `Reallocate(mem_block, fence_value, size_in_bytes, alignment)` -/
  Reallocate : MA → MB → Nat → Nat → Nat → MB × MA
  /-- Member `Clear()` -/
  Clear : MA → MA

/-- Member functions of `GpuDescriptorAllocator` (declared in `GpuDescriptorAllocator.hpp`,
outside these sources), as `GpuSystem` calls them: a parameter of the pass-throughs. -/
structure GpuDescriptorAllocatorOps (DA DB : Type) where
  /-- Member `DescriptorSize()` -/
  DescriptorSize : DA → Nat
  /-- Member `Allocate(size)` -/
  Allocate : DA → Nat → DB × DA
  /-- Member `Deallocate(desc_block, fence_value)` -/
  Deallocate : DA → DB → Nat → DA
  /-- Member `Reallocate(desc_block, fence_value, size)` -/
  Reallocate : DA → DB → Nat → Nat → DB × DA
  /-- Member `Clear()` -/
  Clear : DA → DA

/-! ## GpuSystem.cpp: the member functions -/

section GpuSystemMembers

variable {MA DA MB DB : Type}

/-- Member `GpuSystem::FrameIndex`. -/
def GpuSystem.FrameIndex (s : GpuSystem MA DA) : Nat := s.frame_index_

/-- Member `GpuSystem::CurrentCommandAllocator`:
`cmd_queues_[type].cmd_allocators[frame_index_].get()`. -/
def GpuSystem.CurrentCommandAllocator (s : GpuSystem MA DA) (type : CmdQueueType) :
    AllocatorPtr :=
  if (s.cmd_queues_ type.index).cmd_allocators s.frame_index_ then
    some (type.index, s.frame_index_)
  else none

/-- The assignment `fence_vals_[frame_index_] = value + 1` in 64-bit arithmetic. -/
def GpuSystem.setFenceVal (s : GpuSystem MA DA) (value : Nat) : GpuSystem MA DA :=
  { s with fence_vals_ := Function.update s.fence_vals_ s.frame_index_ ((value + 1) % UINT64_SIZE) }

/-- First loop of `MoveToNextFrame`, over the queue indices given:
`TIFHR(cmd_queues_[i].cmd_queue->Signal(fence_.get(), curr_fence_value))`. -/
def GpuSystem.signalQueues (s : GpuSystem MA DA) (curr_fence_value : Nat) :
    List Nat → Device → Outcome Unit × Device
  | [], d => (.returned (), d)
  | i :: rest, d =>
    if (s.cmd_queues_ i).cmd_queue then
      match (TIFHR (fun d1 => d1.call (.Signal i curr_fence_value)) d).1 with
      | .error e => (.raised e, (TIFHR (fun d1 => d1.call (.Signal i curr_fence_value)) d).2)
      | .ok _ =>
        GpuSystem.signalQueues s curr_fence_value rest
          (TIFHR (fun d1 => d1.call (.Signal i curr_fence_value)) d).2
    else (.undefined, d)

/-- The two statements under the `if` of `MoveToNextFrame`:
`TIFHR(fence_->SetEventOnCompletion(value, fence_event_.get()))` and the wait on the event.
A wait on an event handle that is not valid is outside the model. -/
def GpuSystem.setEventAndWait (s : GpuSystem MA DA) (d : Device) (fuel value : Nat) :
    Outcome Unit × Device :=
  match (TIFHR (fun d1 => d1.call (.SetEventOnCompletion value)) d).1 with
  | .error e => (.raised e, (TIFHR (fun d1 => d1.call (.SetEventOnCompletion value)) d).2)
  | .ok _ =>
    if s.fence_event_ then
      match (TIFHR (fun d1 => d1.call (.SetEventOnCompletion value)) d).2.WaitForSingleObjectEx
          fuel value with
      | none => (.blocked, (TIFHR (fun d1 => d1.call (.SetEventOnCompletion value)) d).2)
      | some d1 => (.returned (), d1)
    else (.undefined, (TIFHR (fun d1 => d1.call (.SetEventOnCompletion value)) d).2)

/-- Last loop of `MoveToNextFrame`, over the queue indices given:
`TIFHR(this->CurrentCommandAllocator(static_cast<CmdQueueType>(i))->Reset())`. -/
def GpuSystem.resetAllocators (s : GpuSystem MA DA) : List Nat → Device → Outcome Unit × Device
  | [], d => (.returned (), d)
  | i :: rest, d =>
    match s.CurrentCommandAllocator (CmdQueueType.fromIndex i) with
    | none => (.undefined, d)
    | some (q, f) =>
      match (TIFHR (fun d1 => d1.call (.ResetCommandAllocator q f)) d).1 with
      | .error e => (.raised e, (TIFHR (fun d1 => d1.call (.ResetCommandAllocator q f)) d).2)
      | .ok _ =>
        GpuSystem.resetAllocators s rest
          (TIFHR (fun d1 => d1.call (.ResetCommandAllocator q f)) d).2

/-- The part of `MoveToNextFrame` between the two loops, on the object whose frame index
has been advanced: read the fence, wait if it is behind the slot counter. -/
def GpuSystem.awaitSlot (s : GpuSystem MA DA) (d : Device) (fuel : Nat) : Outcome Unit × Device :=
  if s.fence_ then
    if d.GetCompletedValue.1 < s.fence_vals_ s.frame_index_ then
      s.setEventAndWait d.GetCompletedValue.2 fuel (s.fence_vals_ s.frame_index_)
    else (.returned (), d.GetCompletedValue.2)
  else (.undefined, d)

/-- The object after `frame_index_ = (frame_index_ + 1) % FrameCount` (32-bit arithmetic). -/
def GpuSystem.advanceFrame (s : GpuSystem MA DA) : GpuSystem MA DA :=
  { s with frame_index_ := (s.frame_index_ + 1) % UINT32_SIZE % FrameCount }

/-- Member `GpuSystem::MoveToNextFrame`. -/
def GpuSystem.MoveToNextFrame (s : GpuSystem MA DA) (d : Device) (fuel : Nat) :
    Outcome Unit × GpuSystem MA DA × Device :=
  match s.signalQueues (s.fence_vals_ s.frame_index_) queueIndices d with
  | (.returned _, d1) =>
    match s.advanceFrame.awaitSlot d1 fuel with
    | (.returned _, d2) =>
      let s2 := s.advanceFrame.setFenceVal (s.fence_vals_ s.frame_index_)
      ((s2.resetAllocators queueIndices d2).1, s2, (s2.resetAllocators queueIndices d2).2)
    | (o, d2) => (o, s.advanceFrame, d2)
  | (o, d1) => (o, s, d1)

/-- Member `GpuSystem::ExecuteOnly`. -/
def GpuSystem.ExecuteOnly (s : GpuSystem MA DA) (d : Device) (cmd_list : GpuCommandList)
    (wait_fence_value : Nat) : Outcome Nat × GpuSystem MA DA × Device :=
  match cmd_list.Close d with
  | none => (.undefined, s, d)
  | some d1 =>
    if (s.cmd_queues_ cmd_list.Type.index).cmd_queue then
      let d2 :=
        if wait_fence_value ≠ MaxFenceValue then
          (d1.call (.Wait cmd_list.Type.index wait_fence_value)).2
        else d1
      let d3 := (d2.call (.ExecuteCommandLists cmd_list.Type.index cmd_list.cmd_list_)).2
      let curr_fence_value := s.fence_vals_ s.frame_index_
      match (TIFHR (fun d4 => d4.call (.Signal cmd_list.Type.index curr_fence_value)) d3).1 with
      | .error e =>
        (.raised e, s,
          (TIFHR (fun d4 => d4.call (.Signal cmd_list.Type.index curr_fence_value)) d3).2)
      | .ok _ =>
        (.returned curr_fence_value, s.setFenceVal curr_fence_value,
          (TIFHR (fun d4 => d4.call (.Signal cmd_list.Type.index curr_fence_value)) d3).2)
    else (.undefined, s, d1)

/-- The statement `cmd_queues_[type].cmd_list_pool.emplace_back(std::move(cmd_list))`. -/
def GpuSystem.poolEmplaceBack (s : GpuSystem MA DA) (cmd_list : GpuCommandList) :
    GpuSystem MA DA :=
  { s with
    cmd_queues_ := Function.update s.cmd_queues_ cmd_list.Type.index
      { s.cmd_queues_ cmd_list.Type.index with
        cmd_list_pool := (s.cmd_queues_ cmd_list.Type.index).cmd_list_pool ++ [cmd_list] } }

/-- Member `GpuSystem::Execute`. -/
def GpuSystem.Execute (s : GpuSystem MA DA) (d : Device) (cmd_list : GpuCommandList)
    (wait_fence_value : Nat) : Outcome Nat × GpuSystem MA DA × Device :=
  match s.ExecuteOnly d cmd_list wait_fence_value with
  | (.returned new_fence_value, s1, d1) =>
    (.returned new_fence_value, s1.poolEmplaceBack cmd_list, d1)
  | r => r

/-- Member `GpuSystem::ExecuteAndReset`. -/
def GpuSystem.ExecuteAndReset (s : GpuSystem MA DA) (d : Device) (cmd_list : GpuCommandList)
    (wait_fence_value : Nat) : Outcome Nat × GpuSystem MA DA × Device :=
  match s.ExecuteOnly d cmd_list wait_fence_value with
  | (.returned new_fence_value, s1, d1) =>
    match cmd_list.Reset (s1.CurrentCommandAllocator cmd_list.Type) d1 with
    | none => (.undefined, s1, d1)
    | some d2 => (.returned new_fence_value, s1, d2)
  | r => r

/-- The statement `cmd_queues_[type].cmd_list_pool.pop_front()`. -/
def GpuSystem.poolPopFront (s : GpuSystem MA DA) (type : CmdQueueType) : GpuSystem MA DA :=
  { s with
    cmd_queues_ := Function.update s.cmd_queues_ type.index
      { s.cmd_queues_ type.index with
        cmd_list_pool := (s.cmd_queues_ type.index).cmd_list_pool.tail } }

/-- Member `GpuSystem::CreateCommandList`. With `type = Num` the index is past the end of
`cmd_queues_`. -/
def GpuSystem.CreateCommandList (s : GpuSystem MA DA) (d : Device) (type : CmdQueueType) :
    Outcome GpuCommandList × GpuSystem MA DA × Device :=
  match type with
  | .Num => (.undefined, s, d)
  | _ =>
    match (s.cmd_queues_ type.index).cmd_list_pool with
    | [] =>
      ((GpuCommandList.construct s.device_ d (s.CurrentCommandAllocator type) type).1, s,
        (GpuCommandList.construct s.device_ d (s.CurrentCommandAllocator type) type).2)
    | cmd_list :: _ =>
      match cmd_list.Reset (s.CurrentCommandAllocator type) d with
      | none => (.undefined, s.poolPopFront type, d)
      | some d1 => (.returned cmd_list, s.poolPopFront type, d1)

/-- Member `GpuSystem::CbvSrvUavDescSize`. -/
def GpuSystem.CbvSrvUavDescSize (dops : GpuDescriptorAllocatorOps DA DB) (s : GpuSystem MA DA) :
    Nat :=
  dops.DescriptorSize s.cbv_srv_uav_desc_allocator_

/-- Member `GpuSystem::AllocCbvSrvUavDescBlock`. -/
def GpuSystem.AllocCbvSrvUavDescBlock (dops : GpuDescriptorAllocatorOps DA DB)
    (s : GpuSystem MA DA) (size : Nat) : DB × GpuSystem MA DA :=
  ((dops.Allocate s.cbv_srv_uav_desc_allocator_ size).1,
    { s with cbv_srv_uav_desc_allocator_ := (dops.Allocate s.cbv_srv_uav_desc_allocator_ size).2 })

/-- Member `GpuSystem::DeallocCbvSrvUavDescBlock`. -/
def GpuSystem.DeallocCbvSrvUavDescBlock (dops : GpuDescriptorAllocatorOps DA DB)
    (s : GpuSystem MA DA) (desc_block : DB) : GpuSystem MA DA :=
  { s with
    cbv_srv_uav_desc_allocator_ :=
      dops.Deallocate s.cbv_srv_uav_desc_allocator_ desc_block (s.fence_vals_ s.frame_index_) }

/-- Member `GpuSystem::ReallocCbvSrvUavDescBlock`; the block is passed by reference. -/
def GpuSystem.ReallocCbvSrvUavDescBlock (dops : GpuDescriptorAllocatorOps DA DB)
    (s : GpuSystem MA DA) (desc_block : DB) (size : Nat) : DB × GpuSystem MA DA :=
  ((dops.Reallocate s.cbv_srv_uav_desc_allocator_ desc_block (s.fence_vals_ s.frame_index_) size).1,
    { s with
      cbv_srv_uav_desc_allocator_ :=
        (dops.Reallocate s.cbv_srv_uav_desc_allocator_ desc_block
          (s.fence_vals_ s.frame_index_) size).2 })

/-- Member `GpuSystem::AllocUploadMemBlock`. -/
def GpuSystem.AllocUploadMemBlock (mops : GpuMemoryAllocatorOps MA MB) (s : GpuSystem MA DA)
    (size_in_bytes alignment : Nat) : MB × GpuSystem MA DA :=
  ((mops.Allocate s.upload_mem_allocator_ size_in_bytes alignment).1,
    { s with
      upload_mem_allocator_ := (mops.Allocate s.upload_mem_allocator_ size_in_bytes alignment).2 })

/-- Member `GpuSystem::DeallocUploadMemBlock`. -/
def GpuSystem.DeallocUploadMemBlock (mops : GpuMemoryAllocatorOps MA MB) (s : GpuSystem MA DA)
    (mem_block : MB) : GpuSystem MA DA :=
  { s with
    upload_mem_allocator_ :=
      mops.Deallocate s.upload_mem_allocator_ mem_block (s.fence_vals_ s.frame_index_) }

/-- Member `GpuSystem::ReallocUploadMemBlock`; the block is passed by reference. -/
def GpuSystem.ReallocUploadMemBlock (mops : GpuMemoryAllocatorOps MA MB) (s : GpuSystem MA DA)
    (mem_block : MB) (size_in_bytes alignment : Nat) : MB × GpuSystem MA DA :=
  ((mops.Reallocate s.upload_mem_allocator_ mem_block (s.fence_vals_ s.frame_index_)
      size_in_bytes alignment).1,
    { s with
      upload_mem_allocator_ :=
        (mops.Reallocate s.upload_mem_allocator_ mem_block (s.fence_vals_ s.frame_index_)
          size_in_bytes alignment).2 })

/-- Member `GpuSystem::AllocReadbackMemBlock`. -/
def GpuSystem.AllocReadbackMemBlock (mops : GpuMemoryAllocatorOps MA MB) (s : GpuSystem MA DA)
    (size_in_bytes alignment : Nat) : MB × GpuSystem MA DA :=
  ((mops.Allocate s.readback_mem_allocator_ size_in_bytes alignment).1,
    { s with
      readback_mem_allocator_ :=
        (mops.Allocate s.readback_mem_allocator_ size_in_bytes alignment).2 })

/-- Member `GpuSystem::DeallocReadbackMemBlock`. -/
def GpuSystem.DeallocReadbackMemBlock (mops : GpuMemoryAllocatorOps MA MB) (s : GpuSystem MA DA)
    (mem_block : MB) : GpuSystem MA DA :=
  { s with
    readback_mem_allocator_ :=
      mops.Deallocate s.readback_mem_allocator_ mem_block (s.fence_vals_ s.frame_index_) }

/-- Member `GpuSystem::ReallocReadbackMemBlock`; the block is passed by reference. -/
def GpuSystem.ReallocReadbackMemBlock (mops : GpuMemoryAllocatorOps MA MB) (s : GpuSystem MA DA)
    (mem_block : MB) (size_in_bytes alignment : Nat) : MB × GpuSystem MA DA :=
  ((mops.Reallocate s.readback_mem_allocator_ mem_block (s.fence_vals_ s.frame_index_)
      size_in_bytes alignment).1,
    { s with
      readback_mem_allocator_ :=
        (mops.Reallocate s.readback_mem_allocator_ mem_block (s.fence_vals_ s.frame_index_)
          size_in_bytes alignment).2 })

/-- One pass of the loop body of `WaitForGpu`, for the queue of index `i`. The parameter
`fence_value` is assigned in the loop: its value after the pass is returned. -/
def GpuSystem.waitForGpuQueue (s : GpuSystem MA DA) (d : Device) (fuel fence_value i : Nat) :
    Outcome Nat × GpuSystem MA DA × Device :=
  if (s.cmd_queues_ i).cmd_queue then
    let wait_fence_value :=
      if fence_value = MaxFenceValue then s.fence_vals_ s.frame_index_ else fence_value
    let d1 := (d.call (.Signal i wait_fence_value)).2
    if SUCCEEDED (d.call (.Signal i wait_fence_value)).1 then
      let d2 := d1.GetCompletedValue.2
      if d1.GetCompletedValue.1 < wait_fence_value then
        let d3 := (d2.call (.SetEventOnCompletion wait_fence_value)).2
        if SUCCEEDED (d2.call (.SetEventOnCompletion wait_fence_value)).1 then
          match d3.WaitForSingleObjectEx fuel wait_fence_value with
          | none => (.blocked, s, d3)
          | some d4 =>
            (.returned
                (if fence_value ≠ MaxFenceValue then (fence_value + 1) % UINT64_SIZE
                 else fence_value),
              s.setFenceVal wait_fence_value, d4)
        else (.returned fence_value, s, d3)
      else (.returned fence_value, s, d2)
    else (.returned fence_value, s, d1)
  else (.returned fence_value, s, d)

/-- The loop `for (auto& cmd_queue : cmd_queues_)` of `WaitForGpu`, over the indices given. -/
def GpuSystem.waitForGpuLoop (fuel : Nat) :
    List Nat → GpuSystem MA DA → Device → Nat → Outcome Unit × GpuSystem MA DA × Device
  | [], s, d, _ => (.returned (), s, d)
  | i :: rest, s, d, fence_value =>
    match s.waitForGpuQueue d fuel fence_value i with
    | (.returned fence_value1, s1, d1) => GpuSystem.waitForGpuLoop fuel rest s1 d1 fence_value1
    | (.raised e, s1, d1) => (.raised e, s1, d1)
    | (.blocked, s1, d1) => (.blocked, s1, d1)
    | (.undefined, s1, d1) => (.undefined, s1, d1)

/-- Member `GpuSystem::WaitForGpu`. -/
def GpuSystem.WaitForGpu (s : GpuSystem MA DA) (d : Device) (fuel : Nat)
    (fence_value : Nat) : Outcome Unit × GpuSystem MA DA × Device :=
  if s.fence_ && s.fence_event_ then
    GpuSystem.waitForGpuLoop fuel queueIndices s d fence_value
  else (.returned (), s, d)

/-- Member `GpuSystem::HandleDeviceLost`. -/
def GpuSystem.HandleDeviceLost (mops : GpuMemoryAllocatorOps MA MB)
    (dops : GpuDescriptorAllocatorOps DA DB) (s : GpuSystem MA DA) : GpuSystem MA DA :=
  { upload_mem_allocator_ := mops.Clear s.upload_mem_allocator_
    readback_mem_allocator_ := mops.Clear s.readback_mem_allocator_
    cbv_srv_uav_desc_allocator_ := dops.Clear s.cbv_srv_uav_desc_allocator_
    cmd_queues_ := fun i =>
      if i < CmdQueueType.Num.index then
        { cmd_queue := false
          cmd_allocators := fun f => if f < FrameCount then false else (s.cmd_queues_ i).cmd_allocators f
          cmd_list_pool := [] }
      else s.cmd_queues_ i
    fence_ := false
    device_ := false
    fence_vals_ := s.fence_vals_
    fence_event_ := s.fence_event_
    frame_index_ := 0 }

/-! ## GpuSystem.cpp: the constructor -/

/-- Inner loop of the constructor, for queue `q` over the frame slots given:
`TIFHR(device_->CreateCommandAllocator(type, ..., allocator.put_void()))`. -/
def GpuSystem.createAllocators (q : Nat) : List Nat → Device → Outcome Unit × Device
  | [], d => (.returned (), d)
  | f :: rest, d =>
    match (TIFHR (fun d1 => d1.call (.CreateCommandAllocator q f)) d).1 with
    | .error e => (.raised e, (TIFHR (fun d1 => d1.call (.CreateCommandAllocator q f)) d).2)
    | .ok _ =>
      GpuSystem.createAllocators q rest
        (TIFHR (fun d1 => d1.call (.CreateCommandAllocator q f)) d).2

/-- Outer loop of the constructor, over the queue indices given:
`TIFHR(device_->CreateCommandQueue(...))`, then the allocators of the queue. -/
def GpuSystem.createQueues : List Nat → Device → Outcome Unit × Device
  | [], d => (.returned (), d)
  | i :: rest, d =>
    match (TIFHR (fun d1 => d1.call (.CreateCommandQueue i)) d).1 with
    | .error e => (.raised e, (TIFHR (fun d1 => d1.call (.CreateCommandQueue i)) d).2)
    | .ok _ =>
      match GpuSystem.createAllocators i (List.range FrameCount)
          (TIFHR (fun d1 => d1.call (.CreateCommandQueue i)) d).2 with
      | (.returned _, d1) => GpuSystem.createQueues rest d1
      | r => r

/-- The data members as their initialisers leave them, once a device has been selected:
`fence_vals_[FrameCount]{}` and `frame_index_ = 0`, every `com_ptr` but `device_` null. -/
def GpuSystem.initial (upload readback : MA) (desc : DA) : GpuSystem MA DA :=
  { device_ := true
    cmd_queues_ := fun _ => { cmd_queue := false, cmd_allocators := fun _ => false, cmd_list_pool := [] }
    fence_ := false
    fence_vals_ := fun _ => 0
    fence_event_ := false
    frame_index_ := 0
    upload_mem_allocator_ := upload
    readback_mem_allocator_ := readback
    cbv_srv_uav_desc_allocator_ := desc }

/-- The object a successful constructor leaves: both queues and their allocators created,
the fence created, `++fence_vals_[frame_index_]` done, the event handle valid. -/
def GpuSystem.constructed (upload readback : MA) (desc : DA) : GpuSystem MA DA :=
  { (GpuSystem.initial upload readback desc).setFenceVal
      ((GpuSystem.initial upload readback desc).fence_vals_
        (GpuSystem.initial upload readback desc).frame_index_) with
    cmd_queues_ := fun i =>
      if i < CmdQueueType.Num.index then
        { cmd_queue := true, cmd_allocators := fun f => decide (f < FrameCount), cmd_list_pool := [] }
      else (GpuSystem.initial upload readback desc).cmd_queues_ i
    fence_ := true
    fence_event_ := true }

/-- Constructor `GpuSystem::GpuSystem`, from the creation of the command queues on (the
selection of the adapter before it is not modelled: a device has been found, and `CreateEvent`
gives a valid handle). -/
def GpuSystem.construct (upload readback : MA) (desc : DA) (d : Device) :
    Outcome (GpuSystem MA DA) × Device :=
  match GpuSystem.createQueues queueIndices d with
  | (.returned _, d1) =>
    match (TIFHR (fun d2 => d2.call (.CreateFence
        ((GpuSystem.initial upload readback desc).fence_vals_
          (GpuSystem.initial upload readback desc).frame_index_))) d1).1 with
    | .error e =>
      (.raised e, (TIFHR (fun d2 => d2.call (.CreateFence
        ((GpuSystem.initial upload readback desc).fence_vals_
          (GpuSystem.initial upload readback desc).frame_index_))) d1).2)
    | .ok _ =>
      (.returned (GpuSystem.constructed upload readback desc),
        (TIFHR (fun d2 => d2.call (.CreateFence
          ((GpuSystem.initial upload readback desc).fence_vals_
            (GpuSystem.initial upload readback desc).frame_index_))) d1).2)
  | (.raised e, d1) => (.raised e, d1)
  | (.blocked, d1) => (.blocked, d1)
  | (.undefined, d1) => (.undefined, d1)

/-! ## Sequences of calls -/

/-- A call of one of the four member functions that touch the fence counters. -/
inductive SchedulerCall where
  | Execute (cmd_list : GpuCommandList) (wait_fence_value : Nat)
  | ExecuteAndReset (cmd_list : GpuCommandList) (wait_fence_value : Nat)
  | MoveToNextFrame
  | WaitForGpu (fence_value : Nat)
  deriving DecidableEq, Repr

/-- Forget the value a call returns. -/
def Outcome.void {α : Type} : Outcome α → Outcome Unit
  | .returned _ => .returned ()
  | .raised e => .raised e
  | .blocked => .blocked
  | .undefined => .undefined

/-- The submission handle of a call that returned one. -/
def Outcome.handle : Outcome Nat → Option Nat
  | .returned h => some h
  | _ => none

/-- Perform one call: how it ended, the handle if it returned one, the object and the device. -/
def GpuSystem.step (s : GpuSystem MA DA) (d : Device) (fuel : Nat) :
    SchedulerCall → (Outcome Unit × Option Nat) × GpuSystem MA DA × Device
  | .Execute cmd_list wait_fence_value =>
    (((s.Execute d cmd_list wait_fence_value).1.void, (s.Execute d cmd_list wait_fence_value).1.handle),
      (s.Execute d cmd_list wait_fence_value).2)
  | .ExecuteAndReset cmd_list wait_fence_value =>
    (((s.ExecuteAndReset d cmd_list wait_fence_value).1.void,
        (s.ExecuteAndReset d cmd_list wait_fence_value).1.handle),
      (s.ExecuteAndReset d cmd_list wait_fence_value).2)
  | .MoveToNextFrame => (((s.MoveToNextFrame d fuel).1, none), (s.MoveToNextFrame d fuel).2)
  | .WaitForGpu fence_value =>
    (((s.WaitForGpu d fuel fence_value).1, none), (s.WaitForGpu d fuel fence_value).2)

/-- Perform the calls in order and collect the handles returned, oldest first. A caller
may go on after an exception; nothing follows a call that never returns or whose
behaviour is undefined. -/
def GpuSystem.run (fuel : Nat) :
    List SchedulerCall → GpuSystem MA DA → Device → List Nat × GpuSystem MA DA × Device
  | [], s, d => ([], s, d)
  | c :: rest, s, d =>
    match (s.step d fuel c).1.1 with
    | .blocked => ([], (s.step d fuel c).2)
    | .undefined => ([], (s.step d fuel c).2)
    | _ =>
      (((s.step d fuel c).1.2).toList ++
          (GpuSystem.run fuel rest (s.step d fuel c).2.1 (s.step d fuel c).2.2).1,
        (GpuSystem.run fuel rest (s.step d fuel c).2.1 (s.step d fuel c).2.2).2)

/-- Reports of the fence value the thread gets from the device: a read, or a wake-up. -/
def DriverCall.reported : DriverCall → Option Nat
  | .GetCompletedValue r => some r
  | .WaitForSingleObjectEx r => some r
  | _ => none

/-- Tick at which `ExecuteOnly` issues its `Signal`: after `Close`, the `Wait` when there is
one, and `ExecuteCommandLists`. -/
def ExecuteOnly.signalTick (d : Device) (wait_fence_value : Nat) : Nat :=
  d.now + (if wait_fence_value ≠ MaxFenceValue then 3 else 2)

/-- The last fence value the thread has been told by the device, if any. -/
def lastReported (calls : List DriverCall) : Option Nat :=
  (calls.reverse.filterMap DriverCall.reported).head?

/-! ## Concrete inputs -/

/-- A driver that accepts every call, on a device whose fence shows 0 before tick `idle`
and `value` from then on. -/
def sampleDevice (idle value : Nat) : Device :=
  { completed := fun t => if t < idle then 0 else value
    hresult := fun _ => 0
    now := 0
    calls := [] }

/-- A recorded command list for the graphics queue, with native list 7. -/
def sampleList : GpuCommandList := { type_ := .Graphics, cmd_list_ := some 7 }

/-- A request an allocator has received. -/
inductive AllocatorRequest where
  | Allocate (size alignment : Nat)
  | Deallocate (block fence_value : Nat)
  | Reallocate (block fence_value size alignment : Nat)
  | Clear
  deriving DecidableEq, Repr

/-- A memory allocator that only records the requests it receives; a block is named by
the number of requests before it. -/
def recordingMemoryAllocator : GpuMemoryAllocatorOps (List AllocatorRequest) Nat :=
  { Allocate := fun a size alignment => (a.length, a ++ [.Allocate size alignment])
    Deallocate := fun a block fence_value => a ++ [.Deallocate block fence_value]
    Reallocate := fun a block fence_value size alignment =>
      (a.length, a ++ [.Reallocate block fence_value size alignment])
    Clear := fun a => a ++ [.Clear] }

/-- A descriptor allocator that only records the requests it receives. -/
def recordingDescriptorAllocator : GpuDescriptorAllocatorOps (List AllocatorRequest) Nat :=
  { DescriptorSize := fun _ => 32
    Allocate := fun a size => (a.length, a ++ [.Allocate size 1])
    Deallocate := fun a block fence_value => a ++ [.Deallocate block fence_value]
    Reallocate := fun a block fence_value size =>
      (a.length, a ++ [.Reallocate block fence_value size 1])
    Clear := fun a => a ++ [.Clear] }

/-- A freshly constructed scheduler over the recording allocators. -/
def sampleSystem : GpuSystem (List AllocatorRequest) (List AllocatorRequest) :=
  GpuSystem.constructed [] [] []

/-- A driver that rejects the call issued at tick `tick` with `E_FAIL` and accepts every
other call, on a device whose fence shows `value` throughout. -/
def rejectingDevice (tick value : Nat) : Device :=
  { completed := fun _ => value
    hresult := fun t => if t = tick then -2147467259 else 0
    now := 0
    calls := [] }

/-- The scheduler two frames after construction: slot 2 is active, the counters are 1, 2, 3. -/
def thirdFrameSystem : GpuSystem (List AllocatorRequest) (List AllocatorRequest) :=
  (sampleSystem.run 0 [.MoveToNextFrame, .MoveToNextFrame] (sampleDevice 0 0)).2.1

/-- The frame index and the slot counters of `s1` are those of `s`. -/
def GpuSystem.sameCounters (s s1 : GpuSystem MA DA) : Prop :=
  s1.frame_index_ = s.frame_index_ ∧ s1.fence_vals_ = s.fence_vals_

/-- True for every call but a `WaitForGpu` with an explicit counter value. -/
def SchedulerCall.defaultCounter : SchedulerCall → Bool
  | .WaitForGpu fence_value => decide (fence_value = MaxFenceValue)
  | _ => true

/-- Every call of the sequence returns normally (none raises, sleeps beyond the fuel, or
has undefined behaviour). -/
def GpuSystem.allReturn (fuel : Nat) : List SchedulerCall → GpuSystem MA DA → Device → Bool
  | [], _, _ => true
  | c :: rest, s, d =>
    decide ((s.step d fuel c).1.1 = .returned ()) &&
      GpuSystem.allReturn fuel rest (s.step d fuel c).2.1 (s.step d fuel c).2.2

/-- The counter of the active frame slot, `fence_vals_[frame_index_]`. -/
def GpuSystem.activeCounter (s : GpuSystem MA DA) : Nat := s.fence_vals_ s.frame_index_

/-- The creation calls of the constructor, in the order in which it issues them: for each
queue its command queue and then its per-frame command allocators, and last the fence, with
the initial value `fence_vals_[frame_index_]` of the member initialisers. -/
def GpuSystem.creationCalls : List DriverCall :=
  (queueIndices.flatMap fun i =>
    DriverCall.CreateCommandQueue i ::
      (List.range FrameCount).map (DriverCall.CreateCommandAllocator i)) ++
  [.CreateFence 0]

/-- True when the caller can go on after the call: it returned, or it raised an exception
that the caller may catch. -/
def Outcome.continues {α : Type} : Outcome α → Bool
  | .returned _ => true
  | .raised _ => true
  | .blocked => false
  | .undefined => false

/-- The states of the object that its owner can reach: the object a constructor call
returns, and from there any public member function, with any arguments and whatever the
device does, as long as the call returns or raises (nothing follows a call that never
returns or whose behaviour is undefined). -/
inductive GpuSystem.Reachable (mops : GpuMemoryAllocatorOps MA MB)
    (dops : GpuDescriptorAllocatorOps DA DB) : GpuSystem MA DA → Prop where
  | construct (upload readback : MA) (desc : DA) (d d1 : Device) (s : GpuSystem MA DA) :
      GpuSystem.construct upload readback desc d = (.returned s, d1) →
      GpuSystem.Reachable mops dops s
  | MoveToNextFrame (s : GpuSystem MA DA) (d : Device) (fuel : Nat) :
      GpuSystem.Reachable mops dops s → (s.MoveToNextFrame d fuel).1.continues = true →
      GpuSystem.Reachable mops dops (s.MoveToNextFrame d fuel).2.1
  | Execute (s : GpuSystem MA DA) (d : Device) (cmd_list : GpuCommandList) (w : Nat) :
      GpuSystem.Reachable mops dops s → (s.Execute d cmd_list w).1.continues = true →
      GpuSystem.Reachable mops dops (s.Execute d cmd_list w).2.1
  | ExecuteAndReset (s : GpuSystem MA DA) (d : Device) (cmd_list : GpuCommandList) (w : Nat) :
      GpuSystem.Reachable mops dops s → (s.ExecuteAndReset d cmd_list w).1.continues = true →
      GpuSystem.Reachable mops dops (s.ExecuteAndReset d cmd_list w).2.1
  | CreateCommandList (s : GpuSystem MA DA) (d : Device) (type : CmdQueueType) :
      GpuSystem.Reachable mops dops s → (s.CreateCommandList d type).1.continues = true →
      GpuSystem.Reachable mops dops (s.CreateCommandList d type).2.1
  | WaitForGpu (s : GpuSystem MA DA) (d : Device) (fuel fence_value : Nat) :
      GpuSystem.Reachable mops dops s → (s.WaitForGpu d fuel fence_value).1.continues = true →
      GpuSystem.Reachable mops dops (s.WaitForGpu d fuel fence_value).2.1
  | HandleDeviceLost (s : GpuSystem MA DA) :
      GpuSystem.Reachable mops dops s →
      GpuSystem.Reachable mops dops (s.HandleDeviceLost mops dops)
  | AllocCbvSrvUavDescBlock (s : GpuSystem MA DA) (size : Nat) :
      GpuSystem.Reachable mops dops s →
      GpuSystem.Reachable mops dops (s.AllocCbvSrvUavDescBlock dops size).2
  | DeallocCbvSrvUavDescBlock (s : GpuSystem MA DA) (desc_block : DB) :
      GpuSystem.Reachable mops dops s →
      GpuSystem.Reachable mops dops (s.DeallocCbvSrvUavDescBlock dops desc_block)
  | ReallocCbvSrvUavDescBlock (s : GpuSystem MA DA) (desc_block : DB) (size : Nat) :
      GpuSystem.Reachable mops dops s →
      GpuSystem.Reachable mops dops (s.ReallocCbvSrvUavDescBlock dops desc_block size).2
  | AllocUploadMemBlock (s : GpuSystem MA DA) (size_in_bytes alignment : Nat) :
      GpuSystem.Reachable mops dops s →
      GpuSystem.Reachable mops dops (s.AllocUploadMemBlock mops size_in_bytes alignment).2
  | DeallocUploadMemBlock (s : GpuSystem MA DA) (mem_block : MB) :
      GpuSystem.Reachable mops dops s →
      GpuSystem.Reachable mops dops (s.DeallocUploadMemBlock mops mem_block)
  | ReallocUploadMemBlock (s : GpuSystem MA DA) (mem_block : MB)
      (size_in_bytes alignment : Nat) :
      GpuSystem.Reachable mops dops s →
      GpuSystem.Reachable mops dops
        (s.ReallocUploadMemBlock mops mem_block size_in_bytes alignment).2
  | AllocReadbackMemBlock (s : GpuSystem MA DA) (size_in_bytes alignment : Nat) :
      GpuSystem.Reachable mops dops s →
      GpuSystem.Reachable mops dops (s.AllocReadbackMemBlock mops size_in_bytes alignment).2
  | DeallocReadbackMemBlock (s : GpuSystem MA DA) (mem_block : MB) :
      GpuSystem.Reachable mops dops s →
      GpuSystem.Reachable mops dops (s.DeallocReadbackMemBlock mops mem_block)
  | ReallocReadbackMemBlock (s : GpuSystem MA DA) (mem_block : MB)
      (size_in_bytes alignment : Nat) :
      GpuSystem.Reachable mops dops s →
      GpuSystem.Reachable mops dops
        (s.ReallocReadbackMemBlock mops mem_block size_in_bytes alignment).2

/-- Every entry of a reuse pool is a list of the pool's queue type with a native list. -/
def GpuSystem.poolsWellFormed (s : GpuSystem MA DA) : Prop :=
  ∀ i l, l ∈ (s.cmd_queues_ i).cmd_list_pool →
    l.type_ ≠ .Num ∧ l.Type.index = i ∧ l.cmd_list_ ≠ none

/-- The scheduler after one `Execute` of `sampleList` on a freshly constructed object: the
list is in the pool of the graphics queue. -/
def pooledSystem : GpuSystem (List AllocatorRequest) (List AllocatorRequest) :=
  (sampleSystem.Execute (sampleDevice 0 0) sampleList MaxFenceValue).2.1

/-- The queue and the value of a `Signal`; nothing for every other driver call. -/
def DriverCall.signalled : DriverCall → Option (Nat × Nat)
  | .Signal queue value => some (queue, value)
  | _ => none

/-! ## MotionToGo.cpp: the main loop -/

/-- Class `Reader` as the main loop uses it: `ReadFrame(frame_tex, timespan)` either loads a
frame into the texture and returns true (here `some` of the frame loaded), or returns
false. -/
structure ReaderOps (R F : Type) where
  ReadFrame : R → Option F × R

/-- The calls of the main loop to the reader, the generator, the scheduler and
`SaveTexture`, with the index of the texture slot they work on. `AddFrame` carries the
input frame held by `frame_texs[slot]`; `SaveTexture` carries the number in the file name
`Frame_{}.png` and the input frame whose result `motion_blurred_texs[slot]` holds. -/
inductive MainCall (F : Type) where
  | ReadFrame (slot : Nat) (loaded : Option F)
  | AddFrame (slot : Nat) (frame : Option F)
  | MoveToNextFrame
  | SaveTexture (slot : Nat) (number : Nat) (texture : Option F)
  deriving DecidableEq, Repr

/-- The variables of the main loop. `frame_index` is `gpu_system.FrameIndex()`; a texture
is described by the input frame it holds (`frame_texs`) or whose result it holds
(`motion_blurred_texs`), `none` while the texture is null. -/
structure MainLoop (R F : Type) where
  i : Nat
  total_frames : Nat
  reader : R
  frame_index : Nat
  frame_texs : Nat → Option F
  motion_blurred_texs : Nat → Option F
  calls : List (MainCall F)

/-- The block under `if (total_frames == 0)`: read a frame into the slot of the frame
index; when there is one, `AddFrame` writes its result to the output texture of the slot
and `MoveToNextFrame` (taken to return) advances the frame index; when there is none,
`total_frames = i`. -/
def MainLoop.readBlock {R F : Type} (ops : ReaderOps R F) (st : MainLoop R F) : MainLoop R F :=
  if st.total_frames = 0 then
    match ops.ReadFrame st.reader with
    | (some frame, reader) =>
      { st with
        reader := reader
        frame_index := (st.frame_index + 1) % UINT32_SIZE % FrameCount
        frame_texs := Function.update st.frame_texs (st.frame_index % FrameCount) (some frame)
        motion_blurred_texs :=
          Function.update st.motion_blurred_texs (st.frame_index % FrameCount) (some frame)
        calls := st.calls ++
          [.ReadFrame (st.frame_index % FrameCount) (some frame),
            .AddFrame (st.frame_index % FrameCount) (some frame), .MoveToNextFrame] }
    | (none, reader) =>
      { st with
        reader := reader
        total_frames := st.i
        calls := st.calls ++ [.ReadFrame (st.frame_index % FrameCount) none] }
  else st

/-- The block under `if (i >= GpuSystem::FrameCount - 1)`: save the output texture of
`saving_index = i - (FrameCount - 1)` as `Frame_{saving_index + 1}.png`. -/
def MainLoop.saveBlock {R F : Type} (st : MainLoop R F) : MainLoop R F :=
  if FrameCount - 1 ≤ st.i then
    { st with
      calls := st.calls ++
        [.SaveTexture ((st.i - (FrameCount - 1)) % FrameCount) (st.i - (FrameCount - 1) + 1)
          (st.motion_blurred_texs ((st.i - (FrameCount - 1)) % FrameCount))] }
  else st

/-- One pass of the body of `for (uint32_t i = 0;; ++i)`; the flag tells whether the pass
ended in `break`. -/
def MainLoop.body {R F : Type} (ops : ReaderOps R F) (st : MainLoop R F) : MainLoop R F × Bool :=
  if (st.readBlock ops).saveBlock.total_frames ≠ 0 ∧
      (st.readBlock ops).saveBlock.i =
        ((st.readBlock ops).saveBlock.total_frames - 1 + FrameCount - 1) % UINT32_SIZE then
    ((st.readBlock ops).saveBlock, true)
  else
    ({ (st.readBlock ops).saveBlock with i := ((st.readBlock ops).saveBlock.i + 1) % UINT32_SIZE },
      false)

/-- The loop, for at most `fuel` passes: the variables at the `break`, or `none` when the
loop has not ended by then. -/
def MainLoop.run {R F : Type} (ops : ReaderOps R F) : Nat → MainLoop R F → Option (MainLoop R F)
  | 0, _ => none
  | fuel + 1, st =>
    match MainLoop.body ops st with
    | (st1, true) => some st1
    | (st1, false) => MainLoop.run ops fuel st1

/-- The variables before the first pass: the scheduler has just been constructed, the
textures are null. -/
def MainLoop.start {R F : Type} (reader : R) : MainLoop R F :=
  { i := 0
    total_frames := 0
    reader := reader
    frame_index := 0
    frame_texs := fun _ => none
    motion_blurred_texs := fun _ => none
    calls := [] }

/-- The reader yields the frames of the list, in order, and then reports the end. -/
def ReaderOps.yields {R F : Type} (ops : ReaderOps R F) : R → List F → Prop
  | r, [] => (ops.ReadFrame r).1 = none
  | r, f :: rest => (ops.ReadFrame r).1 = some f ∧ ops.yields (ops.ReadFrame r).2 rest

/-- The slot and the frame of an `AddFrame`. -/
def MainCall.added {F : Type} : MainCall F → Option (Nat × Option F)
  | .AddFrame slot frame => some (slot, frame)
  | _ => none

/-- The slot, the file number and the texture content of a `SaveTexture`. -/
def MainCall.saved {F : Type} : MainCall F → Option (Nat × Nat × Option F)
  | .SaveTexture slot number texture => some (slot, number, texture)
  | _ => none

/-- The `SaveTexture` of pass `i`, if the pass has one. -/
def passSave {F : Type} (i : Nat) (texs : Nat → Option F) : List (MainCall F) :=
  if 2 ≤ i then [.SaveTexture ((i - 2) % 3) (i - 1) (texs ((i - 2) % 3))] else []

/-- The calls of the passes from pass `i` on, when the reader still has the frames given
and the output textures hold `texs`. -/
def passCalls {F : Type} : Nat → (Nat → Option F) → List F → List (MainCall F)
  | i, texs, [] => [.ReadFrame (i % 3) none] ++ passSave i texs ++ passSave (i + 1) texs
  | i, texs, f :: rest =>
    [.ReadFrame (i % 3) (some f), .AddFrame (i % 3) (some f), .MoveToNextFrame] ++
      passSave i (Function.update texs (i % 3) (some f)) ++
      passCalls (i + 1) (Function.update texs (i % 3) (some f)) rest

/-- Class `ImageSeqReader`: the file names found and the index of the next one to load. -/
structure ImageSeqReader (P : Type) where
  files_ : List P
  curr_frame_ : Nat

/-- The object the constructor of `ImageSeqReader` leaves when its loop over the directory
has pushed the file names given: `std::sort(files_.begin(), files_.end())` puts them in
ascending order. -/
def ImageSeqReader.sorted {P : Type} [LinearOrder P] (pushed : List P) : ImageSeqReader P :=
  { files_ := pushed.insertionSort (· ≤ ·), curr_frame_ := 0 }

/-- Member `ImageSeqReader::ReadFrame`: the file `LoadTexture` is called with. -/
def ImageSeqReader.ReadFrame {P : Type} (r : ImageSeqReader P) : Option P × ImageSeqReader P :=
  if h : r.curr_frame_ < r.files_.length then
    (some (r.files_.get ⟨r.curr_frame_, h⟩),
      { r with curr_frame_ := (r.curr_frame_ + 1) % UINT32_SIZE })
  else (none, r)

/-- The image sequence reader behind the `Reader` interface. -/
def imageSeqReader (P : Type) : ReaderOps (ImageSeqReader P) P :=
  { ReadFrame := ImageSeqReader.ReadFrame }

/-- A reader over numbered frames: in state `r` it yields frame `r` while `r < n`. -/
def countingReader (n : Nat) : ReaderOps Nat Nat :=
  { ReadFrame := fun r => if r < n then (some r, r + 1) else (none, r) }

/-! ## RingAllocator

The classes behind `upload_mem_allocator_` and `readback_mem_allocator_` are declared in
`GpuMemoryAllocator.hpp`, which is not among the sources. -/

/-- Modelled from the spec: `GpuMemoryAllocator.hpp` and `GpuMemoryAllocator.cpp` are not
among the sources. A `MemoryBlock` is "offset, size, owning-allocator-generation". -/
structure MemoryBlock where
  offset : Nat
  size : Nat
  generation : Nat
  deriving DecidableEq, Repr

/-- Modelled from the spec: the allocator source is missing. Two blocks overlap when some
byte offset lies in both ranges. -/
def MemoryBlock.overlaps (a b : MemoryBlock) : Prop :=
  0 < a.size ∧ 0 < b.size ∧ a.offset < b.offset + b.size ∧ b.offset < a.offset + a.size

instance (a b : MemoryBlock) : Decidable (a.overlaps b) := by
  unfold MemoryBlock.overlaps
  infer_instance

/-- Modelled from the spec: the allocator source is missing. The allocator is "tracking
free/used ranges tagged by the completion-counter value at which they become reusable": a
range is in use, in the PendingFree list with its counter value, or in the free list. -/
inductive RangeState where
  | used
  | pendingFree (counter : Nat)
  | free
  deriving DecidableEq, Repr

/-- Modelled from the spec: the allocator source is missing. A range the allocator
tracks. -/
structure TrackedRange where
  block : MemoryBlock
  state : RangeState
  deriving DecidableEq, Repr

/-- Modelled from the spec: the allocator source is missing. "A linear bump allocator over
a growable backing buffer": the capacity and the generation of the active buffer, the bump
cursor, and the ranges tracked. -/
structure RingAllocator where
  capacity : Nat
  generation : Nat
  cursor : Nat
  ranges : List TrackedRange
  deriving DecidableEq, Repr

/-- Modelled from the spec: the allocator source is missing. The "alignment-rounded"
offset: the least multiple of the alignment that is not below `x`. -/
def alignUp (x alignment : Nat) : Nat :=
  if alignment = 0 then x else (x + alignment - 1) / alignment * alignment

/-- Modelled from the spec: the allocator source is missing. Reclamation of one range:
"entries in PendingFree whose tagged counter is ≤ the confirmed-complete counter are
returned to a free list"; an entry of an old buffer is retired with it. -/
def TrackedRange.retire (generation completed : Nat) (r : TrackedRange) : Option TrackedRange :=
  match r.state with
  | .pendingFree counter =>
    if counter ≤ completed then
      if r.block.generation = generation then some { r with state := .free } else none
    else some r
  | _ => some r

/-- Modelled from the spec: the allocator source is missing. True when two free ranges of
one buffer are adjacent, the second starting where the first ends. -/
def TrackedRange.adjacent (r1 r2 : TrackedRange) : Bool :=
  decide (r1.state = .free ∧ r2.state = .free ∧ r1.block.generation = r2.block.generation ∧
    r1.block.offset + r1.block.size = r2.block.offset)

/-- Modelled from the spec: the allocator source is missing. "Best-effort coalescing of
adjacent ranges": `cur` absorbs the free ranges that follow it in the list and start where
it ends. -/
def coalesceInto (cur : TrackedRange) : List TrackedRange → List TrackedRange
  | [] => [cur]
  | r :: rest =>
    if cur.adjacent r then
      coalesceInto
        { block := { cur.block with size := cur.block.size + r.block.size }, state := .free } rest
    else cur :: coalesceInto r rest

/-- Modelled from the spec: the allocator source is missing. Coalescing of the tracked
ranges. -/
def coalesce : List TrackedRange → List TrackedRange
  | [] => []
  | r :: rest => coalesceInto r rest

/-- Modelled from the spec: the allocator source is missing. The step "before each
`Allocate`": reclaim the confirmed entries, then coalesce. -/
def RingAllocator.reclaim (a : RingAllocator) (completed : Nat) : RingAllocator :=
  { a with ranges := coalesce (a.ranges.filterMap (TrackedRange.retire a.generation completed)) }

/-- Modelled from the spec: the allocator source is missing. True when the free range can
hold `size` bytes from its alignment-rounded start; with `exact`, only when it is exactly
that range. -/
def TrackedRange.fits (exact : Bool) (size alignment : Nat) (r : TrackedRange) : Bool :=
  decide (r.state = .free ∧
    alignUp r.block.offset alignment + size ≤ r.block.offset + r.block.size ∧
    (exact = true → alignUp r.block.offset alignment = r.block.offset ∧ r.block.size = size))

/-- Modelled from the spec: the allocator source is missing. The free list is "consulted
before extending the bump cursor": take the block from the first range that fits; what is
left of the range before and after the block stays free. -/
def takeFit (exact : Bool) (size alignment : Nat) :
    List TrackedRange → Option (MemoryBlock × List TrackedRange)
  | [] => none
  | r :: rest =>
    if r.fits exact size alignment then
      some ({ offset := alignUp r.block.offset alignment, size := size,
              generation := r.block.generation },
        { block := { r.block with size := alignUp r.block.offset alignment - r.block.offset },
          state := .free } ::
        { block := { offset := alignUp r.block.offset alignment, size := size,
                     generation := r.block.generation },
          state := .used } ::
        { block := { offset := alignUp r.block.offset alignment + size,
                     size := r.block.offset + r.block.size -
                       (alignUp r.block.offset alignment + size),
                     generation := r.block.generation },
          state := .free } :: rest)
    else
      match takeFit exact size alignment rest with
      | none => none
      | some (b, rest1) => some (b, r :: rest1)

/-- Modelled from the spec: the allocator source is missing. The bump step of `Allocate`:
"the next alignment-rounded range from an internal bump cursor within the current active
capacity"; "if no contiguous capacity remains, the allocator grows the backing buffer
(doubling or to at least the requested size)" and bump allocation goes on in the part
added, in a new generation; the free ranges of the old buffer go with it, its used and
pending ranges stay tracked. -/
def RingAllocator.bump (a : RingAllocator) (size alignment : Nat) : MemoryBlock × RingAllocator :=
  if alignUp a.cursor alignment + size ≤ a.capacity then
    ({ offset := alignUp a.cursor alignment, size := size, generation := a.generation },
      { a with
        cursor := alignUp a.cursor alignment + size
        ranges := a.ranges ++
          [{ block := { offset := alignUp a.cursor alignment, size := size,
                        generation := a.generation },
             state := .used }] })
  else
    ({ offset := alignUp a.capacity alignment, size := size, generation := a.generation + 1 },
      { capacity := max (2 * a.capacity) (alignUp a.capacity alignment + size)
        generation := a.generation + 1
        cursor := alignUp a.capacity alignment + size
        ranges := a.ranges.filter (fun r => decide (r.state ≠ .free)) ++
          [{ block := { offset := alignUp a.capacity alignment, size := size,
                        generation := a.generation + 1 },
             state := .used }] })

/-- Modelled from the spec: the allocator source is missing. `Allocate(size, alignment)`,
with the confirmed-complete counter value it finds: reclaim, then an exact fit in the free
list, then a first fit ("exact-fit and first-fit matches preferred over growth"), then the
bump cursor. -/
def RingAllocator.Allocate (a : RingAllocator) (size alignment completed : Nat) :
    MemoryBlock × RingAllocator :=
  match takeFit true size alignment (a.reclaim completed).ranges with
  | some (b, ranges) => (b, { a.reclaim completed with ranges := ranges })
  | none =>
    match takeFit false size alignment (a.reclaim completed).ranges with
    | some (b, ranges) => (b, { a.reclaim completed with ranges := ranges })
    | none => (a.reclaim completed).bump size alignment

/-- Modelled from the spec: the allocator source is missing. The first used range with the
block given becomes a PendingFree entry tagged with the counter; `none` when the block is
not a used range. -/
def markPending (block : MemoryBlock) (counter : Nat) :
    List TrackedRange → Option (List TrackedRange)
  | [] => none
  | r :: rest =>
    if r.block = block ∧ r.state = .used then
      some ({ r with state := .pendingFree counter } :: rest)
    else
      match markPending block counter rest with
      | none => none
      | some rest1 => some (r :: rest1)

/-- Modelled from the spec: the allocator source is missing. `Deallocate(block, counter)`:
"tags block with current counter and inserts into the PendingFree list; does not free
capacity immediately". A block that is not in use is refused (`none`). -/
def RingAllocator.Deallocate (a : RingAllocator) (block : MemoryBlock) (counter : Nat) :
    Option RingAllocator :=
  match markPending block counter a.ranges with
  | none => none
  | some ranges => some { a with ranges := ranges }

/-- Modelled from the spec: the allocator source is missing. An empty allocator over a
buffer of the capacity given. -/
def RingAllocator.empty (capacity : Nat) : RingAllocator :=
  { capacity := capacity, generation := 0, cursor := 0, ranges := [] }

/-- Modelled from the spec: the allocator source is missing. A call of the allocator;
`Allocate` comes with the confirmed-complete counter value at the time of the call. -/
inductive RingCall where
  | Allocate (size alignment completed : Nat)
  | Deallocate (block : MemoryBlock) (counter : Nat)
  deriving DecidableEq, Repr

/-- Modelled from the spec: the allocator source is missing. What a call did: the block an
`Allocate` returned, with the highest confirmed-complete value seen up to that call; the
block and tag of a `Deallocate` that was accepted. -/
inductive RingEvent where
  | allocated (block : MemoryBlock) (reached : Nat)
  | deallocated (block : MemoryBlock) (counter : Nat)
  deriving DecidableEq, Repr

/-- Modelled from the spec: the allocator source is missing. Perform the calls in order,
from an allocator that has seen the confirmed-complete counter reach `reached`. -/
def RingAllocator.run : List RingCall → RingAllocator → Nat → List RingEvent
  | [], _, _ => []
  | .Allocate size alignment completed :: rest, a, reached =>
    .allocated (a.Allocate size alignment completed).1 (max reached completed) ::
      RingAllocator.run rest (a.Allocate size alignment completed).2 (max reached completed)
  | .Deallocate block counter :: rest, a, reached =>
    match a.Deallocate block counter with
    | none => RingAllocator.run rest a reached
    | some a1 => .deallocated block counter :: RingAllocator.run rest a1 reached

/-- Modelled from the spec: the allocator source is missing. The tracked ranges do not
overlap one another and end at or below the cursor. -/
def Tidy (cursor : Nat) (l : List TrackedRange) : Prop :=
  l.Pairwise (fun r1 r2 => ¬ r1.block.overlaps r2.block) ∧
  ∀ r ∈ l, r.block.offset + r.block.size ≤ cursor

/-- Modelled from the spec: the allocator source is missing. The block `z` overlaps no
range of the list. -/
def clearOf (z : MemoryBlock) (l : List TrackedRange) : Prop :=
  ∀ r ∈ l, ¬ z.overlaps r.block

/-- Modelled from the spec: the allocator source is missing. The invariant of the
allocator: tidy ranges, and the cursor within the capacity. -/
def RingAllocator.WellFormed (a : RingAllocator) : Prop :=
  Tidy a.cursor a.ranges ∧ a.cursor ≤ a.capacity

/-- Modelled from the spec: the allocator source is missing. Every block deallocated so far
has a tag the confirmed-complete counter has reached, or is still a PendingFree entry. -/
def RingAllocator.Accounted (a : RingAllocator) (reached : Nat) (past : List RingEvent) : Prop :=
  ∀ b v, RingEvent.deallocated b v ∈ past →
    v ≤ reached ∨ { block := b, state := .pendingFree v } ∈ a.ranges

/-! ## MotionBlurGenerator.cpp: AddFrame -/

/-- The type `DXGI_FORMAT` of the Windows SDK, by its numeric values. -/
abbrev DXGI_FORMAT := Nat

/-- The value of `DXGI_FORMAT_R8G8B8A8_UNORM` in `dxgiformat.h`. -/
def DXGI_FORMAT_R8G8B8A8_UNORM : DXGI_FORMAT := 28

/-- The value of `DXGI_FORMAT_R16G16_SINT` in `dxgiformat.h`. -/
def DXGI_FORMAT_R16G16_SINT : DXGI_FORMAT := 38

/-- The value of `DXGI_FORMAT_R8G8_UNORM` in `dxgiformat.h`. -/
def DXGI_FORMAT_R8G8_UNORM : DXGI_FORMAT := 49

/-- The value of `DXGI_FORMAT_NV12` in `dxgiformat.h`. -/
def DXGI_FORMAT_NV12 : DXGI_FORMAT := 103

/-- Struct `D3D12_BOX` of the Windows SDK. -/
structure D3D12_BOX where
  left : Nat
  top : Nat
  front : Nat
  right : Nat
  bottom : Nat
  back : Nat
  deriving DecidableEq, Repr

/-- Member functions of `GpuTexture2D` (declared in `GpuTexture2D.hpp`, outside these
sources) as `AddFrame` calls them: a parameter of the model. `T` is the texture with its
content, `P` the pixel data a readback of the texture gives. -/
structure GpuTexture2DOps (T P : Type) where
  /-- Member `explicit operator bool`: false for a default-constructed texture -/
  valid : T → Bool
  /-- Member `Width(mip)` -/
  Width : T → Nat → Nat
  /-- Member `Height(mip)` -/
  Height : T → Nat → Nat
  /-- Member `Format()` -/
  Format : T → DXGI_FORMAT
  /-- Member `Planes()` -/
  Planes : T → Nat
  /-- Constructor `GpuTexture2D(gpu_system, width, height, mip_levels, format, ...)` -/
  construct : Nat → Nat → Nat → DXGI_FORMAT → T
  /-- Member `CopyFrom(gpu_system, cmd_list, other, sub_resource, dst_x, dst_y, src_box)`:
  the texture once the copy has run -/
  CopyFrom : T → T → Nat → Nat → Nat → D3D12_BOX → T
  /-- What `Readback(gpu_system, cmd_list, 0, data)` stores in `data` -/
  Readback : T → P

/-- The passes of `MotionBlurGenerator` that run a compute shader or the motion estimator
(the compiled shaders are outside these sources): the texture or textures a pass writes, as
a function of the textures it is given, outputs last. `S` is the type of `time_span`. -/
structure GeneratorPasses (T S : Type) where
  /-- Member `ConvertToNv12(frame_rgb_tex, output_frame_nv12_tex)` -/
  ConvertToNv12 : T → T → T
  /-- Member `ConvertToRgb(frame_nv12_tex, output_frame_rgb_tex)` -/
  ConvertToRgb : T → T → T
  /-- Member `EstimateMotionVectors(ref_frame_nv12_tex, input_frame_nv12_tex,
  output_motion_vector_tex, ...)` -/
  EstimateMotionVectors : T → T → T → T
  /-- Member `PropagateMotionBlur(time_span, raw_motion_vector_tex, output_motion_vector_tex,
  output_motion_vector_neighbor_max_tex, ...)` -/
  PropagateMotionBlur : S → T → T → T → T × T
  /-- Member `GatherMotionBlur(frame_tex, motion_vector_tex, motion_vector_neighbor_max_tex,
  output_motion_blurred_tex)` -/
  GatherMotionBlur : T → T → T → T → T
  /-- Member `OverlayMotionVector(motion_vector_tex, output_overlaid_tex)` -/
  OverlayMotionVector : T → T → T

/-- Struct `MotionBlurGenerator::Frame`, its textures. -/
structure Frame (T : Type) where
  frame_rgb_tex : T
  frame_nv12_tex : T
  scaled_frame_nv12_tex : T
  raw_motion_vector_tex : T
  motion_vector_tex : T
  motion_vector_neighbor_max_tex : T

/-- Function `DivUp` of `MotionBlurGenerator.cpp`, in 32-bit arithmetic. -/
def DivUp (a b : Nat) : Nat := (a + b - 1) % UINT32_SIZE / b

/-- Body of the loop `for (uint32_t i = 0; i < GpuSystem::FrameCount; ++i)` in the
first-frame block of `AddFrame`: the textures of one slot, as constructed. `scaled_width`
and `scaled_height` are the values of these locals after the scaling block. -/
def MotionBlurGenerator.createFrame {T P : Type} (tex : GpuTexture2DOps T P) (frame_tex : T)
    (scaled_width scaled_height mv_block_size_ : Nat) : Frame T :=
  { frame_rgb_tex :=
      tex.construct (tex.Width frame_tex 0) (tex.Height frame_tex 0) 1
        (if tex.Format frame_tex ≠ DXGI_FORMAT_NV12 then tex.Format frame_tex
         else DXGI_FORMAT_R8G8B8A8_UNORM)
    frame_nv12_tex := tex.construct (tex.Width frame_tex 0) (tex.Height frame_tex 0) 1 DXGI_FORMAT_NV12
    scaled_frame_nv12_tex := tex.construct scaled_width scaled_height 1 DXGI_FORMAT_NV12
    raw_motion_vector_tex :=
      tex.construct (DivUp scaled_width mv_block_size_) (DivUp scaled_height mv_block_size_) 1
        DXGI_FORMAT_R16G16_SINT
    motion_vector_tex :=
      tex.construct (DivUp (tex.Width frame_tex 0) 16) (DivUp (tex.Height frame_tex 0) 16) 1
        DXGI_FORMAT_R8G8_UNORM
    motion_vector_neighbor_max_tex :=
      tex.construct
        (tex.Width (tex.construct (DivUp (tex.Width frame_tex 0) 16)
          (DivUp (tex.Height frame_tex 0) 16) 1 DXGI_FORMAT_R8G8_UNORM) 0)
        (tex.Height (tex.construct (DivUp (tex.Width frame_tex 0) 16)
          (DivUp (tex.Height frame_tex 0) 16) 1 DXGI_FORMAT_R8G8_UNORM) 0)
        1 DXGI_FORMAT_R8G8_UNORM }

/-- The loop `for (uint32_t p = 0; p < frame_tex.Planes(); ++p)` of `AddFrame`, over the
planes given: `dst.CopyFrom(gpu_system_, cmd_list, frame_tex, p, 0, 0, src_box)`. -/
def MotionBlurGenerator.copyPlanes {T P : Type} (tex : GpuTexture2DOps T P) (frame_tex : T) :
    List Nat → T → T
  | [], dst => dst
  | p :: rest, dst =>
    MotionBlurGenerator.copyPlanes tex frame_tex rest
      (tex.CopyFrom dst frame_tex p 0 0
        { left := 0, top := 0, front := 0, right := tex.Width frame_tex 0 / 2 ^ p,
          bottom := tex.Height frame_tex 0 / 2 ^ p, back := 1 })

/-- Member `MotionBlurGenerator::AddFrame`, its work on the textures, in the order in which
the passes are submitted to the one queue: the output texture and `frames_` afterwards.
`frame_index` is `gpu_system_.FrameIndex()`. The constant buffers, command lists and fence
values are left out. -/
def MotionBlurGenerator.AddFrame {T P S : Type} (tex : GpuTexture2DOps T P)
    (passes : GeneratorPasses T S) (frames_ : Nat → Frame T)
    (frame_index scaled_width scaled_height mv_block_size_ : Nat)
    (motion_blurred_tex frame_tex : T) (time_span : S) (overlay_mv : Bool) :
    T × (Nat → Frame T) :=
  let this_frame := frame_index % FrameCount
  let prev_frame := (frame_index + FrameCount - 1) % UINT32_SIZE % FrameCount
  let first_frame := !tex.valid (frames_ prev_frame).frame_rgb_tex
  let frames1 : Nat → Frame T :=
    if first_frame then
      fun i =>
        if i < FrameCount then
          MotionBlurGenerator.createFrame tex frame_tex scaled_width scaled_height mv_block_size_
        else frames_ i
    else frames_
  let planes := List.range (tex.Planes frame_tex)
  let f1 : Frame T :=
    if tex.Format frame_tex = DXGI_FORMAT_NV12 then
      { frames1 this_frame with
        frame_nv12_tex :=
          MotionBlurGenerator.copyPlanes tex frame_tex planes (frames1 this_frame).frame_nv12_tex
        frame_rgb_tex :=
          passes.ConvertToRgb
            (MotionBlurGenerator.copyPlanes tex frame_tex planes
              (frames1 this_frame).frame_nv12_tex)
            (frames1 this_frame).frame_rgb_tex
        scaled_frame_nv12_tex :=
          passes.ConvertToNv12
            (passes.ConvertToRgb
              (MotionBlurGenerator.copyPlanes tex frame_tex planes
                (frames1 this_frame).frame_nv12_tex)
              (frames1 this_frame).frame_rgb_tex)
            (frames1 this_frame).scaled_frame_nv12_tex }
    else
      { frames1 this_frame with
        frame_rgb_tex :=
          MotionBlurGenerator.copyPlanes tex frame_tex planes (frames1 this_frame).frame_rgb_tex
        scaled_frame_nv12_tex :=
          passes.ConvertToNv12
            (MotionBlurGenerator.copyPlanes tex frame_tex planes
              (frames1 this_frame).frame_rgb_tex)
            (frames1 this_frame).scaled_frame_nv12_tex }
  if first_frame then
    (tex.CopyFrom motion_blurred_tex f1.frame_rgb_tex 0 0 0
        { left := 0, top := 0, front := 0, right := tex.Width frame_tex 0,
          bottom := tex.Height frame_tex 0, back := 1 },
      Function.update frames1 this_frame f1)
  else
    let raw := passes.EstimateMotionVectors (frames1 prev_frame).scaled_frame_nv12_tex
      f1.scaled_frame_nv12_tex f1.raw_motion_vector_tex
    let mv := passes.PropagateMotionBlur time_span raw f1.motion_vector_tex
      f1.motion_vector_neighbor_max_tex
    let blurred := passes.GatherMotionBlur f1.frame_rgb_tex mv.1 mv.2 motion_blurred_tex
    (if overlay_mv then passes.OverlayMotionVector mv.1 blurred else blurred,
      Function.update frames1 this_frame
        { f1 with
          raw_motion_vector_tex := raw
          motion_vector_tex := mv.1
          motion_vector_neighbor_max_tex := mv.2 })

/-- A texture as a record of its description and its pixel data, for concrete inputs. -/
structure PixelTexture where
  valid : Bool
  width : Nat
  height : Nat
  format : DXGI_FORMAT
  data : List Nat
  deriving DecidableEq, Repr

/-- Texture operations on `PixelTexture`: a constructed texture is zero-filled, a copy of
the whole of a texture of the same size replaces the data (any other copy is not
modelled and leaves the destination alone). -/
def pixelTextures : GpuTexture2DOps PixelTexture (List Nat) :=
  { valid := fun t => t.valid
    Width := fun t _ => t.width
    Height := fun t _ => t.height
    Format := fun t => t.format
    Planes := fun t => if t.format = DXGI_FORMAT_NV12 then 2 else 1
    construct := fun width height _ format =>
      { valid := true, width := width, height := height, format := format,
        data := List.replicate (width * height) 0 }
    CopyFrom := fun dst src sub_resource dst_x dst_y src_box =>
      if sub_resource = 0 ∧ dst_x = 0 ∧ dst_y = 0 ∧
          src_box = { left := 0, top := 0, front := 0, right := src.width,
                      bottom := src.height, back := 1 } ∧
          dst.width = src.width ∧ dst.height = src.height then
        { dst with data := src.data }
      else dst
    Readback := fun t => t.data }

/-- Passes that darken or mark their output, for concrete inputs. -/
def samplePasses : GeneratorPasses PixelTexture Nat :=
  { ConvertToNv12 := fun _ out => out
    ConvertToRgb := fun _ out => out
    EstimateMotionVectors := fun _ _ out => out
    PropagateMotionBlur := fun _ _ out1 out2 => (out1, out2)
    GatherMotionBlur := fun frame _ _ out => { out with data := frame.data.map (· / 2) }
    OverlayMotionVector := fun _ out => { out with data := out.data.map (· + 1) } }

/-- A 2 x 1 RGBA frame as the image sequence reader uploads it. -/
def sampleFrame : PixelTexture :=
  { valid := true, width := 2, height := 1, format := DXGI_FORMAT_R8G8B8A8_UNORM,
    data := [4278190335, 4294901760] }

/-- The `frames_` of a generator that has not seen a frame: every texture is null. -/
def nullFrames : Nat → Frame PixelTexture :=
  fun _ =>
    { frame_rgb_tex := { valid := false, width := 0, height := 0, format := 0, data := [] }
      frame_nv12_tex := { valid := false, width := 0, height := 0, format := 0, data := [] }
      scaled_frame_nv12_tex := { valid := false, width := 0, height := 0, format := 0, data := [] }
      raw_motion_vector_tex := { valid := false, width := 0, height := 0, format := 0, data := [] }
      motion_vector_tex := { valid := false, width := 0, height := 0, format := 0, data := [] }
      motion_vector_neighbor_max_tex :=
        { valid := false, width := 0, height := 0, format := 0, data := [] } }

/-- The queue a driver call is issued on, for the calls that are issued on a queue. -/
def DriverCall.queue : DriverCall → Option Nat
  | .Wait queue _ => some queue
  | .ExecuteCommandLists queue _ => some queue
  | .Signal queue _ => some queue
  | _ => none

/-- True for a call of `WaitForGpu`. -/
def SchedulerCall.isWaitForGpu : SchedulerCall → Bool
  | .WaitForGpu _ => true
  | _ => false

/-- Every value that a queue has been asked to signal so far is below the counter of the
active frame slot. -/
def GpuSystem.signalledBelow (s : GpuSystem MA DA) (d : Device) : Prop :=
  ∀ q v, (q, v) ∈ d.calls.filterMap DriverCall.signalled → v < s.activeCounter

/-- The counter of the active frame slot is above the counters of the other slots. -/
def GpuSystem.activeIsGreatest (s : GpuSystem MA DA) : Prop :=
  ∀ j, j < FrameCount → j ≠ s.frame_index_ → s.fence_vals_ j < s.activeCounter

/-! ## Util.hpp -/

/-- The condition of the `static_assert` of `Align`: `(Alignment & (Alignment - 1)) == 0`,
in `uint32_t`. -/
def Align.accepted (Alignment : Nat) : Bool :=
  Nat.land (Alignment % UINT32_SIZE) ((Alignment + UINT32_SIZE - 1) % UINT32_SIZE) == 0

/-- Function `Align<Alignment>(size)`: `(size + (Alignment - 1)) & ~(Alignment - 1)`, in
`uint32_t`. -/
def Align (Alignment size : Nat) : Nat :=
  Nat.land ((size % UINT32_SIZE + (Alignment + UINT32_SIZE - 1) % UINT32_SIZE) % UINT32_SIZE)
    (UINT32_SIZE - 1 - (Alignment + UINT32_SIZE - 1) % UINT32_SIZE)

/-! ## MotionBlurGenerator.cpp: the size bounds of the motion estimator -/

/-- Struct `D3D12_VIDEO_SIZE_RANGE`, as the driver reports it in
`D3D12_FEATURE_DATA_VIDEO_MOTION_ESTIMATOR::SizeRange`. -/
structure D3D12_VIDEO_SIZE_RANGE where
  MaxWidth : Nat
  MaxHeight : Nat
  MinWidth : Nat
  MinHeight : Nat
  deriving DecidableEq, Repr

/-- The members `max_mv_width_`, `max_mv_height_`, `min_mv_width_`, `min_mv_height_` of
`MotionBlurGenerator`. -/
structure MvBounds where
  max_mv_width_ : Nat
  max_mv_height_ : Nat
  min_mv_width_ : Nat
  min_mv_height_ : Nat
  deriving DecidableEq, Repr

/-- Constant `MaxMvWidth` of the constructor. -/
def MaxMvWidth : Nat := 1920

/-- Constant `MaxMvHeight` of the constructor. -/
def MaxMvHeight : Nat := 1080

/-- Constant `MinMvWidth` of the constructor. -/
def MinMvWidth : Nat := 512

/-- Constant `MinMvHeight` of the constructor. -/
def MinMvHeight : Nat := 384

/-- The four assignments of the constructor of `MotionBlurGenerator` that set the size
bounds from the size range the driver reports. -/
def MotionBlurGenerator.sizeBounds (SizeRange : D3D12_VIDEO_SIZE_RANGE) : MvBounds :=
  { max_mv_width_ := min MaxMvWidth SizeRange.MaxWidth
    max_mv_height_ := min MaxMvHeight SizeRange.MaxWidth
    min_mv_width_ := max MinMvWidth SizeRange.MinWidth
    min_mv_height_ := max MinMvHeight SizeRange.MinWidth }

/-- The size bounds taken per dimension from the reported range, as the specification
words them: each height bound from the reported height. -/
def MotionBlurGenerator.sizeBoundsPerDimension (SizeRange : D3D12_VIDEO_SIZE_RANGE) : MvBounds :=
  { max_mv_width_ := min 1920 SizeRange.MaxWidth
    max_mv_height_ := min 1080 SizeRange.MaxHeight
    min_mv_width_ := max 512 SizeRange.MinWidth
    min_mv_height_ := max 384 SizeRange.MinHeight }

/-! ## MotionBlurGenerator.cpp: descriptor slots of a compute shader -/

/-- Struct `ComputeShaderHelper`: the numbers of shader resource views and of unordered
access views of the shader (the fields the slot arithmetic reads). -/
structure ComputeShaderHelper where
  num_srvs : Nat
  num_uavs : Nat
  deriving DecidableEq, Repr

/-- Conversion of a `uint32_t` value to the `int32_t offset` parameter of `OffsetHandle`. -/
def toInt32 (x : Nat) : Int :=
  if x % UINT32_SIZE < 2 ^ 31 then ((x % UINT32_SIZE : Nat) : Int)
  else ((x % UINT32_SIZE : Nat) : Int) - 2 ^ 32

/-- The number of slots `CreateComputeShader` asks `AllocCbvSrvUavDescBlock` for:
`(cs.num_srvs + cs.num_uavs) * GpuSystem::FrameCount`, in `uint32_t`. -/
def MotionBlurGenerator.descBlockSize (cs : ComputeShaderHelper) : Nat :=
  ((cs.num_srvs % UINT32_SIZE + cs.num_uavs % UINT32_SIZE) % UINT32_SIZE * FrameCount) %
    UINT32_SIZE

/-- Local `desc_block_base` of `RunComputeShader`:
`(cs.num_srvs + cs.num_uavs) * gpu_system_.FrameIndex()`, in `uint32_t`. -/
def MotionBlurGenerator.desc_block_base (cs : ComputeShaderHelper) (frame_index : Nat) : Nat :=
  ((cs.num_srvs % UINT32_SIZE + cs.num_uavs % UINT32_SIZE) % UINT32_SIZE *
    (frame_index % UINT32_SIZE)) % UINT32_SIZE

/-- The offset `RunComputeShader` passes to `OffsetHandle` for shader resource view `i`:
`desc_block_base + i`. -/
def MotionBlurGenerator.srvSlot (cs : ComputeShaderHelper) (frame_index i : Nat) : Int :=
  toInt32 ((MotionBlurGenerator.desc_block_base cs frame_index + i % UINT32_SIZE) % UINT32_SIZE)

/-- The offset `RunComputeShader` passes to `OffsetHandle` for unordered access view `i`:
`desc_block_base + cs.num_srvs + i`. -/
def MotionBlurGenerator.uavSlot (cs : ComputeShaderHelper) (frame_index i : Nat) : Int :=
  toInt32 (((MotionBlurGenerator.desc_block_base cs frame_index + cs.num_srvs % UINT32_SIZE) %
    UINT32_SIZE + i % UINT32_SIZE) % UINT32_SIZE)

/-- An offset that `RunComputeShader` uses under the frame index given: that of one of the
shader resource views or of one of the unordered access views. -/
def MotionBlurGenerator.usesSlot (cs : ComputeShaderHelper) (frame_index : Nat) (slot : Int) :
    Prop :=
  (∃ i, i < cs.num_srvs % UINT32_SIZE ∧ slot = MotionBlurGenerator.srvSlot cs frame_index i) ∨
  (∃ i, i < cs.num_uavs % UINT32_SIZE ∧ slot = MotionBlurGenerator.uavSlot cs frame_index i)

/-- Member `rgb_to_nv12_cs_`, as the constructor of `MotionBlurGenerator` sets it. -/
def rgb_to_nv12_cs_ : ComputeShaderHelper := { num_srvs := 1, num_uavs := 2 }

/-- Member `nv12_to_rgb_cs_`, as the constructor sets it. -/
def nv12_to_rgb_cs_ : ComputeShaderHelper := { num_srvs := 2, num_uavs := 1 }

/-- Member `neighbor_max_cs_`, as the constructor sets it. -/
def neighbor_max_cs_ : ComputeShaderHelper := { num_srvs := 1, num_uavs := 2 }

/-- Member `gather_cs_`, as the constructor sets it: four shader resource views, one
unordered access view. -/
def gather_cs_ : ComputeShaderHelper := { num_srvs := 4, num_uavs := 1 }

/-- Member `overlay_cs_`, as the constructor sets it. -/
def overlay_cs_ : ComputeShaderHelper := { num_srvs := 1, num_uavs := 1 }

/-- The five helpers of `MotionBlurGenerator`, the only arguments of `CreateComputeShader`
and `RunComputeShader`. -/
def computeShaderHelpers : List ComputeShaderHelper :=
  [rgb_to_nv12_cs_, nv12_to_rgb_cs_, neighbor_max_cs_, gather_cs_, overlay_cs_]

/-! ## MotionBlurGenerator.cpp: the scaled size of the first frame -/

/-- Expression `static_cast<uint32_t>(a * b / c)` over `uint32_t` operands: the product
wraps, and dividing by zero is undefined (`none`). -/
def mulDiv (a b c : Nat) : Option Nat :=
  if c = 0 then none else some ((a * b) % UINT32_SIZE / c)

/-- Statement `x &= ~1u` on a `uint32_t`. -/
def clearLowBit (x : Nat) : Nat := Nat.land (x % UINT32_SIZE) (UINT32_SIZE - 1 - 1)

/-- One of the two scaling blocks of `AddFrame`, for the bounds `bound_width` and
`bound_height`: when `less bound_width width bound_height height`, which stands for
`static_cast<float>(bound_width) / width < static_cast<float>(bound_height) / height`,
the width becomes the bound and the height is scaled by the same ratio; otherwise the
height becomes the bound and the width is scaled. -/
def MotionBlurGenerator.scaleTo (less : Nat → Nat → Nat → Nat → Bool)
    (bound_width bound_height width height : Nat) : Option (Nat × Nat) :=
  if less bound_width width bound_height height then
    (mulDiv height bound_width width).map fun scaled_height => (bound_width, scaled_height)
  else
    (mulDiv width bound_height height).map fun scaled_width => (scaled_width, bound_height)

/-- The scaled size `AddFrame` computes on the first frame, `(scaled_width, scaled_height)`,
from the size of the frame texture: the block for the maximum, the block for the minimum
(both test the size of the frame, not the size scaled so far), and the rounding down to
even numbers. The comparison of the two `float` quotients is the parameter `less`. -/
def MotionBlurGenerator.scaledSize (less : Nat → Nat → Nat → Nat → Bool) (b : MvBounds)
    (width height : Nat) : Option (Nat × Nat) :=
  (if width > b.max_mv_width_ ∨ height > b.max_mv_height_ then
    MotionBlurGenerator.scaleTo less b.max_mv_width_ b.max_mv_height_ width height
  else some (width, height)).bind fun scaled =>
  (if width < b.min_mv_width_ ∨ height < b.min_mv_height_ then
    MotionBlurGenerator.scaleTo less b.min_mv_width_ b.min_mv_height_ width height
  else some scaled).map fun scaled =>
  (clearLowBit scaled.1, clearLowBit scaled.2)

/-- The comparison of the exact quotients: `a / w < b / h` for positive `w` and `h`. -/
def ratioLess (a w b h : Nat) : Bool := decide (a * h < b * w)

/-- The bounds the constructor sets when the driver reports a range that contains
1920 x 1080 and 512 x 384. -/
def defaultBounds : MvBounds :=
  { max_mv_width_ := 1920, max_mv_height_ := 1080, min_mv_width_ := 512, min_mv_height_ := 384 }

/-! ## ImageSeqReader.cpp: the constructor -/

/-- What the loop of the constructor reads from a `std::filesystem::directory_entry`: the
file name of the entry and `entry.is_directory()`. -/
structure directory_entry where
  filename : List Char
  is_directory : Bool
  deriving DecidableEq, Repr

/-- The part of a file name from its rightmost period on, if it has a period. -/
def fromRightmostPeriod : List Char → Option (List Char)
  | [] => none
  | c :: rest =>
    match fromRightmostPeriod rest with
    | some ext => some ext
    | none => if c = '.' then some (c :: rest) else none

/-- Member `std::filesystem::path::extension` on a file name: the part from the rightmost
period on, the period included; empty when the name is `.` or `..`, has no period, or has
its only period in front. -/
def extension (filename : List Char) : List Char :=
  if filename = ['.'] ∨ filename = ['.', '.'] then []
  else
    match filename with
    | [] => []
    | _ :: rest => (fromRightmostPeriod rest).getD []

/-- The exceptions of the standard library that the constructor can meet. -/
inductive StdException where
  | out_of_range
  deriving DecidableEq, Repr

/-- Call `s.substr(1)` on a `std::string`: the string without its first character;
`std::out_of_range` when the position 1 is beyond the size of the string. -/
def substr1 (s : List Char) : Except StdException (List Char) :=
  if 1 ≤ s.length then .ok (s.drop 1) else .error .out_of_range

/-- Array `SupportedExts` of the constructor. -/
def SupportedExts : List (List Char) :=
  ["jpg".toList, "png".toList, "tga".toList, "bmp".toList, "psd".toList, "pnm".toList]

/-- Call `std::find(std::begin(array), std::end(array), value)`: a pointer to the first
element equal to `value`, or the end pointer, as `some` of the offset from the start of the
array; `none` stands for the null pointer, which is not among the results. -/
def std_find (array : List (List Char)) (value : List Char) : Option Nat :=
  some (array.findIdx fun element => element == value)

/-- One pass of the loop over the directory: for an entry that is not a directory, take the
extension without its first character, lower-case it, and push the file name when the
pointer that `std::find` returns converts to true, that is, when it is not null. -/
def ImageSeqReader.scanEntry (files_ : List (List Char)) (entry : directory_entry) :
    Except StdException (List (List Char)) :=
  if !entry.is_directory then
    match substr1 (extension entry.filename) with
    | .error e => .error e
    | .ok ext =>
      if (std_find SupportedExts (ext.map Char.toLower)).isSome then
        .ok (files_ ++ [entry.filename])
      else .ok files_
  else .ok files_

/-- The loop of the constructor over the entries of the directory, in the order in which
the iterator yields them: `files_` after it, or the exception that ends it. -/
def ImageSeqReader.scan :
    List directory_entry → List (List Char) → Except StdException (List (List Char))
  | [], files_ => .ok files_
  | entry :: rest, files_ =>
    match ImageSeqReader.scanEntry files_ entry with
    | .error e => .error e
    | .ok files1 => ImageSeqReader.scan rest files1

/-- The constructor of `ImageSeqReader`: the loop over the directory and then the sort. -/
def ImageSeqReader.construct (entries : List directory_entry) :
    Except StdException (ImageSeqReader (List Char)) :=
  match ImageSeqReader.scan entries [] with
  | .error e => .error e
  | .ok files_ => .ok (ImageSeqReader.sorted files_)

/-- The extension of a file name is supported: without the period and lower-cased it is
one of the six of `SupportedExts`. -/
def supportedExtension (filename : List Char) : Bool :=
  SupportedExts.contains (((extension filename).drop 1).map Char.toLower)

/-- A directory with two pictures, a text file and a sub-directory. -/
def sampleDirectory : List directory_entry :=
  [{ filename := "b.PNG".toList, is_directory := false },
    { filename := "notes.txt".toList, is_directory := false },
    { filename := "old.png".toList, is_directory := true },
    { filename := "a.jpg".toList, is_directory := false }]

end GpuSystemMembers

end MotionToGo

/-! # Theorems -/

namespace MotionToGo

section Lemmas

variable {MA DA MB DB : Type}

/-! ## The driver calls and the loops -/

theorem TIFHR_accepted (expr : Device → HRESULT × Device) (d : Device)
    (h : 0 ≤ (expr d).1) : TIFHR expr d = (.ok (), (expr d).2) := by
  unfold TIFHR FAILED
  rw [if_neg (by simpa using h)]

theorem TIFHR_rejected (expr : Device → HRESULT × Device) (d : Device)
    (h : (expr d).1 < 0) :
    TIFHR expr d = (.error ⟨(expr (expr d).2).1⟩, (expr (expr d).2).2) := by
  unfold TIFHR FAILED
  rw [if_pos (by simpa using h)]

theorem TIFHR_ok_iff (expr : Device → HRESULT × Device) (d : Device) :
    (TIFHR expr d).1 = Except.ok () ↔ 0 ≤ (expr d).1 := by
  by_cases h : (expr d).1 < 0
  · rw [TIFHR_rejected expr d h]
    simp [h]
  · rw [TIFHR_accepted expr d (not_lt.mp h)]
    simp [not_lt.mp h]

theorem TIFHR_error_iff (expr : Device → HRESULT × Device) (d : Device) (e : HrException) :
    (TIFHR expr d).1 = Except.error e ↔ (expr d).1 < 0 ∧ e = ⟨(expr (expr d).2).1⟩ := by
  by_cases h : (expr d).1 < 0
  · rw [TIFHR_rejected expr d h]
    simp [h]
    exact eq_comm
  · rw [TIFHR_accepted expr d (not_lt.mp h)]
    simp [h]

theorem TIFHR_ok_device (expr : Device → HRESULT × Device) (d : Device) (a : Unit)
    (h : (TIFHR expr d).1 = Except.ok a) : TIFHR expr d = (.ok (), (expr d).2) :=
  TIFHR_accepted expr d ((TIFHR_ok_iff expr d).mp h)

theorem firstReached_some (d : Device) (target : Nat) :
    ∀ (fuel t t1 : Nat), d.firstReached target fuel t = some t1 →
      t ≤ t1 ∧ target ≤ d.completed t1 % UINT64_SIZE := by
  intro fuel
  induction fuel with
  | zero => intro t t1 h; simp [Device.firstReached] at h
  | succ n ih =>
    intro t t1 h
    unfold Device.firstReached at h
    split at h
    · injection h with h; subst h; exact ⟨le_refl _, by assumption⟩
    · have := ih (t + 1) t1 h
      exact ⟨by omega, this.2⟩

theorem WaitForSingleObjectEx_some (d d1 : Device) (fuel target : Nat)
    (h : d.WaitForSingleObjectEx fuel target = some d1) :
    ∃ w, target ≤ w ∧ d1.calls = d.calls ++ [.WaitForSingleObjectEx w] ∧ d.now < d1.now ∧
      d1.completed = d.completed ∧ d1.hresult = d.hresult := by
  unfold Device.WaitForSingleObjectEx at h
  split at h
  · simp at h
  · rename_i t ht
    injection h with h
    subst h
    have := firstReached_some d target fuel d.now t ht
    exact ⟨_, this.2, rfl, by simp; omega, rfl, rfl⟩

theorem queueIndices_eq : queueIndices = [0, 1] := rfl

theorem fromIndex_zero : CmdQueueType.fromIndex 0 = .Graphics := rfl

theorem fromIndex_one : CmdQueueType.fromIndex 1 = .VideoEncode := rfl

theorem index_Graphics : CmdQueueType.Graphics.index = 0 := rfl

theorem index_VideoEncode : CmdQueueType.VideoEncode.index = 1 := rfl

theorem signalQueues_returned (s : GpuSystem MA DA) (v : Nat) (d d1 : Device)
    (h : s.signalQueues v queueIndices d = (.returned (), d1)) :
    d1 = { d with now := d.now + 2, calls := d.calls ++ [.Signal 0 v, .Signal 1 v] } := by
  rw [queueIndices_eq] at h
  simp only [GpuSystem.signalQueues, Device.call, TIFHR, FAILED] at h
  by_cases q0 : (s.cmd_queues_ 0).cmd_queue = true <;>
  by_cases q1 : (s.cmd_queues_ 1).cmd_queue = true <;>
  by_cases h0 : d.hresult d.now < 0 <;>
  by_cases h1 : d.hresult (d.now + 1) < 0 <;>
  simp [q0, q1, h0, h1] at h
  rw [← h]

theorem resetAllocators_returned (s : GpuSystem MA DA) (d d1 : Device)
    (h : s.resetAllocators queueIndices d = (.returned (), d1)) :
    d1 = { d with
      now := d.now + 2
      calls := d.calls ++
        [.ResetCommandAllocator 0 s.frame_index_, .ResetCommandAllocator 1 s.frame_index_] } := by
  rw [queueIndices_eq] at h
  simp only [GpuSystem.resetAllocators, GpuSystem.CurrentCommandAllocator, fromIndex_zero,
    fromIndex_one, index_Graphics, index_VideoEncode, Device.call, TIFHR, FAILED] at h
  by_cases a0 : (s.cmd_queues_ 0).cmd_allocators s.frame_index_ = true <;>
  by_cases a1 : (s.cmd_queues_ 1).cmd_allocators s.frame_index_ = true <;>
  by_cases h0 : d.hresult d.now < 0 <;>
  by_cases h1 : d.hresult (d.now + 1) < 0 <;>
  simp [a0, a1, h0, h1] at h
  rw [← h]

theorem awaitSlot_returned (s : GpuSystem MA DA) (d d1 : Device) (fuel : Nat)
    (h : s.awaitSlot d fuel = (.returned (), d1)) :
    ∃ w, d1.calls = d.calls ++ [.GetCompletedValue (d.completed d.now % UINT64_SIZE)] ++
        (if d.completed d.now % UINT64_SIZE < s.fence_vals_ s.frame_index_ then
          [.SetEventOnCompletion (s.fence_vals_ s.frame_index_), .WaitForSingleObjectEx w]
         else []) ∧
      (d.completed d.now % UINT64_SIZE < s.fence_vals_ s.frame_index_ →
        s.fence_vals_ s.frame_index_ ≤ w) ∧
      d1.completed = d.completed ∧ d1.hresult = d.hresult ∧ d.now < d1.now := by
  unfold GpuSystem.awaitSlot at h
  split at h
  · split at h
    · rename_i hlt
      simp only [Device.GetCompletedValue] at hlt
      unfold GpuSystem.setEventAndWait at h
      split at h
      · simp at h
      · rename_i hok
        rw [TIFHR_ok_device _ _ _ hok] at h
        split at h
        · split at h
          · simp at h
          · rename_i d2 hw
            simp at h
            subst h
            obtain ⟨w, hw1, hw2, hw3, hw4, hw5⟩ := WaitForSingleObjectEx_some _ _ _ _ hw
            refine ⟨w, ?_, fun _ => hw1, ?_, ?_, ?_⟩
            · rw [hw2]; simp [Device.call, Device.GetCompletedValue, hlt]
            · rw [hw4]; rfl
            · rw [hw5]; rfl
            · simp [Device.call, Device.GetCompletedValue] at hw3; omega
        · simp at h
    · rename_i hlt
      simp only [Device.GetCompletedValue] at hlt
      simp at h
      subst h
      refine ⟨0, ?_, fun hh => absurd hh hlt, rfl, rfl, ?_⟩
      · simp [Device.GetCompletedValue, hlt]
      · simp [Device.GetCompletedValue]
  · simp at h


theorem MoveToNextFrame_returned (s s1 : GpuSystem MA DA) (d d1 : Device) (fuel : Nat)
    (h : s.MoveToNextFrame d fuel = (.returned (), s1, d1)) :
    s1 = s.advanceFrame.setFenceVal (s.fence_vals_ s.frame_index_) ∧
    ∃ w, d1.calls = d.calls ++
        [.Signal 0 (s.fence_vals_ s.frame_index_), .Signal 1 (s.fence_vals_ s.frame_index_),
          .GetCompletedValue (d.completed (d.now + 2) % UINT64_SIZE)] ++
        (if d.completed (d.now + 2) % UINT64_SIZE < s.fence_vals_ s.advanceFrame.frame_index_ then
          [.SetEventOnCompletion (s.fence_vals_ s.advanceFrame.frame_index_),
            .WaitForSingleObjectEx w]
         else []) ++
        [.ResetCommandAllocator 0 s.advanceFrame.frame_index_,
          .ResetCommandAllocator 1 s.advanceFrame.frame_index_] ∧
      (d.completed (d.now + 2) % UINT64_SIZE < s.fence_vals_ s.advanceFrame.frame_index_ →
        s.fence_vals_ s.advanceFrame.frame_index_ ≤ w) ∧
      d1.completed = d.completed ∧ d1.hresult = d.hresult ∧ d.now + 5 ≤ d1.now := by
  unfold GpuSystem.MoveToNextFrame at h
  split at h
  · rename_i u da hsig
    have hda := signalQueues_returned s _ d da hsig
    split at h
    · rename_i u2 db hwait
      simp only [Prod.mk.injEq] at h
      obtain ⟨h1, h2, h3⟩ := h
      have hdb := resetAllocators_returned _ db d1 (Prod.ext h1 h3)
      obtain ⟨w, hw1, hw2, hw3, hw4, hw5⟩ := awaitSlot_returned _ da db fuel hwait
      refine ⟨h2.symm, w, ?_, ?_, ?_, ?_, ?_⟩
      · rw [hdb]
        simp only [hw1, hda]
        simp [GpuSystem.setFenceVal, GpuSystem.advanceFrame]
      · intro hlt
        apply hw2
        simpa [hda, GpuSystem.advanceFrame] using hlt
      · rw [hdb]; simp [hw3, hda]
      · rw [hdb]; simp [hw4, hda]
      · rw [hdb]; simp [hda] at hw5 ⊢; omega
    · simp_all
  · simp_all

/-! ## ExecuteOnly, Execute, ExecuteAndReset -/

theorem ExecuteOnly_calls (s : GpuSystem MA DA) (d : Device) (cmd_list : GpuCommandList)
    (w n : Nat) (htype : cmd_list.type_ ≠ .Num) (hnative : cmd_list.cmd_list_ = some n)
    (hqueue : (s.cmd_queues_ cmd_list.Type.index).cmd_queue = true) :
    (s.ExecuteOnly d cmd_list w).2.2.calls = d.calls ++ [.Close n] ++
      (if w ≠ MaxFenceValue then [.Wait cmd_list.Type.index w] else []) ++
      [.ExecuteCommandLists cmd_list.Type.index (some n),
        .Signal cmd_list.Type.index (s.fence_vals_ s.frame_index_)] ++
      (if d.hresult (ExecuteOnly.signalTick d w) < 0 then
        [.Signal cmd_list.Type.index (s.fence_vals_ s.frame_index_)] else []) := by
  unfold GpuSystem.ExecuteOnly GpuCommandList.Close ExecuteOnly.signalTick
  cases ht : cmd_list.type_ with
  | Num => exact absurd ht htype
  | Graphics =>
    by_cases hw : w = MaxFenceValue <;>
    by_cases hs : d.hresult (d.now + 2) < 0 <;>
    by_cases hs3 : d.hresult (d.now + 3) < 0 <;>
    simp [hnative, hqueue, hw, hs, hs3, Device.call, TIFHR, FAILED]
  | VideoEncode =>
    by_cases hw : w = MaxFenceValue <;>
    by_cases hs : d.hresult (d.now + 2) < 0 <;>
    by_cases hs3 : d.hresult (d.now + 3) < 0 <;>
    simp [hnative, hqueue, hw, hs, hs3, Device.call, TIFHR, FAILED]

theorem ExecuteOnly_signal_ok (s : GpuSystem MA DA) (d : Device) (cmd_list : GpuCommandList)
    (w n : Nat) (htype : cmd_list.type_ ≠ .Num) (hnative : cmd_list.cmd_list_ = some n)
    (hqueue : (s.cmd_queues_ cmd_list.Type.index).cmd_queue = true)
    (hsignal : 0 ≤ d.hresult (ExecuteOnly.signalTick d w)) :
    (s.ExecuteOnly d cmd_list w).1 = .returned (s.fence_vals_ s.frame_index_) ∧
    (s.ExecuteOnly d cmd_list w).2.1 = s.setFenceVal (s.fence_vals_ s.frame_index_) := by
  unfold ExecuteOnly.signalTick at hsignal
  unfold GpuSystem.ExecuteOnly GpuCommandList.Close
  cases ht : cmd_list.type_ with
  | Num => exact absurd ht htype
  | Graphics =>
    by_cases hw : w = MaxFenceValue <;>
    simp [hw] at hsignal <;>
    simp [hnative, hqueue, hw, Device.call, TIFHR, FAILED, not_lt.mpr hsignal]
  | VideoEncode =>
    by_cases hw : w = MaxFenceValue <;>
    simp [hw] at hsignal <;>
    simp [hnative, hqueue, hw, Device.call, TIFHR, FAILED, not_lt.mpr hsignal]

theorem ExecuteOnly_signal_failed (s : GpuSystem MA DA) (d : Device) (cmd_list : GpuCommandList)
    (w n : Nat) (htype : cmd_list.type_ ≠ .Num) (hnative : cmd_list.cmd_list_ = some n)
    (hqueue : (s.cmd_queues_ cmd_list.Type.index).cmd_queue = true)
    (hsignal : d.hresult (ExecuteOnly.signalTick d w) < 0) :
    (s.ExecuteOnly d cmd_list w).1 = .raised ⟨d.hresult (ExecuteOnly.signalTick d w + 1)⟩ ∧
    (s.ExecuteOnly d cmd_list w).2.1 = s := by
  unfold ExecuteOnly.signalTick at hsignal ⊢
  unfold GpuSystem.ExecuteOnly GpuCommandList.Close
  cases ht : cmd_list.type_ with
  | Num => exact absurd ht htype
  | Graphics =>
    by_cases hw : w = MaxFenceValue <;>
    simp [hw] at hsignal <;>
    simp [hnative, hqueue, hw, Device.call, TIFHR, FAILED, hsignal]
  | VideoEncode =>
    by_cases hw : w = MaxFenceValue <;>
    simp [hw] at hsignal <;>
    simp [hnative, hqueue, hw, Device.call, TIFHR, FAILED, hsignal]

theorem ExecuteOnly_returned_accepted (s : GpuSystem MA DA) (d : Device)
    (cmd_list : GpuCommandList) (w n h : Nat) (htype : cmd_list.type_ ≠ .Num)
    (hnative : cmd_list.cmd_list_ = some n)
    (hqueue : (s.cmd_queues_ cmd_list.Type.index).cmd_queue = true)
    (hr : (s.ExecuteOnly d cmd_list w).1 = .returned h) :
    0 ≤ d.hresult (ExecuteOnly.signalTick d w) := by
  by_contra hneg
  rw [(ExecuteOnly_signal_failed s d cmd_list w n htype hnative hqueue (not_le.mp hneg)).1] at hr
  cases hr

theorem ExecuteOnly_calls_returned (s : GpuSystem MA DA) (d : Device)
    (cmd_list : GpuCommandList) (w n h : Nat) (htype : cmd_list.type_ ≠ .Num)
    (hnative : cmd_list.cmd_list_ = some n)
    (hqueue : (s.cmd_queues_ cmd_list.Type.index).cmd_queue = true)
    (hr : (s.ExecuteOnly d cmd_list w).1 = .returned h) :
    (s.ExecuteOnly d cmd_list w).2.2.calls = d.calls ++ [.Close n] ++
      (if w ≠ MaxFenceValue then [.Wait cmd_list.Type.index w] else []) ++
      [.ExecuteCommandLists cmd_list.Type.index (some n),
        .Signal cmd_list.Type.index (s.fence_vals_ s.frame_index_)] := by
  have hacc := ExecuteOnly_returned_accepted s d cmd_list w n h htype hnative hqueue hr
  rw [ExecuteOnly_calls s d cmd_list w n htype hnative hqueue, if_neg (not_lt.mpr hacc),
    List.append_nil]

/-- Whatever happens, `ExecuteOnly` leaves the frame index alone, and the counters either
as they were or with the active one set to its successor. -/
theorem ExecuteOnly_state (s : GpuSystem MA DA) (d : Device) (cmd_list : GpuCommandList)
    (w : Nat) :
    (s.ExecuteOnly d cmd_list w).2.1 = s ∨
    (∃ h, (s.ExecuteOnly d cmd_list w).1 = .returned h ∧ h = s.fence_vals_ s.frame_index_ ∧
      (s.ExecuteOnly d cmd_list w).2.1 = s.setFenceVal (s.fence_vals_ s.frame_index_)) := by
  unfold GpuSystem.ExecuteOnly
  split
  · exact Or.inl rfl
  · split
    · simp only
      split
      · exact Or.inl rfl
      · exact Or.inr ⟨_, rfl, rfl, rfl⟩
    · exact Or.inl rfl

theorem ExecuteOnly_not_returned (s : GpuSystem MA DA) (d : Device) (cmd_list : GpuCommandList)
    (w : Nat) (hnot : ∀ h, (s.ExecuteOnly d cmd_list w).1 ≠ .returned h) :
    (s.ExecuteOnly d cmd_list w).2.1 = s := by
  rcases ExecuteOnly_state s d cmd_list w with h | ⟨h, h1, _, _⟩
  · exact h
  · exact absurd h1 (hnot h)

theorem Execute_outcome (s : GpuSystem MA DA) (d : Device) (cmd_list : GpuCommandList)
    (w : Nat) : (s.Execute d cmd_list w).1 = (s.ExecuteOnly d cmd_list w).1 := by
  unfold GpuSystem.Execute
  split
  · rename_i h; rw [h]
  · rfl

theorem Execute_device (s : GpuSystem MA DA) (d : Device) (cmd_list : GpuCommandList)
    (w : Nat) : (s.Execute d cmd_list w).2.2 = (s.ExecuteOnly d cmd_list w).2.2 := by
  unfold GpuSystem.Execute
  split
  · rename_i h; rw [h]
  · rfl

theorem Execute_state_returned (s : GpuSystem MA DA) (d : Device) (cmd_list : GpuCommandList)
    (w h : Nat) (hret : (s.ExecuteOnly d cmd_list w).1 = .returned h) :
    (s.Execute d cmd_list w).2.1 = (s.ExecuteOnly d cmd_list w).2.1.poolEmplaceBack cmd_list := by
  unfold GpuSystem.Execute
  split
  · rename_i h1; rw [h1]
  · rename_i hno
    exact absurd (Prod.ext (by exact hret) rfl :
      s.ExecuteOnly d cmd_list w =
        (.returned h, (s.ExecuteOnly d cmd_list w).2.1, (s.ExecuteOnly d cmd_list w).2.2))
      (hno h _ _)

theorem Execute_state_not_returned (s : GpuSystem MA DA) (d : Device)
    (cmd_list : GpuCommandList) (w : Nat)
    (hnot : ∀ h, (s.ExecuteOnly d cmd_list w).1 ≠ .returned h) :
    (s.Execute d cmd_list w).2.1 = s := by
  unfold GpuSystem.Execute
  split
  · rename_i h _ _ h1
    exact absurd (congrArg Prod.fst h1) (hnot h)
  · exact ExecuteOnly_not_returned s d cmd_list w hnot

theorem ExecuteAndReset_state (s : GpuSystem MA DA) (d : Device) (cmd_list : GpuCommandList)
    (w : Nat) : (s.ExecuteAndReset d cmd_list w).2.1 = (s.ExecuteOnly d cmd_list w).2.1 := by
  unfold GpuSystem.ExecuteAndReset
  split
  · rename_i h1
    rw [h1]
    split <;> rfl
  · rfl

theorem Execute_of_raised (s : GpuSystem MA DA) (d : Device) (cmd_list : GpuCommandList)
    (w : Nat) (e : HrException) (h : (s.ExecuteOnly d cmd_list w).1 = .raised e) :
    s.Execute d cmd_list w = s.ExecuteOnly d cmd_list w ∧
    s.ExecuteAndReset d cmd_list w = s.ExecuteOnly d cmd_list w := by
  unfold GpuSystem.Execute GpuSystem.ExecuteAndReset
  constructor
  · split
    · rename_i h1; rw [h1] at h; simp at h
    · rfl
  · split
    · rename_i h1; rw [h1] at h; simp at h
    · rfl

/-! ## Frame index -/

theorem advanceFrame_index (s : GpuSystem MA DA) (hs : s.frame_index_ < FrameCount) :
    s.advanceFrame.frame_index_ = (s.frame_index_ + 1) % FrameCount := by
  unfold GpuSystem.advanceFrame
  unfold FrameCount at hs
  simp only [UINT32_SIZE]
  rw [Nat.mod_eq_of_lt (by omega : s.frame_index_ + 1 < 2 ^ 32)]

theorem advanceFrame_index_lt (s : GpuSystem MA DA) :
    s.advanceFrame.frame_index_ < FrameCount := by
  unfold GpuSystem.advanceFrame FrameCount
  exact Nat.mod_lt _ (by decide)

theorem Execute_frame_index (s : GpuSystem MA DA) (d : Device) (cmd_list : GpuCommandList)
    (w : Nat) : (s.Execute d cmd_list w).2.1.frame_index_ = s.frame_index_ := by
  rcases ExecuteOnly_state s d cmd_list w with h | ⟨h, h1, _, h3⟩
  · by_cases hr : ∃ h, (s.ExecuteOnly d cmd_list w).1 = .returned h
    · obtain ⟨h0, hr⟩ := hr
      rw [Execute_state_returned s d cmd_list w h0 hr, h]
      rfl
    · rw [Execute_state_not_returned s d cmd_list w (fun h0 hh => hr ⟨h0, hh⟩)]
  · rw [Execute_state_returned s d cmd_list w h h1, h3]
    rfl

theorem ExecuteAndReset_frame_index (s : GpuSystem MA DA) (d : Device)
    (cmd_list : GpuCommandList) (w : Nat) :
    (s.ExecuteAndReset d cmd_list w).2.1.frame_index_ = s.frame_index_ := by
  rw [ExecuteAndReset_state]
  rcases ExecuteOnly_state s d cmd_list w with h | ⟨_, _, _, h3⟩
  · rw [h]
  · rw [h3]; rfl

theorem CreateCommandList_frame_index (s : GpuSystem MA DA) (d : Device)
    (type : CmdQueueType) :
    (s.CreateCommandList d type).2.1.frame_index_ = s.frame_index_ ∧
    (s.CreateCommandList d type).2.1.fence_vals_ = s.fence_vals_ := by
  unfold GpuSystem.CreateCommandList
  cases type <;> simp only
  all_goals repeat' split
  all_goals first | exact ⟨rfl, rfl⟩ | exact ⟨trivial, trivial⟩

theorem waitForGpuQueue_state (s : GpuSystem MA DA) (d : Device) (fuel fence_value i : Nat) :
    (s.waitForGpuQueue d fuel fence_value i).2.1 = s ∨
    ∃ v, (s.waitForGpuQueue d fuel fence_value i).2.1 = s.setFenceVal v := by
  unfold GpuSystem.waitForGpuQueue
  simp only
  repeat' split
  all_goals first | exact Or.inl rfl | exact Or.inr ⟨_, rfl⟩

theorem waitForGpuLoop_frame_index (fuel : Nat) (is : List Nat) :
    ∀ (s : GpuSystem MA DA) (d : Device) (fence_value : Nat),
      (GpuSystem.waitForGpuLoop fuel is s d fence_value).2.1.frame_index_ = s.frame_index_ := by
  induction is with
  | nil => intro s d fence_value; rfl
  | cons i rest ih =>
    intro s d fence_value
    have hq : (s.waitForGpuQueue d fuel fence_value i).2.1.frame_index_ = s.frame_index_ := by
      rcases waitForGpuQueue_state s d fuel fence_value i with h | ⟨v, h⟩
      · rw [h]
      · rw [h]; rfl
    unfold GpuSystem.waitForGpuLoop
    split
    · rename_i fv1 s1 d1 heq
      rw [ih]
      rw [heq] at hq
      exact hq
    all_goals (rename_i heq; rw [heq] at hq; exact hq)

theorem WaitForGpu_frame_index (s : GpuSystem MA DA) (d : Device) (fuel fence_value : Nat) :
    (s.WaitForGpu d fuel fence_value).2.1.frame_index_ = s.frame_index_ := by
  unfold GpuSystem.WaitForGpu
  split
  · exact waitForGpuLoop_frame_index fuel _ s d fence_value
  · rfl

/-! ## WaitForGpu -/

theorem waitForGpuQueue_outcome (s : GpuSystem MA DA) (d : Device) (fuel fence_value i : Nat) :
    (∃ v, (s.waitForGpuQueue d fuel fence_value i).1 = .returned v) ∨
    (s.waitForGpuQueue d fuel fence_value i).1 = .blocked := by
  unfold GpuSystem.waitForGpuQueue
  simp only
  repeat' split
  all_goals first | exact Or.inl ⟨_, rfl⟩ | exact Or.inr rfl

theorem waitForGpuLoop_outcome (fuel : Nat) (is : List Nat) :
    ∀ (s : GpuSystem MA DA) (d : Device) (fence_value : Nat),
      (GpuSystem.waitForGpuLoop fuel is s d fence_value).1 = .returned () ∨
      (GpuSystem.waitForGpuLoop fuel is s d fence_value).1 = .blocked := by
  induction is with
  | nil => intro s d fence_value; exact Or.inl rfl
  | cons i rest ih =>
    intro s d fence_value
    have hq := waitForGpuQueue_outcome s d fuel fence_value i
    unfold GpuSystem.waitForGpuLoop
    split
    · exact ih _ _ _
    · rename_i heq; rw [heq] at hq; simp at hq
    · exact Or.inr rfl
    · rename_i heq; rw [heq] at hq; simp at hq

theorem waitForGpuQueue_signal_failed (s : GpuSystem MA DA) (d : Device)
    (fuel fence_value i : Nat) (hfail : FAILED (d.hresult d.now) = true) :
    (s.waitForGpuQueue d fuel fence_value i).1 = .returned fence_value ∧
    (s.waitForGpuQueue d fuel fence_value i).2.1 = s ∧
    ∀ c ∈ (s.waitForGpuQueue d fuel fence_value i).2.2.calls, c ∈ d.calls ∨
      c = .Signal i
        (if fence_value = MaxFenceValue then s.fence_vals_ s.frame_index_ else fence_value) := by
  have hneg : d.hresult d.now < 0 := by simpa [FAILED] using hfail
  unfold GpuSystem.waitForGpuQueue
  by_cases hq : (s.cmd_queues_ i).cmd_queue = true
  · simp [hq, SUCCEEDED, Device.call, not_le.mpr hneg]
  · simp only [hq]
    refine ⟨rfl, rfl, fun c hc => Or.inl ?_⟩
    simpa using hc

theorem waitForGpuQueue_registration_failed (s : GpuSystem MA DA) (d : Device)
    (fuel fence_value i : Nat) (hq : (s.cmd_queues_ i).cmd_queue = true)
    (hsignal : SUCCEEDED (d.hresult d.now) = true)
    (hbehind : d.completed (d.now + 1) % UINT64_SIZE <
      (if fence_value = MaxFenceValue then s.fence_vals_ s.frame_index_ else fence_value))
    (hfail : FAILED (d.hresult (d.now + 2)) = true) :
    (s.waitForGpuQueue d fuel fence_value i).1 = .returned fence_value ∧
    (s.waitForGpuQueue d fuel fence_value i).2.1 = s ∧
    (s.waitForGpuQueue d fuel fence_value i).2.2.calls = d.calls ++
      [.Signal i
          (if fence_value = MaxFenceValue then s.fence_vals_ s.frame_index_ else fence_value),
        .GetCompletedValue (d.completed (d.now + 1) % UINT64_SIZE),
        .SetEventOnCompletion
          (if fence_value = MaxFenceValue then s.fence_vals_ s.frame_index_
            else fence_value)] := by
  have hneg : d.hresult (d.now + 2) < 0 := by simpa [FAILED] using hfail
  have hpos : 0 ≤ d.hresult d.now := by simpa [SUCCEEDED] using hsignal
  unfold GpuSystem.waitForGpuQueue
  simp [hq, SUCCEEDED, Device.call, Device.GetCompletedValue, not_le.mpr hneg, hpos, hbehind]

theorem waitForGpuQueue_reports (s s1 : GpuSystem MA DA) (d d1 : Device)
    (fuel fv fv1 i : Nat) (hq : (s.cmd_queues_ i).cmd_queue = true)
    (hok : ∀ t, d.now ≤ t → 0 ≤ d.hresult t)
    (h : s.waitForGpuQueue d fuel fv i = (.returned fv1, s1, d1)) :
    (∃ r, lastReported d1.calls = some r ∧
      (if fv = MaxFenceValue then s.fence_vals_ s.frame_index_ else fv) ≤ r) ∧
    d1.hresult = d.hresult ∧ d.now ≤ d1.now ∧
    ((fv1 = fv ∧ s1 = s) ∨
      (fv1 = (if fv ≠ MaxFenceValue then (fv + 1) % UINT64_SIZE else fv) ∧
        s1 = s.setFenceVal
          (if fv = MaxFenceValue then s.fence_vals_ s.frame_index_ else fv))) := by
  unfold GpuSystem.waitForGpuQueue at h
  generalize (if fv = MaxFenceValue then s.fence_vals_ s.frame_index_ else fv) = wfv at h ⊢
  have h0 := hok d.now (le_refl _)
  have h2 := hok (d.now + 1 + 1) (by omega)
  simp only [hq, SUCCEEDED, Device.call, Device.GetCompletedValue, h0, h2, decide_True,
    if_true] at h
  by_cases hlt : d.completed (d.now + 1) % UINT64_SIZE < wfv
  · simp only [hlt, if_true] at h
    split at h
    · simp at h
    · rename_i d4 hw
      obtain ⟨w, hw1, hw2, hw3, hw4, hw5⟩ := WaitForSingleObjectEx_some _ _ _ _ hw
      simp only [Prod.mk.injEq, Outcome.returned.injEq] at h
      obtain ⟨hfv, hs, hd⟩ := h
      subst hd
      refine ⟨⟨w, ?_, hw1⟩, hw5, ?_, Or.inr ⟨hfv.symm, hs.symm⟩⟩
      · rw [hw2]; simp [lastReported, DriverCall.reported]
      · simp at hw3; omega
  · simp only [hlt, if_false] at h
    simp only [Prod.mk.injEq, Outcome.returned.injEq] at h
    obtain ⟨hfv, hs, hd⟩ := h
    subst hd
    refine ⟨⟨_, ?_, not_lt.mp hlt⟩, rfl, ?_, Or.inl ⟨hfv.symm, hs.symm⟩⟩
    · simp [lastReported, DriverCall.reported]
    · show d.now ≤ d.now + 1 + 1
      omega

/-! ## The first frames after construction -/

theorem constructed_fence_vals (upload readback : MA) (desc : DA) :
    (GpuSystem.constructed upload readback desc).frame_index_ = 0 ∧
    (GpuSystem.constructed upload readback desc).fence_vals_ 0 = 1 ∧
    ∀ j, 0 < j → (GpuSystem.constructed upload readback desc).fence_vals_ j = 0 := by
  refine ⟨rfl, rfl, fun j hj => ?_⟩
  show Function.update (fun _ => 0) 0 _ j = 0
  rw [Function.update_noteq (by omega)]

theorem frame_step (s : GpuSystem MA DA) (i c : Nat) (hi : s.frame_index_ = i)
    (hlt : i < FrameCount) (hc : s.fence_vals_ i = c) (hcs : c + 1 < UINT64_SIZE) :
    (s.advanceFrame.setFenceVal (s.fence_vals_ s.frame_index_)).frame_index_ =
      (i + 1) % FrameCount ∧
    s.advanceFrame.frame_index_ = (i + 1) % FrameCount ∧
    (s.advanceFrame.setFenceVal (s.fence_vals_ s.frame_index_)).fence_vals_
      ((i + 1) % FrameCount) = c + 1 ∧
    ∀ j, j ≠ (i + 1) % FrameCount →
      (s.advanceFrame.setFenceVal (s.fence_vals_ s.frame_index_)).fence_vals_ j =
        s.fence_vals_ j := by
  have hidx : s.advanceFrame.frame_index_ = (i + 1) % FrameCount := by
    rw [← hi]; exact advanceFrame_index s (by rw [hi]; exact hlt)
  refine ⟨hidx, hidx, ?_, ?_⟩
  · show Function.update _ s.advanceFrame.frame_index_ _ _ = _
    rw [hidx, Function.update_same, hi, hc]
    exact Nat.mod_eq_of_lt hcs
  · intro j hj
    show Function.update _ s.advanceFrame.frame_index_ _ _ = _
    rw [hidx, Function.update_noteq hj]
    rfl

/-! ## The constructor -/

theorem construct_returned (upload readback : MA) (desc : DA) (d d1 : Device)
    (s : GpuSystem MA DA) (h : GpuSystem.construct upload readback desc d = (.returned s, d1)) :
    s = GpuSystem.constructed upload readback desc := by
  unfold GpuSystem.construct at h
  split at h
  · split at h
    · simp at h
    · simp only [Prod.mk.injEq, Outcome.returned.injEq] at h
      exact h.1.symm
  all_goals simp at h

theorem createAllocators_accepted (q : Nat) (fs : List Nat) :
    ∀ d : Device, (∀ t, d.now ≤ t → 0 ≤ d.hresult t) →
      (GpuSystem.createAllocators q fs d).1 = .returned () ∧
      (GpuSystem.createAllocators q fs d).2.hresult = d.hresult ∧
      d.now ≤ (GpuSystem.createAllocators q fs d).2.now := by
  induction fs with
  | nil => intro d _; exact ⟨rfl, rfl, le_refl _⟩
  | cons f rest ih =>
    intro d hok
    unfold GpuSystem.createAllocators
    have h0 : ¬ d.hresult d.now < 0 := not_lt.mpr (hok _ (le_refl _))
    simp only [TIFHR, FAILED, Device.call, h0, decide_False, Bool.false_eq_true, if_false]
    obtain ⟨a, b, c⟩ := ih { d with now := d.now + 1, calls := d.calls ++ [.CreateCommandAllocator q f] }
      (fun t ht => hok t (by simp at ht; omega))
    exact ⟨a, b, by simp at c; omega⟩

theorem createQueues_accepted (is : List Nat) :
    ∀ d : Device, (∀ t, d.now ≤ t → 0 ≤ d.hresult t) →
      (GpuSystem.createQueues is d).1 = .returned () ∧
      (GpuSystem.createQueues is d).2.hresult = d.hresult ∧
      d.now ≤ (GpuSystem.createQueues is d).2.now := by
  induction is with
  | nil => intro d _; exact ⟨rfl, rfl, le_refl _⟩
  | cons i rest ih =>
    intro d hok
    unfold GpuSystem.createQueues
    have h0 : ¬ d.hresult d.now < 0 := not_lt.mpr (hok _ (le_refl _))
    simp only [TIFHR, FAILED, Device.call, h0, decide_False, Bool.false_eq_true, if_false]
    obtain ⟨a, b, c⟩ := createAllocators_accepted i (List.range FrameCount)
      { d with now := d.now + 1, calls := d.calls ++ [.CreateCommandQueue i] }
      (fun t ht => hok t (by simp at ht; omega))
    generalize hr : GpuSystem.createAllocators i (List.range FrameCount)
      { d with now := d.now + 1, calls := d.calls ++ [.CreateCommandQueue i] } = r at a b c ⊢
    obtain ⟨o, d2⟩ := r
    simp only at a b c
    subst a
    simp only
    have c1 : d.now + 1 ≤ d2.now := c
    obtain ⟨a2, b2, c2⟩ := ih d2 (fun t ht => by rw [b]; exact hok t (by omega))
    exact ⟨a2, by rw [b2, b], by omega⟩

/-- When the driver accepts every call, the constructor returns the constructed object. -/
theorem construct_accepted (upload readback : MA) (desc : DA) (d : Device)
    (hok : ∀ t, d.now ≤ t → 0 ≤ d.hresult t) :
    (GpuSystem.construct upload readback desc d).1 =
      .returned (GpuSystem.constructed upload readback desc) := by
  obtain ⟨a, b, c⟩ := createQueues_accepted queueIndices d hok
  unfold GpuSystem.construct
  generalize hr : GpuSystem.createQueues queueIndices d = r at a b c ⊢
  obtain ⟨o, d1⟩ := r
  simp only at a b c
  subst a
  have h0 : ¬ d1.hresult d1.now < 0 := by
    rw [b]; exact not_lt.mpr (hok _ c)
  simp [TIFHR, FAILED, Device.call, h0]


/-! ## Handles in call order -/

theorem ExecuteOnly_returned (s : GpuSystem MA DA) (d : Device) (cmd_list : GpuCommandList)
    (w h : Nat) (hret : (s.ExecuteOnly d cmd_list w).1 = .returned h) :
    h = s.fence_vals_ s.frame_index_ ∧
    (s.ExecuteOnly d cmd_list w).2.1 = s.setFenceVal (s.fence_vals_ s.frame_index_) := by
  unfold GpuSystem.ExecuteOnly at hret ⊢
  split at hret
  · simp at hret
  · rename_i d1 hclose
    simp only [hclose]
    split at hret
    · rename_i hq
      simp only [hq, if_true]
      simp only at hret
      split at hret
      · simp at hret
      · rename_i hok
        simp only [hok]
        simp only [Outcome.returned.injEq] at hret
        exact ⟨hret.symm, trivial⟩
    · simp at hret

theorem setFenceVal_activeCounter (s : GpuSystem MA DA) (v : Nat) (hv : v + 1 < UINT64_SIZE) :
    (s.setFenceVal v).activeCounter = v + 1 := by
  unfold GpuSystem.activeCounter GpuSystem.setFenceVal
  simp only [Function.update_same]
  exact Nat.mod_eq_of_lt hv

theorem ExecuteAndReset_returned (s : GpuSystem MA DA) (d : Device)
    (cmd_list : GpuCommandList) (w h : Nat)
    (hret : (s.ExecuteAndReset d cmd_list w).1 = .returned h) :
    (s.ExecuteOnly d cmd_list w).1 = .returned h := by
  unfold GpuSystem.ExecuteAndReset at hret
  split at hret
  · rename_i h1 s1 d1 heq
    rw [heq]
    split at hret
    · simp at hret
    · simp only [Outcome.returned.injEq] at hret
      rw [hret]
  · exact hret

theorem waitForGpuQueue_default (s : GpuSystem MA DA) (d : Device) (fuel i : Nat) :
    ((s.waitForGpuQueue d fuel MaxFenceValue i).1 = .returned MaxFenceValue ∨
      (s.waitForGpuQueue d fuel MaxFenceValue i).1 = .blocked) ∧
    ((s.waitForGpuQueue d fuel MaxFenceValue i).2.1 = s ∨
      (s.waitForGpuQueue d fuel MaxFenceValue i).2.1 =
        s.setFenceVal (s.fence_vals_ s.frame_index_)) := by
  unfold GpuSystem.waitForGpuQueue
  simp only [if_true, ne_eq, not_true_eq_false, if_false]
  repeat' split
  all_goals first
    | exact ⟨Or.inl rfl, Or.inl rfl⟩
    | exact ⟨Or.inl rfl, Or.inr rfl⟩
    | exact ⟨Or.inr rfl, Or.inl rfl⟩

theorem WaitForGpu_default_counter (s s1 : GpuSystem MA DA) (d d1 : Device) (fuel : Nat)
    (hbound : s.activeCounter + 2 < UINT64_SIZE)
    (h : s.WaitForGpu d fuel MaxFenceValue = (.returned (), s1, d1)) :
    s.activeCounter ≤ s1.activeCounter ∧ s1.activeCounter ≤ s.activeCounter + 2 := by
  have hstep : ∀ (t : GpuSystem MA DA), t.setFenceVal (t.fence_vals_ t.frame_index_) =
      t.setFenceVal t.activeCounter := fun t => rfl
  unfold GpuSystem.WaitForGpu at h
  split at h
  · rw [queueIndices_eq] at h
    simp only [GpuSystem.waitForGpuLoop] at h
    obtain ⟨ho0, hs0⟩ := waitForGpuQueue_default s d fuel 0
    cases ha : s.waitForGpuQueue d fuel MaxFenceValue 0 with
    | mk oa ra =>
      obtain ⟨sa, da⟩ := ra
      rw [ha] at h ho0 hs0
      simp only at ho0 hs0
      rcases ho0 with ho0 | ho0
      · subst ho0
        simp only at h
        obtain ⟨ho1, hs1⟩ := waitForGpuQueue_default sa da fuel 1
        cases hb : sa.waitForGpuQueue da fuel MaxFenceValue 1 with
        | mk ob rb =>
          obtain ⟨sb, db⟩ := rb
          rw [hb] at h ho1 hs1
          simp only at ho1 hs1
          rcases ho1 with ho1 | ho1
          · subst ho1
            simp only [Prod.mk.injEq, true_and] at h
            obtain ⟨hsb, _⟩ := h
            subst hsb
            have ha' : s.activeCounter ≤ sa.activeCounter ∧
                sa.activeCounter ≤ s.activeCounter + 1 := by
              rcases hs0 with e | e
              · rw [e]; omega
              · rw [e, hstep, setFenceVal_activeCounter _ _ (by omega)]; omega
            rcases hs1 with e | e
            · rw [e]; omega
            · rw [e, hstep, setFenceVal_activeCounter _ _ (by omega)]; omega
          · subst ho1; simp at h
      · subst ho0; simp at h
  · simp only [Prod.mk.injEq, true_and] at h
    rw [← h.1]
    omega

theorem Outcome.void_returned {α : Type} (o : Outcome α) (h : o.void = .returned ()) :
    ∃ a, o = .returned a := by
  cases o with
  | returned a => exact ⟨a, rfl⟩
  | raised e => simp [Outcome.void] at h
  | blocked => simp [Outcome.void] at h
  | undefined => simp [Outcome.void] at h

theorem step_counter (s : GpuSystem MA DA) (d : Device) (fuel : Nat) (c : SchedulerCall)
    (hdef : c.defaultCounter = true) (hret : (s.step d fuel c).1.1 = .returned ())
    (hbound : s.activeCounter + 2 < UINT64_SIZE) :
    s.activeCounter ≤ (s.step d fuel c).2.1.activeCounter ∧
    (s.step d fuel c).2.1.activeCounter ≤ s.activeCounter + 2 ∧
    ∀ h, (s.step d fuel c).1.2 = some h →
      h = s.activeCounter ∧ s.activeCounter < (s.step d fuel c).2.1.activeCounter := by
  cases c with
  | Execute cmd_list w =>
    simp only [GpuSystem.step] at hret ⊢
    obtain ⟨h, hh⟩ := Outcome.void_returned _ hret
    have hEO : (s.ExecuteOnly d cmd_list w).1 = .returned h := by
      rw [← Execute_outcome]; exact hh
    obtain ⟨h1, h2⟩ := ExecuteOnly_returned s d cmd_list w h hEO
    have hst := Execute_state_returned s d cmd_list w h hEO
    rw [h2] at hst
    have hcnt : (s.Execute d cmd_list w).2.1.activeCounter = s.activeCounter + 1 := by
      rw [hst]
      exact setFenceVal_activeCounter s (s.fence_vals_ s.frame_index_)
        (by unfold GpuSystem.activeCounter at hbound; omega)
    rw [hcnt, hh]
    refine ⟨by omega, by omega, fun h' hh' => ?_⟩
    simp only [Outcome.handle, Option.some.injEq] at hh'
    exact ⟨by rw [← hh', h1]; rfl, by omega⟩
  | ExecuteAndReset cmd_list w =>
    simp only [GpuSystem.step] at hret ⊢
    obtain ⟨h, hh⟩ := Outcome.void_returned _ hret
    have hEO := ExecuteAndReset_returned s d cmd_list w h hh
    obtain ⟨h1, h2⟩ := ExecuteOnly_returned s d cmd_list w h hEO
    have hcnt : (s.ExecuteAndReset d cmd_list w).2.1.activeCounter = s.activeCounter + 1 := by
      rw [ExecuteAndReset_state, h2]
      exact setFenceVal_activeCounter s (s.fence_vals_ s.frame_index_)
        (by unfold GpuSystem.activeCounter at hbound; omega)
    rw [hcnt, hh]
    refine ⟨by omega, by omega, fun h' hh' => ?_⟩
    simp only [Outcome.handle, Option.some.injEq] at hh'
    exact ⟨by rw [← hh', h1]; rfl, by omega⟩
  | MoveToNextFrame =>
    simp only [GpuSystem.step] at hret ⊢
    obtain ⟨h1, _⟩ := MoveToNextFrame_returned s (s.MoveToNextFrame d fuel).2.1 d
      (s.MoveToNextFrame d fuel).2.2 fuel (Prod.ext hret rfl)
    have hcnt : (s.MoveToNextFrame d fuel).2.1.activeCounter = s.activeCounter + 1 := by
      rw [h1]
      exact setFenceVal_activeCounter s.advanceFrame (s.fence_vals_ s.frame_index_)
        (by unfold GpuSystem.activeCounter at hbound; omega)
    rw [hcnt]
    exact ⟨by omega, by omega, fun h' hh' => by simp at hh'⟩
  | WaitForGpu v =>
    simp only [SchedulerCall.defaultCounter, decide_eq_true_eq] at hdef
    subst hdef
    simp only [GpuSystem.step] at hret ⊢
    obtain ⟨h1, h2⟩ := WaitForGpu_default_counter s (s.WaitForGpu d fuel MaxFenceValue).2.1 d
      (s.WaitForGpu d fuel MaxFenceValue).2.2 fuel hbound (Prod.ext hret rfl)
    exact ⟨h1, h2, fun h' hh' => by simp at hh'⟩

theorem run_handles_increasing (fuel : Nat) :
    ∀ (calls : List SchedulerCall) (s : GpuSystem MA DA) (d : Device),
      (∀ c ∈ calls, c.defaultCounter = true) → s.allReturn fuel calls d = true →
      s.activeCounter + 2 * calls.length < UINT64_SIZE →
      (s.run fuel calls d).1.Pairwise (fun a b => a < b) ∧
      ∀ h ∈ (s.run fuel calls d).1, s.activeCounter ≤ h := by
  intro calls
  induction calls with
  | nil => intro s d _ _ _; simp [GpuSystem.run]
  | cons c rest ih =>
    intro s d hdef hall hbound
    simp only [GpuSystem.allReturn, Bool.and_eq_true, decide_eq_true_eq] at hall
    obtain ⟨hret, hrest⟩ := hall
    simp only [List.length_cons] at hbound
    obtain ⟨hle, hle2, hhandle⟩ := step_counter s d fuel c (hdef c (List.mem_cons_self _ _)) hret
      (by omega)
    obtain ⟨ihp, ihl⟩ := ih (s.step d fuel c).2.1 (s.step d fuel c).2.2
      (fun c' hc' => hdef c' (List.mem_cons_of_mem _ hc')) hrest (by omega)
    simp only [GpuSystem.run, hret]
    cases hopt : (s.step d fuel c).1.2 with
    | none =>
      simp only [Option.toList, List.nil_append]
      exact ⟨ihp, fun h hh => le_trans hle (ihl h hh)⟩
    | some h0 =>
      obtain ⟨e1, e2⟩ := hhandle h0 hopt
      simp only [Option.toList, List.singleton_append, List.pairwise_cons, List.mem_cons]
      refine ⟨⟨fun b hb => ?_, ihp⟩, fun h hh => ?_⟩
      · have := ihl b hb
        omega
      · rcases hh with hh | hh
        · omega
        · have := ihl h hh
          omega


/-! ## Progress: the calls that sleep do return -/

theorem firstReached_of_reached (d : Device) (target : Nat) :
    ∀ (fuel t t1 : Nat), t ≤ t1 → t1 < t + fuel → target ≤ d.completed t1 % UINT64_SIZE →
      ∃ t2, d.firstReached target fuel t = some t2 ∧ t ≤ t2 := by
  intro fuel
  induction fuel with
  | zero => intro t t1 h1 h2 _; omega
  | succ n ih =>
    intro t t1 h1 h2 h3
    unfold Device.firstReached
    by_cases h : target ≤ d.completed t % UINT64_SIZE
    · exact ⟨t, by simp [h], le_refl _⟩
    · simp only [h, if_false]
      have hne : t ≠ t1 := fun e => h (e ▸ h3)
      obtain ⟨t2, e1, e2⟩ := ih (t + 1) t1 (by omega) (by omega) h3
      exact ⟨t2, e1, by omega⟩

theorem WaitForSingleObjectEx_of_reached (d : Device) (fuel target t1 : Nat)
    (h1 : d.now ≤ t1) (h2 : t1 < d.now + fuel) (h3 : target ≤ d.completed t1 % UINT64_SIZE) :
    ∃ d1, d.WaitForSingleObjectEx fuel target = some d1 ∧ d1.hresult = d.hresult ∧
      d1.completed = d.completed ∧ d.now ≤ d1.now := by
  obtain ⟨t2, e1, e2⟩ := firstReached_of_reached d target fuel d.now t1 h1 h2 h3
  unfold Device.WaitForSingleObjectEx
  rw [e1]
  exact ⟨_, rfl, rfl, rfl, by simp only; omega⟩

theorem signalQueues_accepted (s : GpuSystem MA DA) (v : Nat) (d : Device)
    (hq0 : (s.cmd_queues_ 0).cmd_queue = true) (hq1 : (s.cmd_queues_ 1).cmd_queue = true)
    (hok : ∀ t, d.now ≤ t → 0 ≤ d.hresult t) :
    s.signalQueues v queueIndices d =
      (.returned (), { d with now := d.now + 2, calls := d.calls ++ [.Signal 0 v, .Signal 1 v] }) := by
  have h0 : ¬ d.hresult d.now < 0 := not_lt.mpr (hok _ (le_refl _))
  have h1 : ¬ d.hresult (d.now + 1) < 0 := not_lt.mpr (hok _ (by omega))
  rw [queueIndices_eq]
  simp [GpuSystem.signalQueues, Device.call, TIFHR, FAILED, hq0, hq1, h0, h1]

theorem resetAllocators_accepted (s : GpuSystem MA DA) (d : Device)
    (ha0 : (s.cmd_queues_ 0).cmd_allocators s.frame_index_ = true)
    (ha1 : (s.cmd_queues_ 1).cmd_allocators s.frame_index_ = true)
    (hok : ∀ t, d.now ≤ t → 0 ≤ d.hresult t) :
    (s.resetAllocators queueIndices d).1 = .returned () := by
  have h0 : ¬ d.hresult d.now < 0 := not_lt.mpr (hok _ (le_refl _))
  have h1 : ¬ d.hresult (d.now + 1) < 0 := not_lt.mpr (hok _ (by omega))
  rw [queueIndices_eq]
  simp [GpuSystem.resetAllocators, GpuSystem.CurrentCommandAllocator, fromIndex_zero,
    fromIndex_one, index_Graphics, index_VideoEncode, Device.call, TIFHR, FAILED, ha0, ha1,
    h0, h1]

theorem awaitSlot_accepted (s : GpuSystem MA DA) (d : Device) (fuel : Nat)
    (hfence : s.fence_ = true) (hevent : s.fence_event_ = true)
    (hok : ∀ t, d.now ≤ t → 0 ≤ d.hresult t)
    (hreach : ∃ t, d.now + 2 ≤ t ∧ t < d.now + 2 + fuel ∧
      s.fence_vals_ s.frame_index_ ≤ d.completed t % UINT64_SIZE) :
    ∃ d1, s.awaitSlot d fuel = (.returned (), d1) ∧ d1.hresult = d.hresult ∧ d.now ≤ d1.now := by
  unfold GpuSystem.awaitSlot
  simp only [hfence, if_true]
  by_cases hlt : d.GetCompletedValue.1 < s.fence_vals_ s.frame_index_
  · simp only [hlt, if_true]
    unfold GpuSystem.setEventAndWait
    have h1 : ¬ d.hresult (d.now + 1) < 0 := not_lt.mpr (hok _ (by omega))
    obtain ⟨t, ht1, ht2, ht3⟩ := hreach
    obtain ⟨d1, e1, e2, _, e4⟩ := WaitForSingleObjectEx_of_reached
      (d.GetCompletedValue.2.call (.SetEventOnCompletion (s.fence_vals_ s.frame_index_))).2
      fuel (s.fence_vals_ s.frame_index_) t
      (by simp only [Device.call, Device.GetCompletedValue]; omega)
      (by simp only [Device.call, Device.GetCompletedValue]; omega) ht3
    simp only [Device.call, Device.GetCompletedValue, TIFHR, FAILED, h1, decide_False,
      Bool.false_eq_true, if_false, hevent, if_true] at e1 e2 e4 ⊢
    rw [e1]
    exact ⟨d1, rfl, e2, by omega⟩
  · simp only [hlt, if_false]
    exact ⟨_, rfl, rfl, by simp only [Device.GetCompletedValue]; omega⟩

/-- Progress of `MoveToNextFrame`: with live queues, fence, event and allocators of the
next slot, a driver that accepts every call, and a fence that reaches the counter of the
next slot within the fuel, the call returns normally. -/
theorem MoveToNextFrame_returns (s : GpuSystem MA DA) (d : Device) (fuel : Nat)
    (hq0 : (s.cmd_queues_ 0).cmd_queue = true) (hq1 : (s.cmd_queues_ 1).cmd_queue = true)
    (hfence : s.fence_ = true) (hevent : s.fence_event_ = true)
    (ha0 : (s.cmd_queues_ 0).cmd_allocators s.advanceFrame.frame_index_ = true)
    (ha1 : (s.cmd_queues_ 1).cmd_allocators s.advanceFrame.frame_index_ = true)
    (hok : ∀ t, d.now ≤ t → 0 ≤ d.hresult t)
    (hreach : ∃ t, d.now + 4 ≤ t ∧ t < d.now + 4 + fuel ∧
      s.fence_vals_ s.advanceFrame.frame_index_ ≤ d.completed t % UINT64_SIZE) :
    (s.MoveToNextFrame d fuel).1 = .returned () := by
  unfold GpuSystem.MoveToNextFrame
  rw [signalQueues_accepted s _ d hq0 hq1 hok]
  simp only
  obtain ⟨t, ht1, ht2, ht3⟩ := hreach
  obtain ⟨d1, e1, e2, e3⟩ := awaitSlot_accepted s.advanceFrame
    { d with now := d.now + 2, calls := d.calls ++
      [.Signal 0 (s.fence_vals_ s.frame_index_), .Signal 1 (s.fence_vals_ s.frame_index_)] }
    fuel hfence hevent (fun t ht => hok t (by simp only at ht; omega))
    ⟨t, by simp only; omega, by simp only; omega, ht3⟩
  rw [e1]
  simp only
  exact resetAllocators_accepted _ d1 ha0 ha1
    (fun t ht => by rw [e2]; exact hok t (by simp only at e3; omega))

theorem waitForGpuQueue_returns (s : GpuSystem MA DA) (d : Device) (fuel fv i T : Nat)
    (hok : ∀ t, d.now ≤ t → 0 ≤ d.hresult t)
    (hT : ∀ t, T ≤ t →
      (if fv = MaxFenceValue then s.fence_vals_ s.frame_index_ else fv) ≤
        d.completed t % UINT64_SIZE)
    (hfuel : T < fuel) :
    ∃ fv1 s1 d1, s.waitForGpuQueue d fuel fv i = (.returned fv1, s1, d1) ∧
      d1.hresult = d.hresult ∧ d1.completed = d.completed ∧ d.now ≤ d1.now := by
  unfold GpuSystem.waitForGpuQueue
  generalize (if fv = MaxFenceValue then s.fence_vals_ s.frame_index_ else fv) = wfv at hT ⊢
  by_cases hq : (s.cmd_queues_ i).cmd_queue = true
  · have h0 := hok d.now (le_refl _)
    have h2 := hok (d.now + 1 + 1) (by omega)
    simp only [hq, SUCCEEDED, Device.call, Device.GetCompletedValue, h0, h2, decide_True,
      if_true]
    by_cases hlt : d.completed (d.now + 1) % UINT64_SIZE < wfv
    · simp only [hlt, if_true]
      obtain ⟨d4, e1, e2, e3, e4⟩ := WaitForSingleObjectEx_of_reached
        { completed := d.completed, hresult := d.hresult, now := d.now + 1 + 1 + 1,
          calls := d.calls ++ [.Signal i wfv] ++
            [.GetCompletedValue (d.completed (d.now + 1) % UINT64_SIZE)] ++
            [.SetEventOnCompletion wfv] }
        fuel wfv (max (d.now + 1 + 1 + 1) T) (le_max_left _ _)
        (by simp only; omega) (hT _ (le_max_right _ _))
      rw [e1]
      exact ⟨_, _, d4, rfl, e2, e3, by simp only at e4; omega⟩
    · simp only [hlt, if_false]
      exact ⟨_, _, _, rfl, rfl, rfl, by simp only; omega⟩
  · simp only [hq]
    exact ⟨_, _, _, rfl, rfl, rfl, le_refl _⟩

/-- Progress of `WaitForGpu` with an explicit counter `v` below `MaxFenceValue`: with a
live first queue and a driver that accepts every call, the call returns once the fence stays at
`v + 1` or above from some tick `T` on and the fuel exceeds `T`. -/
theorem WaitForGpu_explicit_returns (s : GpuSystem MA DA) (d : Device) (fuel v T : Nat)
    (hq0 : (s.cmd_queues_ 0).cmd_queue = true)
    (hok : ∀ t, d.now ≤ t → 0 ≤ d.hresult t) (hv : v < MaxFenceValue)
    (hT : ∀ t, T ≤ t → v + 1 ≤ d.completed t % UINT64_SIZE) (hfuel : T < fuel) :
    (s.WaitForGpu d fuel v).1 = .returned () := by
  have hne : v ≠ MaxFenceValue := Nat.ne_of_lt hv
  have hv1 : (v + 1) % UINT64_SIZE = v + 1 := by
    apply Nat.mod_eq_of_lt
    unfold MaxFenceValue at hv
    unfold UINT64_SIZE
    omega
  unfold GpuSystem.WaitForGpu
  split
  · rw [queueIndices_eq]
    simp only [GpuSystem.waitForGpuLoop]
    obtain ⟨fva, sa, da, ea, ehr, ecomp, enow⟩ := waitForGpuQueue_returns s d fuel v 0 T hok
      (fun t ht => by simp only [hne, if_false]; exact le_trans (Nat.le_succ v) (hT t ht)) hfuel
    rw [ea]
    simp only
    obtain ⟨_, _, _, hcase⟩ := waitForGpuQueue_reports s sa d da fuel v fva 0 hq0 hok ea
    have hwfv : (if fva = MaxFenceValue then sa.fence_vals_ sa.frame_index_ else fva) ≤ v + 1 := by
      rcases hcase with ⟨hfva, _⟩ | ⟨hfva, hsa⟩
      · rw [hfva]; simp only [hne, if_false]; omega
      · simp only [hne, ne_eq, not_false_eq_true, if_true, hv1, if_false] at hfva hsa
        by_cases hmax : fva = MaxFenceValue
        · simp only [hmax, if_true]
          rw [hsa]
          simp [GpuSystem.setFenceVal, hv1]
        · simp only [hmax, if_false]
          omega
    obtain ⟨fvb, sb, db, eb, _, _, _⟩ := waitForGpuQueue_returns sa da fuel fva 1 T
      (fun t ht => by rw [ehr]; exact hok t (le_trans enow ht))
      (fun t ht => by rw [ecomp]; exact le_trans hwfv (hT t ht)) hfuel
    rw [eb]
  · rfl


theorem ExecuteOnly_returned_closable (s : GpuSystem MA DA) (d : Device)
    (cmd_list : GpuCommandList) (w h : Nat)
    (hret : (s.ExecuteOnly d cmd_list w).1 = .returned h) :
    cmd_list.type_ ≠ .Num ∧ (∃ n, cmd_list.cmd_list_ = some n) ∧
    (s.cmd_queues_ cmd_list.Type.index).cmd_queue = true := by
  unfold GpuSystem.ExecuteOnly GpuCommandList.Close at hret
  cases ht : cmd_list.type_ <;> cases hn : cmd_list.cmd_list_ <;>
    by_cases hq : (s.cmd_queues_ cmd_list.Type.index).cmd_queue = true <;>
    simp [ht, hn, hq] at hret ⊢

theorem poolEmplaceBack_pool (s : GpuSystem MA DA) (cmd_list : GpuCommandList) :
    ((s.poolEmplaceBack cmd_list).cmd_queues_ cmd_list.Type.index).cmd_list_pool =
      (s.cmd_queues_ cmd_list.Type.index).cmd_list_pool ++ [cmd_list] ∧
    ((s.poolEmplaceBack cmd_list).cmd_queues_ cmd_list.Type.index).cmd_queue =
      (s.cmd_queues_ cmd_list.Type.index).cmd_queue ∧
    ((s.poolEmplaceBack cmd_list).cmd_queues_ cmd_list.Type.index).cmd_allocators =
      (s.cmd_queues_ cmd_list.Type.index).cmd_allocators ∧
    (∀ i, i ≠ cmd_list.Type.index → (s.poolEmplaceBack cmd_list).cmd_queues_ i = s.cmd_queues_ i) := by
  unfold GpuSystem.poolEmplaceBack
  refine ⟨by simp, by simp, by simp, ?_⟩
  intro i hi
  simp [Function.update_noteq hi]


theorem setFenceVal_CurrentCommandAllocator (s : GpuSystem MA DA) (v : Nat)
    (type : CmdQueueType) :
    (s.setFenceVal v).CurrentCommandAllocator type = s.CurrentCommandAllocator type := rfl

theorem ExecuteAndReset_eq (s : GpuSystem MA DA) (d : Device) (cmd_list : GpuCommandList)
    (w h n : Nat) (hret : (s.ExecuteOnly d cmd_list w).1 = .returned h)
    (hnative : cmd_list.cmd_list_ = some n) :
    s.ExecuteAndReset d cmd_list w =
      (.returned h, (s.ExecuteOnly d cmd_list w).2.1,
        ((s.ExecuteOnly d cmd_list w).2.2.call
          (.ResetCommandList n (s.CurrentCommandAllocator cmd_list.Type))).2) := by
  have hc := ExecuteOnly_returned_closable s d cmd_list w h hret
  have hst := (ExecuteOnly_returned s d cmd_list w h hret).2
  unfold GpuSystem.ExecuteAndReset
  generalize hr : s.ExecuteOnly d cmd_list w = r at hret hst
  obtain ⟨o, s1, d1⟩ := r
  simp only at hret hst
  subst hret hst
  simp only [setFenceVal_CurrentCommandAllocator]
  unfold GpuCommandList.Reset
  cases ht : cmd_list.type_ with
  | Num => exact absurd ht hc.1
  | Graphics => simp [hnative]
  | VideoEncode => simp [hnative]

theorem ExecuteAndReset_not_returned (s : GpuSystem MA DA) (d : Device)
    (cmd_list : GpuCommandList) (w : Nat)
    (hnot : ∀ h, (s.ExecuteOnly d cmd_list w).1 ≠ .returned h) :
    s.ExecuteAndReset d cmd_list w = s.ExecuteOnly d cmd_list w ∧
    s.Execute d cmd_list w = s.ExecuteOnly d cmd_list w := by
  unfold GpuSystem.ExecuteAndReset GpuSystem.Execute
  constructor
  · split
    · rename_i h _ _ h1
      exact absurd (congrArg Prod.fst h1) (hnot h)
    · rfl
  · split
    · rename_i h _ _ h1
      exact absurd (congrArg Prod.fst h1) (hnot h)
    · rfl

theorem ExecuteOnly_cmd_queues (s : GpuSystem MA DA) (d : Device) (cmd_list : GpuCommandList)
    (w : Nat) : (s.ExecuteOnly d cmd_list w).2.1.cmd_queues_ = s.cmd_queues_ := by
  rcases ExecuteOnly_state s d cmd_list w with h | ⟨_, _, _, h⟩ <;> rw [h]
  rfl

theorem ExecuteOnly_returned_or_not (s : GpuSystem MA DA) (d : Device)
    (cmd_list : GpuCommandList) (w : Nat) :
    (∃ h, (s.ExecuteOnly d cmd_list w).1 = .returned h) ∨
    (∀ h, (s.ExecuteOnly d cmd_list w).1 ≠ .returned h) := by
  by_cases hr : ∃ h, (s.ExecuteOnly d cmd_list w).1 = .returned h
  · exact Or.inl hr
  · exact Or.inr (fun h hh => hr ⟨h, hh⟩)

theorem ite_accepted {α : Type} (hr : HRESULT) (h : 0 ≤ hr) (a b : α) :
    (if hr < 0 then a else b) = b := if_neg (not_lt.mpr h)

/-! ## Reachable states -/

theorem MoveToNextFrame_state (s : GpuSystem MA DA) (d : Device) (fuel : Nat) :
    (s.MoveToNextFrame d fuel).2.1 = s ∨ (s.MoveToNextFrame d fuel).2.1 = s.advanceFrame ∨
    (s.MoveToNextFrame d fuel).2.1 = s.advanceFrame.setFenceVal (s.fence_vals_ s.frame_index_) := by
  unfold GpuSystem.MoveToNextFrame
  repeat' split
  all_goals first | exact Or.inl rfl | exact Or.inr (Or.inl rfl) | exact Or.inr (Or.inr rfl)

theorem MoveToNextFrame_frame_index_lt (s : GpuSystem MA DA) (d : Device) (fuel : Nat)
    (hs : s.frame_index_ < FrameCount) :
    (s.MoveToNextFrame d fuel).2.1.frame_index_ < FrameCount := by
  rcases MoveToNextFrame_state s d fuel with h | h | h <;> rw [h]
  · exact hs
  · exact advanceFrame_index_lt s
  · exact advanceFrame_index_lt s

theorem MoveToNextFrame_cmd_queues (s : GpuSystem MA DA) (d : Device) (fuel : Nat) :
    (s.MoveToNextFrame d fuel).2.1.cmd_queues_ = s.cmd_queues_ := by
  rcases MoveToNextFrame_state s d fuel with h | h | h <;> rw [h] <;> rfl

theorem waitForGpuLoop_cmd_queues (fuel : Nat) (is : List Nat) :
    ∀ (s : GpuSystem MA DA) (d : Device) (fence_value : Nat),
      (GpuSystem.waitForGpuLoop fuel is s d fence_value).2.1.cmd_queues_ = s.cmd_queues_ := by
  induction is with
  | nil => intro s d fence_value; rfl
  | cons i rest ih =>
    intro s d fence_value
    have hq : (s.waitForGpuQueue d fuel fence_value i).2.1.cmd_queues_ = s.cmd_queues_ := by
      rcases waitForGpuQueue_state s d fuel fence_value i with h | ⟨v, h⟩
      · rw [h]
      · rw [h]; rfl
    unfold GpuSystem.waitForGpuLoop
    split
    · rename_i fv1 s1 d1 heq
      rw [ih]
      rw [heq] at hq
      exact hq
    all_goals (rename_i heq; rw [heq] at hq; exact hq)

theorem WaitForGpu_cmd_queues (s : GpuSystem MA DA) (d : Device) (fuel fence_value : Nat) :
    (s.WaitForGpu d fuel fence_value).2.1.cmd_queues_ = s.cmd_queues_ := by
  unfold GpuSystem.WaitForGpu
  split
  · exact waitForGpuLoop_cmd_queues fuel queueIndices s d fence_value
  · rfl

theorem Execute_cmd_queues (s : GpuSystem MA DA) (d : Device) (cmd_list : GpuCommandList)
    (w : Nat) :
    (s.Execute d cmd_list w).2.1.cmd_queues_ = s.cmd_queues_ ∨
    (cmd_list.type_ ≠ .Num ∧ (∃ n, cmd_list.cmd_list_ = some n) ∧
      (s.Execute d cmd_list w).2.1.cmd_queues_ = (s.poolEmplaceBack cmd_list).cmd_queues_) := by
  rcases ExecuteOnly_returned_or_not s d cmd_list w with ⟨h, hr⟩ | hnot
  · right
    obtain ⟨h1, h2, _⟩ := ExecuteOnly_returned_closable s d cmd_list w h hr
    refine ⟨h1, h2, ?_⟩
    rw [Execute_state_returned s d cmd_list w h hr, (ExecuteOnly_returned s d cmd_list w h hr).2]
    rfl
  · left
    rw [Execute_state_not_returned s d cmd_list w hnot]

theorem poolsWellFormed_of_cmd_queues (s s1 : GpuSystem MA DA)
    (h : s1.cmd_queues_ = s.cmd_queues_) (hs : s.poolsWellFormed) : s1.poolsWellFormed := by
  unfold GpuSystem.poolsWellFormed at hs ⊢
  rw [h]
  exact hs

theorem poolEmplaceBack_wellFormed (s : GpuSystem MA DA) (cmd_list : GpuCommandList)
    (htype : cmd_list.type_ ≠ .Num) (hnative : cmd_list.cmd_list_ ≠ none)
    (hs : s.poolsWellFormed) : (s.poolEmplaceBack cmd_list).poolsWellFormed := by
  obtain ⟨p1, _, _, p4⟩ := poolEmplaceBack_pool s cmd_list
  intro i l hl
  by_cases hi : i = cmd_list.Type.index
  · subst hi
    rw [p1, List.mem_append, List.mem_singleton] at hl
    rcases hl with hl | hl
    · exact hs _ l hl
    · subst hl
      exact ⟨htype, rfl, hnative⟩
  · rw [p4 i hi] at hl
    exact hs i l hl

theorem poolPopFront_wellFormed (s : GpuSystem MA DA) (type : CmdQueueType)
    (hs : s.poolsWellFormed) : (s.poolPopFront type).poolsWellFormed := by
  intro i l hl
  unfold GpuSystem.poolPopFront at hl
  by_cases hi : i = type.index
  · subst hi
    simp only [Function.update_same] at hl
    exact hs _ l (List.mem_of_mem_tail hl)
  · simp only [Function.update_noteq hi] at hl
    exact hs i l hl

theorem CreateCommandList_state (s : GpuSystem MA DA) (d : Device) (type : CmdQueueType) :
    (s.CreateCommandList d type).2.1 = s ∨ (s.CreateCommandList d type).2.1 = s.poolPopFront type := by
  cases type with
  | Num => exact Or.inl rfl
  | Graphics =>
    unfold GpuSystem.CreateCommandList
    simp only
    repeat' split
    all_goals first | exact Or.inl rfl | exact Or.inr rfl
  | VideoEncode =>
    unfold GpuSystem.CreateCommandList
    simp only
    repeat' split
    all_goals first | exact Or.inl rfl | exact Or.inr rfl

theorem HandleDeviceLost_wellFormed (mops : GpuMemoryAllocatorOps MA MB)
    (dops : GpuDescriptorAllocatorOps DA DB) (s : GpuSystem MA DA) (hs : s.poolsWellFormed) :
    (s.HandleDeviceLost mops dops).poolsWellFormed := by
  intro i l hl
  unfold GpuSystem.HandleDeviceLost at hl
  by_cases hi : i < CmdQueueType.Num.index
  · simp [hi] at hl
  · simp only [hi, if_false] at hl
    exact hs i l hl

theorem constructed_wellFormed (upload readback : MA) (desc : DA) :
    (GpuSystem.constructed upload readback desc).poolsWellFormed := by
  intro i l hl
  unfold GpuSystem.constructed at hl
  by_cases hi : i < CmdQueueType.Num.index
  · simp [hi] at hl
  · simp [hi, GpuSystem.initial] at hl

/-- In every reachable state the frame index is below `FrameCount` and the pools are well
formed. -/
theorem Reachable_invariant (mops : GpuMemoryAllocatorOps MA MB)
    (dops : GpuDescriptorAllocatorOps DA DB) (s : GpuSystem MA DA)
    (h : GpuSystem.Reachable mops dops s) :
    s.frame_index_ < FrameCount ∧ s.poolsWellFormed := by
  induction h with
  | construct upload readback desc d d1 s hc =>
    rw [construct_returned upload readback desc d d1 s hc]
    exact ⟨(by decide : 0 < FrameCount), constructed_wellFormed upload readback desc⟩
  | MoveToNextFrame s d fuel _ _ ih =>
    exact ⟨MoveToNextFrame_frame_index_lt s d fuel ih.1,
      poolsWellFormed_of_cmd_queues s _ (MoveToNextFrame_cmd_queues s d fuel) ih.2⟩
  | Execute s d cmd_list w _ _ ih =>
    refine ⟨by rw [Execute_frame_index]; exact ih.1, ?_⟩
    rcases Execute_cmd_queues s d cmd_list w with h | ⟨h1, ⟨n, h2⟩, h3⟩
    · exact poolsWellFormed_of_cmd_queues s _ h ih.2
    · exact poolsWellFormed_of_cmd_queues _ _ h3
        (poolEmplaceBack_wellFormed s cmd_list h1 (by rw [h2]; simp) ih.2)
  | ExecuteAndReset s d cmd_list w _ _ ih =>
    refine ⟨by rw [ExecuteAndReset_frame_index]; exact ih.1, ?_⟩
    exact poolsWellFormed_of_cmd_queues s _
      (by rw [ExecuteAndReset_state, ExecuteOnly_cmd_queues]) ih.2
  | CreateCommandList s d type _ _ ih =>
    refine ⟨by rw [(CreateCommandList_frame_index s d type).1]; exact ih.1, ?_⟩
    rcases CreateCommandList_state s d type with h | h <;> rw [h]
    · exact ih.2
    · exact poolPopFront_wellFormed s type ih.2
  | WaitForGpu s d fuel fence_value _ _ ih =>
    exact ⟨by rw [WaitForGpu_frame_index]; exact ih.1,
      poolsWellFormed_of_cmd_queues s _ (WaitForGpu_cmd_queues s d fuel fence_value) ih.2⟩
  | HandleDeviceLost s _ ih =>
    exact ⟨(by decide : 0 < FrameCount), HandleDeviceLost_wellFormed mops dops s ih.2⟩
  | AllocCbvSrvUavDescBlock s size _ ih => exact ih
  | DeallocCbvSrvUavDescBlock s desc_block _ ih => exact ih
  | ReallocCbvSrvUavDescBlock s desc_block size _ ih => exact ih
  | AllocUploadMemBlock s size_in_bytes alignment _ ih => exact ih
  | DeallocUploadMemBlock s mem_block _ ih => exact ih
  | ReallocUploadMemBlock s mem_block size_in_bytes alignment _ ih => exact ih
  | AllocReadbackMemBlock s size_in_bytes alignment _ ih => exact ih
  | DeallocReadbackMemBlock s mem_block _ ih => exact ih
  | ReallocReadbackMemBlock s mem_block size_in_bytes alignment _ ih => exact ih
theorem CmdQueueType.index_injective (a b : CmdQueueType) (h : a.index = b.index) : a = b := by
  cases a <;> cases b <;> first | rfl | exact absurd h (by decide)

theorem CreateCommandList_empty_pool (s : GpuSystem MA DA) (d : Device) (t : CmdQueueType)
    (ht : t ≠ .Num) (hp : (s.cmd_queues_ t.index).cmd_list_pool = [])
    (hdev : s.device_ = true) (hok : 0 ≤ d.hresult d.now) :
    s.CreateCommandList d t =
      (.returned { type_ := t, cmd_list_ := some d.now }, s,
        (d.call (.CreateCommandList t (s.CurrentCommandAllocator t) d.now)).2) := by
  cases t with
  | Num => exact absurd rfl ht
  | Graphics =>
    simp [GpuSystem.CreateCommandList, hp, GpuCommandList.construct, hdev, TIFHR, FAILED,
      Device.call, not_lt.mpr hok]
  | VideoEncode =>
    simp [GpuSystem.CreateCommandList, hp, GpuCommandList.construct, hdev, TIFHR, FAILED,
      Device.call, not_lt.mpr hok]

theorem CreateCommandList_from_pool (s : GpuSystem MA DA) (d : Device) (t : CmdQueueType)
    (front : GpuCommandList) (rest : List GpuCommandList) (n : Nat)
    (ht : t ≠ .Num) (hp : (s.cmd_queues_ t.index).cmd_list_pool = front :: rest)
    (hft : front.type_ ≠ .Num) (hfn : front.cmd_list_ = some n) :
    s.CreateCommandList d t =
      (.returned front, s.poolPopFront t,
        (d.call (.ResetCommandList n (s.CurrentCommandAllocator t))).2) := by
  cases t with
  | Num => exact absurd rfl ht
  | Graphics =>
    cases hf : front.type_ with
    | Num => exact absurd hf hft
    | Graphics => simp [GpuSystem.CreateCommandList, hp, GpuCommandList.Reset, hf, hfn]
    | VideoEncode => simp [GpuSystem.CreateCommandList, hp, GpuCommandList.Reset, hf, hfn]
  | VideoEncode =>
    cases hf : front.type_ with
    | Num => exact absurd hf hft
    | Graphics => simp [GpuSystem.CreateCommandList, hp, GpuCommandList.Reset, hf, hfn]
    | VideoEncode => simp [GpuSystem.CreateCommandList, hp, GpuCommandList.Reset, hf, hfn]

theorem poolPopFront_pool (s : GpuSystem MA DA) (t : CmdQueueType) :
    ((s.poolPopFront t).cmd_queues_ t.index).cmd_list_pool =
      (s.cmd_queues_ t.index).cmd_list_pool.tail ∧
    (∀ i, i ≠ t.index → (s.poolPopFront t).cmd_queues_ i = s.cmd_queues_ i) := by
  unfold GpuSystem.poolPopFront
  refine ⟨by simp, ?_⟩
  intro i hi
  simp [Function.update_noteq hi]

theorem sampleSystem_reachable :
    GpuSystem.Reachable recordingMemoryAllocator recordingDescriptorAllocator sampleSystem :=
  GpuSystem.Reachable.construct [] [] [] (sampleDevice 0 0)
    (GpuSystem.construct ([] : List AllocatorRequest) ([] : List AllocatorRequest)
      ([] : List AllocatorRequest) (sampleDevice 0 0)).2 sampleSystem
    (Prod.ext (construct_accepted [] [] [] (sampleDevice 0 0) (fun _ _ => Int.le_refl 0)) rfl)

theorem pooledSystem_reachable :
    GpuSystem.Reachable recordingMemoryAllocator recordingDescriptorAllocator pooledSystem :=
  GpuSystem.Reachable.Execute sampleSystem (sampleDevice 0 0) sampleList MaxFenceValue
    sampleSystem_reachable (by decide)

/-! ## The values WaitForGpu signals -/

theorem waitForGpuQueue_signals (s s1 : GpuSystem MA DA) (d d1 : Device)
    (fuel fv fv1 i : Nat) (hq : (s.cmd_queues_ i).cmd_queue = true)
    (hok : ∀ t, d.now ≤ t → 0 ≤ d.hresult t)
    (h : s.waitForGpuQueue d fuel fv i = (.returned fv1, s1, d1)) :
    d1.calls.filterMap DriverCall.signalled = d.calls.filterMap DriverCall.signalled ++
      [(i, if fv = MaxFenceValue then s.fence_vals_ s.frame_index_ else fv)] ∧
    (if d.completed (d.now + 1) % UINT64_SIZE <
        (if fv = MaxFenceValue then s.fence_vals_ s.frame_index_ else fv) then
      fv1 = (if fv ≠ MaxFenceValue then (fv + 1) % UINT64_SIZE else fv) ∧
      s1 = s.setFenceVal (if fv = MaxFenceValue then s.fence_vals_ s.frame_index_ else fv)
    else fv1 = fv ∧ s1 = s) := by
  unfold GpuSystem.waitForGpuQueue at h
  generalize (if fv = MaxFenceValue then s.fence_vals_ s.frame_index_ else fv) = wfv at h ⊢
  have h0 := hok d.now (le_refl _)
  have h2 := hok (d.now + 1 + 1) (by omega)
  simp only [hq, SUCCEEDED, Device.call, Device.GetCompletedValue, h0, h2, decide_True,
    if_true] at h
  by_cases hlt : d.completed (d.now + 1) % UINT64_SIZE < wfv
  · simp only [hlt, if_true] at h ⊢
    split at h
    · simp at h
    · rename_i d4 hw
      obtain ⟨w, hw1, hw2, hw3, hw4, hw5⟩ := WaitForSingleObjectEx_some _ _ _ _ hw
      simp only [Prod.mk.injEq, Outcome.returned.injEq] at h
      obtain ⟨hfv, hs, hd⟩ := h
      subst hd
      refine ⟨?_, hfv.symm, hs.symm⟩
      rw [hw2]
      simp [DriverCall.signalled]
  · simp only [hlt, if_false] at h ⊢
    simp only [Prod.mk.injEq, Outcome.returned.injEq] at h
    obtain ⟨hfv, hs, hd⟩ := h
    subst hd
    refine ⟨?_, hfv.symm, hs.symm⟩
    simp [DriverCall.signalled]

/-! ## The main loop -/

theorem three_lt_UINT32_SIZE : 3 < UINT32_SIZE := by norm_num [UINT32_SIZE]

theorem frame_succ_mod (i : Nat) : (i % 3 + 1) % UINT32_SIZE % 3 = (i + 1) % 3 := by
  have h3 := three_lt_UINT32_SIZE
  have h : (i % 3 + 1) % UINT32_SIZE = i % 3 + 1 := Nat.mod_eq_of_lt (by omega)
  rw [h]
  omega

theorem slot_ne_two_back (i : Nat) (h2 : 2 ≤ i) : (i - 2) % 3 ≠ i % 3 := by omega

theorem body_read {R F : Type} (ops : ReaderOps R F) (st : MainLoop R F) (f : F) (r1 : R)
    (htotal : st.total_frames = 0) (hread : ops.ReadFrame st.reader = (some f, r1))
    (hfi : st.frame_index = st.i % 3) (hi : st.i + 1 < UINT32_SIZE) :
    MainLoop.body ops st =
      ({ i := st.i + 1
         total_frames := 0
         reader := r1
         frame_index := (st.i + 1) % 3
         frame_texs := Function.update st.frame_texs (st.i % 3) (some f)
         motion_blurred_texs := Function.update st.motion_blurred_texs (st.i % 3) (some f)
         calls := st.calls ++
          ([.ReadFrame (st.i % 3) (some f), .AddFrame (st.i % 3) (some f), .MoveToNextFrame] ++
            passSave st.i (Function.update st.motion_blurred_texs (st.i % 3) (some f))) },
        false) := by
  have hmod : st.i % 3 % 3 = st.i % 3 := Nat.mod_mod _ _
  have e1 : (st.i + 1) % UINT32_SIZE = st.i + 1 := Nat.mod_eq_of_lt hi
  have e2 := frame_succ_mod st.i
  by_cases h2 : 2 ≤ st.i
  · have e := slot_ne_two_back st.i h2
    have e5 : st.i - 2 + 1 = st.i - 1 := by omega
    simp [MainLoop.body, MainLoop.readBlock, MainLoop.saveBlock, htotal, hread,
      FrameCount, h2, hfi, hmod, e1, e2, e5, passSave, Function.update_noteq e]
  · simp [MainLoop.body, MainLoop.readBlock, MainLoop.saveBlock, htotal, hread,
      FrameCount, h2, hfi, hmod, e1, e2, passSave]

theorem body_end {R F : Type} (ops : ReaderOps R F) (st : MainLoop R F) (r1 : R)
    (htotal : st.total_frames = 0) (hread : ops.ReadFrame st.reader = (none, r1))
    (hfi : st.frame_index = st.i % 3) (hi0 : 1 ≤ st.i) (hi : st.i + 1 < UINT32_SIZE) :
    MainLoop.body ops st =
      ({ st with
         i := st.i + 1
         total_frames := st.i
         reader := r1
         calls := st.calls ++
          ([.ReadFrame (st.i % 3) none] ++ passSave st.i st.motion_blurred_texs) },
        false) := by
  have hmod : st.i % 3 % 3 = st.i % 3 := Nat.mod_mod _ _
  have e1 : (st.i + 1) % UINT32_SIZE = st.i + 1 := Nat.mod_eq_of_lt hi
  have e6 : (st.i - 1 + 2) % UINT32_SIZE = st.i + 1 := by
    have : st.i - 1 + 2 = st.i + 1 := by omega
    rw [this]; exact e1
  have e4 : ¬ st.i = 0 := by omega
  by_cases h2 : 2 ≤ st.i
  · have e5 : st.i - 2 + 1 = st.i - 1 := by omega
    simp [MainLoop.body, MainLoop.readBlock, MainLoop.saveBlock, htotal, hread,
      FrameCount, h2, hfi, hmod, e1, e6, e4, e5, passSave]
  · simp [MainLoop.body, MainLoop.readBlock, MainLoop.saveBlock, htotal, hread,
      FrameCount, h2, hfi, hmod, e1, e6, e4, passSave]

theorem body_last {R F : Type} (ops : ReaderOps R F) (st : MainLoop R F)
    (htotal : st.total_frames + 1 = st.i) (hi0 : 2 ≤ st.i) (hi : st.i < UINT32_SIZE) :
    MainLoop.body ops st =
      ({ st with calls := st.calls ++ passSave st.i st.motion_blurred_texs }, true) := by
  have e0 : ¬ st.total_frames = 0 := by omega
  have e6 : (st.total_frames - 1 + 2) % UINT32_SIZE = st.i := by
    have : st.total_frames - 1 + 2 = st.i := by omega
    rw [this]; exact Nat.mod_eq_of_lt hi
  have e5 : st.i - 2 + 1 = st.i - 1 := by omega
  simp [MainLoop.body, MainLoop.readBlock, MainLoop.saveBlock, FrameCount, hi0, e0, e6, e5,
    passSave]

theorem run_passes {R F : Type} (ops : ReaderOps R F) (rest : List F) :
    ∀ st : MainLoop R F, st.total_frames = 0 → st.frame_index = st.i % 3 →
      1 ≤ st.i + rest.length → st.i + rest.length + 1 < UINT32_SIZE →
      ops.yields st.reader rest →
      ∃ st1, MainLoop.run ops (rest.length + 2) st = some st1 ∧
        st1.total_frames = st.i + rest.length ∧
        st1.calls = st.calls ++ passCalls st.i st.motion_blurred_texs rest := by
  induction rest with
  | nil =>
    intro st htotal hfi h1 hb hy
    simp only [List.length_nil, Nat.add_zero] at h1 hb
    have hread : ops.ReadFrame st.reader = (none, (ops.ReadFrame st.reader).2) :=
      Prod.ext hy rfl
    have hb1 := body_end ops st _ htotal hread hfi h1 hb
    have hb2 := body_last ops
      { st with
        i := st.i + 1
        total_frames := st.i
        reader := (ops.ReadFrame st.reader).2
        calls := st.calls ++
          ([.ReadFrame (st.i % 3) none] ++ passSave st.i st.motion_blurred_texs) }
      rfl (by show 2 ≤ st.i + 1; omega) hb
    refine ⟨
      { i := st.i + 1
        total_frames := st.i
        reader := (ops.ReadFrame st.reader).2
        frame_index := st.frame_index
        frame_texs := st.frame_texs
        motion_blurred_texs := st.motion_blurred_texs
        calls := st.calls ++
          ([.ReadFrame (st.i % 3) none] ++ passSave st.i st.motion_blurred_texs) ++
          passSave (st.i + 1) st.motion_blurred_texs }, ?_, ?_, ?_⟩
    · show MainLoop.run ops 2 st = _
      rw [MainLoop.run, hb1]
      simp only
      rw [MainLoop.run, hb2]
    · rfl
    · simp [passCalls]
  | cons f rest ih =>
    intro st htotal hfi h1 hb hy
    simp only [List.length_cons] at h1 hb
    have hread : ops.ReadFrame st.reader = (some f, (ops.ReadFrame st.reader).2) :=
      Prod.ext hy.1 rfl
    have hb1 := body_read ops st f _ htotal hread hfi (by omega)
    obtain ⟨st1, hr, ht, hc⟩ := ih
      { i := st.i + 1
        total_frames := 0
        reader := (ops.ReadFrame st.reader).2
        frame_index := (st.i + 1) % 3
        frame_texs := Function.update st.frame_texs (st.i % 3) (some f)
        motion_blurred_texs := Function.update st.motion_blurred_texs (st.i % 3) (some f)
        calls := st.calls ++
          ([.ReadFrame (st.i % 3) (some f), .AddFrame (st.i % 3) (some f), .MoveToNextFrame] ++
            passSave st.i (Function.update st.motion_blurred_texs (st.i % 3) (some f))) }
      rfl rfl (by show 1 ≤ st.i + 1 + rest.length; omega)
      (by show st.i + 1 + rest.length + 1 < UINT32_SIZE; omega) hy.2
    refine ⟨st1, ?_, ?_, ?_⟩
    · show MainLoop.run ops (rest.length + 2 + 1) st = _
      rw [MainLoop.run, hb1]
      exact hr
    · rw [ht]
      show st.i + 1 + rest.length = st.i + (rest.length + 1)
      omega
    · rw [hc]
      simp [passCalls]

theorem passCalls_added {F : Type} (rest : List F) :
    ∀ (i : Nat) (texs : Nat → Option F),
      (passCalls i texs rest).filterMap MainCall.added =
        (rest.enumFrom i).map (fun p => (p.1 % 3, some p.2)) := by
  induction rest with
  | nil =>
    intro i texs
    by_cases h1 : 2 ≤ i <;> by_cases h2 : 2 ≤ i + 1 <;>
      simp [passCalls, passSave, MainCall.added, h1, h2]
  | cons f rest ih =>
    intro i texs
    by_cases h1 : 2 ≤ i <;>
      simp [passCalls, passSave, MainCall.added, h1, ih, List.enumFrom]

theorem passCalls_saved {F : Type} (rest : List F) :
    ∀ (i : Nat) (texs : Nat → Option F), 2 ≤ i →
      (passCalls i texs rest).filterMap MainCall.saved =
        ((texs ((i - 2) % 3) :: texs ((i - 1) % 3) :: rest.map some).enumFrom (i - 2)).map
          (fun p => (p.1 % 3, p.1 + 1, p.2)) := by
  induction rest with
  | nil =>
    intro i texs h2
    have e1 : i - 2 + 1 = i - 1 := by omega
    have e2 : i - 1 + 1 = i := by omega
    have h3 : 2 ≤ i + 1 := by omega
    simp [passCalls, passSave, MainCall.saved, h2, h3, List.enumFrom, e1, e2]
  | cons f rest ih =>
    intro i texs h2
    have e1 : i - 2 + 1 = i - 1 := by omega
    have e3 : (i - 2) % 3 ≠ i % 3 := by omega
    have e4 : (i - 1) % 3 ≠ i % 3 := by omega
    have h3 : 2 ≤ i + 1 := by omega
    have e5 : i + 1 - 2 = i - 1 := by omega
    have ih1 := ih (i + 1) (Function.update texs (i % 3) (some f)) h3
    rw [e5, Nat.add_sub_cancel, Function.update_noteq e4, Function.update_same] at ih1
    simp [passCalls, passSave, MainCall.saved, h2, List.enumFrom, e1, ih1,
      Function.update_noteq e3]

theorem passCalls_saved_start {F : Type} (frames : List F) (h : 1 ≤ frames.length) :
    (passCalls 0 (fun _ => none) frames).filterMap MainCall.saved =
      frames.enum.map (fun p => (p.1 % FrameCount, p.1 + 1, some p.2)) := by
  match frames, h with
  | [f], _ => simp [passCalls, passSave, MainCall.saved, List.enum, List.enumFrom, FrameCount]
  | f :: g :: rest, _ =>
    have e : ∀ (l : List F) (n : Nat),
        List.map (fun p : Nat × Option F => (p.1 % 3, p.1 + 1, p.2))
          (List.enumFrom n (List.map some l)) =
        List.map (fun p : Nat × F => (p.1 % 3, p.1 + 1, some p.2)) (List.enumFrom n l) := by
      intro l
      induction l with
      | nil => intro n; rfl
      | cons a l ih => intro n; simp [List.enumFrom, ih]
    simp [passCalls, passSave, MainCall.saved, List.enum, List.enumFrom, FrameCount,
      passCalls_saved, e]

theorem ImageSeqReader_yields {P : Type} (k : Nat) :
    ∀ r : ImageSeqReader P, r.files_.length < UINT32_SIZE →
      r.files_.length - r.curr_frame_ = k →
      (imageSeqReader P).yields r (r.files_.drop r.curr_frame_) := by
  induction k with
  | zero =>
    intro r _ hk
    have hle : r.files_.length ≤ r.curr_frame_ := by omega
    rw [List.drop_eq_nil_of_le hle]
    show (ImageSeqReader.ReadFrame r).1 = none
    unfold ImageSeqReader.ReadFrame
    rw [dif_neg (by omega)]
  | succ k ih =>
    intro r hlen hk
    have hlt : r.curr_frame_ < r.files_.length := by omega
    have e1 : (r.curr_frame_ + 1) % UINT32_SIZE = r.curr_frame_ + 1 :=
      Nat.mod_eq_of_lt (by omega)
    rw [List.drop_eq_getElem_cons hlt]
    have hread : ImageSeqReader.ReadFrame r =
        (some (r.files_.get ⟨r.curr_frame_, hlt⟩),
          { r with curr_frame_ := (r.curr_frame_ + 1) % UINT32_SIZE }) := by
      unfold ImageSeqReader.ReadFrame
      rw [dif_pos hlt]
    refine ⟨by show (ImageSeqReader.ReadFrame r).1 = _; rw [hread]; rfl, ?_⟩
    show (imageSeqReader P).yields (ImageSeqReader.ReadFrame r).2 _
    rw [hread]
    have := ih { r with curr_frame_ := (r.curr_frame_ + 1) % UINT32_SIZE } hlen
      (by show r.files_.length - (r.curr_frame_ + 1) % UINT32_SIZE = k; rw [e1]; omega)
    simp only [e1] at this ⊢
    exact this

theorem ImageSeqReader_sorted_yields {P : Type} [LinearOrder P] (pushed : List P)
    (h : pushed.length < UINT32_SIZE) :
    (imageSeqReader P).yields (ImageSeqReader.sorted pushed)
      (pushed.insertionSort (· ≤ ·)) := by
  have := ImageSeqReader_yields (pushed.insertionSort (· ≤ ·)).length
    (ImageSeqReader.sorted pushed)
    (by show (pushed.insertionSort (· ≤ ·)).length < _; rw [List.length_insertionSort]; exact h)
    rfl
  exact this

theorem countingReader_yields (n m : Nat) :
    ∀ k, k + m = n → (countingReader n).yields k (List.range' k m) := by
  induction m with
  | zero =>
    intro k hk
    show (if k < n then (some k, k + 1) else (none, k)).1 = none
    rw [if_neg (by omega)]
  | succ m ih =>
    intro k hk
    have hlt : k < n := by omega
    refine ⟨?_, ?_⟩
    · show (if k < n then (some k, k + 1) else (none, k)).1 = some k
      rw [if_pos hlt]
    · show (countingReader n).yields (if k < n then (some k, k + 1) else (none, k)).2 _
      rw [if_pos hlt]
      exact ih (k + 1) (by omega)

theorem passSave_saved_length {F : Type} (i : Nat) (texs : Nat → Option F) :
    ((passSave i texs).filterMap MainCall.saved).length = (i + 1 - 2) - (i - 2) := by
  by_cases h2 : 2 ≤ i
  · simp [passSave, h2, MainCall.saved]; omega
  · simp [passSave, h2]; omega

/-- The passes that read a frame, when the counter `i` does not wrap during them: the
loop goes on from the state they leave, and every pass from the third on has saved. -/
theorem run_reading {R F : Type} (ops : ReaderOps R F) (rest : List F) :
    ∀ st : MainLoop R F, st.total_frames = 0 → st.frame_index = st.i % 3 →
      st.i + rest.length < UINT32_SIZE → ops.yields st.reader rest →
      ∃ st1, (∀ k, MainLoop.run ops (rest.length + k) st = MainLoop.run ops k st1) ∧
        st1.i = st.i + rest.length ∧ st1.total_frames = 0 ∧ st1.frame_index = st1.i % 3 ∧
        (ops.ReadFrame st1.reader).1 = none ∧
        (st1.calls.filterMap MainCall.saved).length =
          (st.calls.filterMap MainCall.saved).length + ((st.i + rest.length - 2) - (st.i - 2)) := by
  induction rest with
  | nil =>
    intro st htotal hfi _ hy
    refine ⟨st, fun k => by simp, rfl, htotal, hfi, hy, ?_⟩
    simp
  | cons f rest ih =>
    intro st htotal hfi hb hy
    simp only [List.length_cons] at hb
    have hread : ops.ReadFrame st.reader = (some f, (ops.ReadFrame st.reader).2) :=
      Prod.ext hy.1 rfl
    have hb1 := body_read ops st f _ htotal hread hfi (by omega)
    obtain ⟨st1, hr, hi, ht, hf, hn, hc⟩ := ih
      { i := st.i + 1
        total_frames := 0
        reader := (ops.ReadFrame st.reader).2
        frame_index := (st.i + 1) % 3
        frame_texs := Function.update st.frame_texs (st.i % 3) (some f)
        motion_blurred_texs := Function.update st.motion_blurred_texs (st.i % 3) (some f)
        calls := st.calls ++
          ([.ReadFrame (st.i % 3) (some f), .AddFrame (st.i % 3) (some f), .MoveToNextFrame] ++
            passSave st.i (Function.update st.motion_blurred_texs (st.i % 3) (some f))) }
      rfl rfl (by show st.i + 1 + rest.length < UINT32_SIZE; omega) hy.2
    refine ⟨st1, ?_, ?_, ht, hf, hn, ?_⟩
    · intro k
      have e : (f :: rest).length + k = (rest.length + k) + 1 := by
        simp only [List.length_cons]; omega
      rw [e, MainLoop.run, hb1]
      exact hr k
    · rw [hi]
      show st.i + 1 + rest.length = st.i + (rest.length + 1)
      omega
    · rw [hc]
      have hp := passSave_saved_length st.i
        (Function.update st.motion_blurred_texs (st.i % 3) (some f))
      simp only [List.filterMap_append, List.length_append, hp, List.length_cons]
      simp [MainCall.saved]
      omega

theorem body_end_wrap {R F : Type} (ops : ReaderOps R F) (st : MainLoop R F) (r1 : R)
    (htotal : st.total_frames = 0) (hread1 : ops.ReadFrame st.reader = (none, r1))
    (hi : st.i + 1 = UINT32_SIZE) :
    ∃ st1, MainLoop.body ops st = (st1, false) ∧ st1.i = 0 ∧ st1.total_frames = st.i ∧
      (st1.calls.filterMap MainCall.saved).length =
        (st.calls.filterMap MainCall.saved).length + 1 := by
  have h3 := three_lt_UINT32_SIZE
  have e1 : (st.i + 1) % UINT32_SIZE = 0 := by rw [hi]; exact Nat.mod_self _
  have e6 : (st.i - 1 + 2) % UINT32_SIZE = 0 := by
    have : st.i - 1 + 2 = st.i + 1 := by omega
    rw [this]; exact e1
  have e4 : ¬ st.i = 0 := by omega
  have h2 : 2 ≤ st.i := by omega
  refine ⟨{ st with
      i := 0
      total_frames := st.i
      reader := r1
      calls := st.calls ++
        ([.ReadFrame (st.frame_index % 3) none] ++ passSave st.i st.motion_blurred_texs) },
    ?_, rfl, rfl, ?_⟩
  · simp [MainLoop.body, MainLoop.readBlock, MainLoop.saveBlock, htotal, hread1,
      FrameCount, h2, e1, e6, e4, passSave]
    omega
  · simp [passSave, h2, MainCall.saved]

theorem body_break_wrap {R F : Type} (ops : ReaderOps R F) (st : MainLoop R F)
    (hi : st.i = 0) (htotal : st.total_frames + 1 = UINT32_SIZE) :
    MainLoop.body ops st = (st, true) := by
  have h3 := three_lt_UINT32_SIZE
  have e0 : ¬ st.total_frames = 0 := by omega
  have e6 : (st.total_frames - 1 + 2) % UINT32_SIZE = 0 := by
    have : st.total_frames - 1 + 2 = UINT32_SIZE := by omega
    rw [this]; exact Nat.mod_self _
  simp [MainLoop.body, MainLoop.readBlock, MainLoop.saveBlock, FrameCount, hi, e0, e6]

/-- When the reader yields `2^32 - 1` frames, the counter `i` wraps after the pass that
finds the end, the loop ends in the next pass, and the last frame has not been saved. -/
theorem run_wraps {R F : Type} (ops : ReaderOps R F) (r : R) (frames : List F)
    (hlen : frames.length + 1 = UINT32_SIZE) (hyields : ops.yields r frames) :
    ∃ st, MainLoop.run ops (frames.length + 2) (MainLoop.start r) = some st ∧
      st.total_frames = frames.length ∧
      (st.calls.filterMap MainCall.saved).length + 1 = frames.length := by
  have h3 := three_lt_UINT32_SIZE
  obtain ⟨st1, hr, hi, ht, _, hn, hc⟩ := run_reading ops frames (MainLoop.start r) rfl rfl
    (by show 0 + frames.length < UINT32_SIZE; omega) hyields
  have hi1 : st1.i = frames.length := by rw [hi]; show 0 + frames.length = _; omega
  obtain ⟨st2, hb, hi2, ht2, hc2⟩ := body_end_wrap ops st1 _ ht (Prod.ext hn rfl) (by rw [hi1]; exact hlen)
  have hb3 := body_break_wrap ops st2 hi2 (by rw [ht2, hi1]; exact hlen)
  refine ⟨st2, ?_, by rw [ht2, hi1], ?_⟩
  · rw [hr 2, MainLoop.run, hb]
    simp only
    rw [MainLoop.run, hb3]
  · rw [hc2, hc]
    show ([] : List (Nat × Nat × Option F)).length + (0 + frames.length - 2 - (0 - 2)) + 1 + 1 = _
    simp only [List.length_nil]
    omega

/-! ## The ring allocator -/

theorem alignUp_ge (x alignment : Nat) : x ≤ alignUp x alignment := by
  unfold alignUp
  split
  · exact le_refl _
  · rename_i h
    have h1 := Nat.div_add_mod (x + alignment - 1) alignment
    have h2 := Nat.mod_lt (x + alignment - 1) (Nat.pos_of_ne_zero h)
    rw [Nat.mul_comm] at h1
    omega

theorem overlaps_symm (a b : MemoryBlock) (h : a.overlaps b) : b.overlaps a := by
  unfold MemoryBlock.overlaps at h ⊢
  omega

theorem retire_block (g c : Nat) (r r1 : TrackedRange) (h : r.retire g c = some r1) :
    r1.block = r.block ∧ (r.state ≠ .free → (r1 = r ∨ r1.state = .free)) ∧
    (r1.state ≠ .free → r1 = r) := by
  unfold TrackedRange.retire at h
  split at h
  · split at h
    · split at h
      · simp only [Option.some.injEq] at h
        subst h
        exact ⟨rfl, fun _ => Or.inr rfl, fun hh => absurd rfl hh⟩
      · simp at h
    · simp only [Option.some.injEq] at h
      subst h
      exact ⟨rfl, fun _ => Or.inl rfl, fun _ => rfl⟩
  · simp only [Option.some.injEq] at h
    subst h
    exact ⟨rfl, fun _ => Or.inl rfl, fun _ => rfl⟩

theorem retire_keeps (g c : Nat) (r : TrackedRange)
    (h : ∀ v, r.state = .pendingFree v → c < v) : r.retire g c = some r := by
  unfold TrackedRange.retire
  split
  · rename_i v hv
    rw [if_neg (by have := h v hv; omega)]
  · rfl

theorem Tidy_filterMap_retire (cursor g c : Nat) (l : List TrackedRange) (h : Tidy cursor l) :
    Tidy cursor (l.filterMap (TrackedRange.retire g c)) := by
  refine ⟨?_, ?_⟩
  · refine List.Pairwise.filterMap _ ?_ h.1
    intro a a1 hR b hb b1 hb1
    rw [(retire_block g c a b hb).1, (retire_block g c a1 b1 hb1).1]
    exact hR
  · intro r hr
    obtain ⟨r0, hr0, hret⟩ := List.mem_filterMap.mp hr
    rw [(retire_block g c r0 r hret).1]
    exact h.2 r0 hr0

theorem clearOf_filterMap_retire (z : MemoryBlock) (g c : Nat) (l : List TrackedRange)
    (h : clearOf z l) : clearOf z (l.filterMap (TrackedRange.retire g c)) := by
  intro r hr
  obtain ⟨r0, hr0, hret⟩ := List.mem_filterMap.mp hr
  rw [(retire_block g c r0 r hret).1]
  exact h r0 hr0

theorem adjacent_iff (r1 r2 : TrackedRange) :
    r1.adjacent r2 = true ↔
      r1.state = .free ∧ r2.state = .free ∧ r1.block.generation = r2.block.generation ∧
        r1.block.offset + r1.block.size = r2.block.offset := by
  unfold TrackedRange.adjacent
  exact decide_eq_true_iff

theorem clearOf_coalesceInto (z : MemoryBlock) (l : List TrackedRange) :
    ∀ cur : TrackedRange, ¬ z.overlaps cur.block → clearOf z l →
      clearOf z (coalesceInto cur l) := by
  induction l with
  | nil =>
    intro cur hc _ r hr
    simp only [coalesceInto, List.mem_singleton] at hr
    subst hr
    exact hc
  | cons r rest ih =>
    intro cur hc hl
    unfold coalesceInto
    split
    · rename_i hadj
      obtain ⟨_, _, _, hend⟩ := (adjacent_iff cur r).mp hadj
      refine ih _ ?_ (fun x hx => hl x (List.mem_cons_of_mem _ hx))
      have hr := hl r (List.mem_cons_self _ _)
      unfold MemoryBlock.overlaps at hc hr ⊢
      simp only
      omega
    · intro x hx
      rcases List.mem_cons.mp hx with hx | hx
      · subst hx; exact hc
      · exact ih r (hl r (List.mem_cons_self _ _))
          (fun y hy => hl y (List.mem_cons_of_mem _ hy)) x hx

theorem Tidy_coalesceInto (cursor : Nat) (l : List TrackedRange) :
    ∀ cur : TrackedRange, Tidy cursor (cur :: l) → Tidy cursor (coalesceInto cur l) := by
  induction l with
  | nil =>
    intro cur h
    exact h
  | cons r rest ih =>
    intro cur h
    obtain ⟨hp, he⟩ := h
    rw [List.pairwise_cons] at hp
    obtain ⟨hcur, hp1⟩ := hp
    have hp2 := List.pairwise_cons.mp hp1
    unfold coalesceInto
    split
    · rename_i hadj
      obtain ⟨_, _, _, hend⟩ := (adjacent_iff cur r).mp hadj
      apply ih
      refine ⟨List.pairwise_cons.mpr ⟨?_, hp2.2⟩, ?_⟩
      · intro x hx
        have h1 := hcur x (List.mem_cons_of_mem _ hx)
        have h2 := hp2.1 x hx
        unfold MemoryBlock.overlaps at h1 h2 ⊢
        simp only
        omega
      · intro x hx
        rcases List.mem_cons.mp hx with hx | hx
        · subst hx
          have := he r (List.mem_cons_of_mem _ (List.mem_cons_self _ _))
          simp only
          omega
        · exact he x (List.mem_cons_of_mem _ (List.mem_cons_of_mem _ hx))
    · have hrest := ih r ⟨hp1, fun x hx => he x (List.mem_cons_of_mem _ hx)⟩
      refine ⟨List.pairwise_cons.mpr ⟨?_, hrest.1⟩, ?_⟩
      · exact clearOf_coalesceInto cur.block rest r (hcur r (List.mem_cons_self _ _))
          (fun y hy => hcur y (List.mem_cons_of_mem _ hy))
      · intro x hx
        rcases List.mem_cons.mp hx with hx | hx
        · subst hx; exact he _ (List.mem_cons_self _ _)
        · exact hrest.2 x hx

theorem mem_coalesceInto (x : TrackedRange) (hx : x.state ≠ .free) (l : List TrackedRange) :
    ∀ cur : TrackedRange, x ∈ cur :: l → x ∈ coalesceInto cur l := by
  induction l with
  | nil =>
    intro cur h
    exact h
  | cons r rest ih =>
    intro cur h
    unfold coalesceInto
    split
    · rename_i hadj
      obtain ⟨hc, hr, _, _⟩ := (adjacent_iff cur r).mp hadj
      apply ih
      rcases List.mem_cons.mp h with h | h
      · subst h; exact absurd hc hx
      · rcases List.mem_cons.mp h with h | h
        · subst h; exact absurd hr hx
        · exact List.mem_cons_of_mem _ h
    · rcases List.mem_cons.mp h with h | h
      · subst h; exact List.mem_cons_self _ _
      · exact List.mem_cons_of_mem _ (ih r h)

theorem Tidy_coalesce (cursor : Nat) (l : List TrackedRange) (h : Tidy cursor l) :
    Tidy cursor (coalesce l) := by
  cases l with
  | nil => exact h
  | cons r rest => exact Tidy_coalesceInto cursor rest r h

theorem mem_coalesce (x : TrackedRange) (hx : x.state ≠ .free) (l : List TrackedRange)
    (h : x ∈ l) : x ∈ coalesce l := by
  cases l with
  | nil => exact h
  | cons r rest => exact mem_coalesceInto x hx rest r h

theorem fits_iff (exact : Bool) (size alignment : Nat) (r : TrackedRange) :
    r.fits exact size alignment = true ↔
      r.state = .free ∧
      alignUp r.block.offset alignment + size ≤ r.block.offset + r.block.size ∧
      (exact = true → alignUp r.block.offset alignment = r.block.offset ∧ r.block.size = size) := by
  unfold TrackedRange.fits
  exact decide_eq_true_iff

theorem takeFit_clearOf (exact : Bool) (size alignment : Nat) (z : MemoryBlock)
    (l : List TrackedRange) :
    ∀ b l1, takeFit exact size alignment l = some (b, l1) → clearOf z l → clearOf z l1 := by
  induction l with
  | nil => intro b l1 h; simp [takeFit] at h
  | cons r rest ih =>
    intro b l1 h hz
    unfold takeFit at h
    split at h
    · rename_i hfit
      obtain ⟨_, hend, _⟩ := (fits_iff exact size alignment r).mp hfit
      have hge := alignUp_ge r.block.offset alignment
      have hr := hz r (List.mem_cons_self _ _)
      simp only [Option.some.injEq, Prod.mk.injEq] at h
      obtain ⟨_, hl⟩ := h
      subst hl
      intro x hx
      simp only [List.mem_cons] at hx
      rcases hx with hx | hx | hx | hx
      · subst hx
        unfold MemoryBlock.overlaps at hr ⊢
        simp only
        omega
      · subst hx
        unfold MemoryBlock.overlaps at hr ⊢
        simp only
        omega
      · subst hx
        unfold MemoryBlock.overlaps at hr ⊢
        simp only
        omega
      · exact hz x (List.mem_cons_of_mem _ hx)
    · split at h
      · simp at h
      · rename_i b1 rest1 hrec
        simp only [Option.some.injEq, Prod.mk.injEq] at h
        obtain ⟨_, hl⟩ := h
        subst hl
        intro x hx
        rcases List.mem_cons.mp hx with hx | hx
        · subst hx; exact hz _ (List.mem_cons_self _ _)
        · exact ih b1 rest1 hrec (fun y hy => hz y (List.mem_cons_of_mem _ hy)) x hx

theorem takeFit_Tidy (exact : Bool) (size alignment cursor : Nat) (l : List TrackedRange) :
    ∀ b l1, takeFit exact size alignment l = some (b, l1) → Tidy cursor l → Tidy cursor l1 := by
  induction l with
  | nil => intro b l1 h; simp [takeFit] at h
  | cons r rest ih =>
    intro b l1 h ht
    obtain ⟨hp, he⟩ := ht
    rw [List.pairwise_cons] at hp
    obtain ⟨hcur, hp1⟩ := hp
    unfold takeFit at h
    split at h
    · rename_i hfit
      obtain ⟨_, hend, _⟩ := (fits_iff exact size alignment r).mp hfit
      have hge := alignUp_ge r.block.offset alignment
      have her := he r (List.mem_cons_self _ _)
      simp only [Option.some.injEq, Prod.mk.injEq] at h
      obtain ⟨_, hl⟩ := h
      subst hl
      refine ⟨?_, ?_⟩
      · refine List.pairwise_cons.mpr ⟨?_, List.pairwise_cons.mpr ⟨?_,
          List.pairwise_cons.mpr ⟨?_, hp1⟩⟩⟩
        · intro x hx
          simp only [List.mem_cons] at hx
          rcases hx with hx | hx | hx
          · subst hx; unfold MemoryBlock.overlaps; simp only; omega
          · subst hx; unfold MemoryBlock.overlaps; simp only; omega
          · have := hcur x hx
            unfold MemoryBlock.overlaps at this ⊢
            simp only
            omega
        · intro x hx
          simp only [List.mem_cons] at hx
          rcases hx with hx | hx
          · subst hx; unfold MemoryBlock.overlaps; simp only; omega
          · have := hcur x hx
            unfold MemoryBlock.overlaps at this ⊢
            simp only
            omega
        · intro x hx
          have := hcur x hx
          unfold MemoryBlock.overlaps at this ⊢
          simp only
          omega
      · intro x hx
        simp only [List.mem_cons] at hx
        rcases hx with hx | hx | hx | hx
        · subst hx; simp only; omega
        · subst hx; simp only; omega
        · subst hx; simp only; omega
        · exact he x (List.mem_cons_of_mem _ hx)
    · split at h
      · simp at h
      · rename_i b1 rest1 hrec
        simp only [Option.some.injEq, Prod.mk.injEq] at h
        obtain ⟨_, hl⟩ := h
        subst hl
        have hrest := ih b1 rest1 hrec ⟨hp1, fun x hx => he x (List.mem_cons_of_mem _ hx)⟩
        refine ⟨List.pairwise_cons.mpr ⟨?_, hrest.1⟩, ?_⟩
        · exact takeFit_clearOf exact size alignment r.block rest b1 rest1 hrec hcur
        · intro x hx
          rcases List.mem_cons.mp hx with hx | hx
          · subst hx; exact he _ (List.mem_cons_self _ _)
          · exact hrest.2 x hx

theorem takeFit_mem (exact : Bool) (size alignment : Nat) (l : List TrackedRange) :
    ∀ b l1, takeFit exact size alignment l = some (b, l1) →
      b.size = size ∧ { block := b, state := .used } ∈ l1 ∧
      ∀ x ∈ l, x.state ≠ .free → x ∈ l1 := by
  induction l with
  | nil => intro b l1 h; simp [takeFit] at h
  | cons r rest ih =>
    intro b l1 h
    unfold takeFit at h
    split at h
    · rename_i hfit
      obtain ⟨hfree, _, _⟩ := (fits_iff exact size alignment r).mp hfit
      simp only [Option.some.injEq, Prod.mk.injEq] at h
      obtain ⟨hb, hl⟩ := h
      subst hb hl
      refine ⟨rfl, by simp, ?_⟩
      intro x hx hs
      rcases List.mem_cons.mp hx with hx | hx
      · subst hx; exact absurd hfree hs
      · simp [hx]
    · split at h
      · simp at h
      · rename_i b1 rest1 hrec
        simp only [Option.some.injEq, Prod.mk.injEq] at h
        obtain ⟨hb, hl⟩ := h
        subst hb hl
        obtain ⟨h1, h2, h3⟩ := ih b1 rest1 hrec
        refine ⟨h1, List.mem_cons_of_mem _ h2, ?_⟩
        intro x hx hs
        rcases List.mem_cons.mp hx with hx | hx
        · subst hx; exact List.mem_cons_self _ _
        · exact List.mem_cons_of_mem _ (h3 x hx hs)

theorem reclaim_spec (a : RingAllocator) (c : Nat) (h : a.WellFormed) :
    (a.reclaim c).WellFormed ∧
    ∀ x ∈ a.ranges, x.state ≠ .free → (∀ v, x.state = .pendingFree v → c < v) →
      x ∈ (a.reclaim c).ranges := by
  refine ⟨⟨Tidy_coalesce _ _ (Tidy_filterMap_retire _ _ _ _ h.1), h.2⟩, ?_⟩
  intro x hx hs hv
  exact mem_coalesce x hs _ (List.mem_filterMap.mpr ⟨x, hx, retire_keeps _ _ x hv⟩)

theorem bump_spec (a : RingAllocator) (size alignment : Nat) (h : a.WellFormed) :
    (a.bump size alignment).2.WellFormed ∧
    { block := (a.bump size alignment).1, state := .used } ∈ (a.bump size alignment).2.ranges ∧
    ∀ x ∈ a.ranges, x.state ≠ .free → x ∈ (a.bump size alignment).2.ranges := by
  obtain ⟨⟨hp, he⟩, hc⟩ := h
  unfold RingAllocator.bump
  split
  · rename_i hfit
    have hge := alignUp_ge a.cursor alignment
    refine ⟨⟨⟨?_, ?_⟩, hfit⟩, by simp, fun x hx _ => by simp [hx]⟩
    · refine List.pairwise_append.mpr ⟨hp, List.pairwise_singleton _ _, ?_⟩
      intro x hx y hy
      simp only [List.mem_singleton] at hy
      subst hy
      have := he x hx
      unfold MemoryBlock.overlaps
      simp only
      omega
    · intro x hx
      simp only [List.mem_append, List.mem_singleton] at hx
      rcases hx with hx | hx
      · have := he x hx
        simp only
        omega
      · subst hx
        exact le_refl _
  · have hge := alignUp_ge a.capacity alignment
    refine ⟨⟨⟨?_, ?_⟩, le_max_right _ _⟩, by simp, ?_⟩
    · refine List.pairwise_append.mpr
        ⟨hp.sublist (List.filter_sublist _), List.pairwise_singleton _ _, ?_⟩
      intro x hx y hy
      simp only [List.mem_singleton] at hy
      subst hy
      have := he x (List.mem_of_mem_filter hx)
      unfold MemoryBlock.overlaps
      simp only
      omega
    · intro x hx
      simp only [List.mem_append, List.mem_singleton] at hx
      rcases hx with hx | hx
      · have := he x (List.mem_of_mem_filter hx)
        simp only
        omega
      · subst hx
        exact le_refl _
    · intro x hx hs
      simp only [List.mem_append, List.mem_singleton]
      exact Or.inl (List.mem_filter.mpr ⟨hx, by simpa using hs⟩)

theorem Allocate_spec (a : RingAllocator) (size alignment c : Nat) (h : a.WellFormed) :
    (a.Allocate size alignment c).2.WellFormed ∧
    { block := (a.Allocate size alignment c).1, state := .used } ∈
      (a.Allocate size alignment c).2.ranges ∧
    ∀ x ∈ a.ranges, x.state ≠ .free → (∀ v, x.state = .pendingFree v → c < v) →
      x ∈ (a.Allocate size alignment c).2.ranges := by
  obtain ⟨hw, hk⟩ := reclaim_spec a c h
  unfold RingAllocator.Allocate
  split
  · rename_i b l1 hfit
    obtain ⟨_, m2, m3⟩ := takeFit_mem _ _ _ _ b l1 hfit
    exact ⟨⟨takeFit_Tidy _ _ _ _ _ b l1 hfit hw.1, hw.2⟩, m2,
      fun x hx hs hv => m3 x (hk x hx hs hv) hs⟩
  · split
    · rename_i b l1 hfit
      obtain ⟨_, m2, m3⟩ := takeFit_mem _ _ _ _ b l1 hfit
      exact ⟨⟨takeFit_Tidy _ _ _ _ _ b l1 hfit hw.1, hw.2⟩, m2,
        fun x hx hs hv => m3 x (hk x hx hs hv) hs⟩
    · obtain ⟨b1, b2, b3⟩ := bump_spec (a.reclaim c) size alignment hw
      exact ⟨b1, b2, fun x hx hs hv => b3 x (hk x hx hs hv) hs⟩

theorem markPending_spec (block : MemoryBlock) (counter cursor : Nat) (l : List TrackedRange) :
    ∀ l1, markPending block counter l = some l1 → Tidy cursor l →
      Tidy cursor l1 ∧ { block := block, state := .pendingFree counter } ∈ l1 ∧
      (∀ x ∈ l, x.state ≠ .used → x ∈ l1) ∧
      (∀ z, clearOf z l → clearOf z l1) := by
  induction l with
  | nil => intro l1 h; simp [markPending] at h
  | cons r rest ih =>
    intro l1 h ht
    obtain ⟨hp, he⟩ := ht
    rw [List.pairwise_cons] at hp
    obtain ⟨hcur, hp1⟩ := hp
    unfold markPending at h
    split at h
    · rename_i hm
      simp only [Option.some.injEq] at h
      subst h
      refine ⟨⟨List.pairwise_cons.mpr ⟨hcur, hp1⟩, ?_⟩, ?_, ?_, ?_⟩
      · intro x hx
        rcases List.mem_cons.mp hx with hx | hx
        · subst hx; exact he r (List.mem_cons_self _ _)
        · exact he x (List.mem_cons_of_mem _ hx)
      · rw [← hm.1]
        exact List.mem_cons_self _ _
      · intro x hx hs
        rcases List.mem_cons.mp hx with hx | hx
        · subst hx; exact absurd hm.2 hs
        · exact List.mem_cons_of_mem _ hx
      · intro z hz x hx
        rcases List.mem_cons.mp hx with hx | hx
        · subst hx; exact hz r (List.mem_cons_self _ _)
        · exact hz x (List.mem_cons_of_mem _ hx)
    · split at h
      · simp at h
      · rename_i rest1 hrec
        simp only [Option.some.injEq] at h
        subst h
        obtain ⟨i1, i2, i3, i4⟩ := ih rest1 hrec
          ⟨hp1, fun x hx => he x (List.mem_cons_of_mem _ hx)⟩
        refine ⟨⟨List.pairwise_cons.mpr ⟨i4 r.block hcur, i1.1⟩, ?_⟩,
          List.mem_cons_of_mem _ i2, ?_, ?_⟩
        · intro x hx
          rcases List.mem_cons.mp hx with hx | hx
          · subst hx; exact he _ (List.mem_cons_self _ _)
          · exact i1.2 x hx
        · intro x hx hs
          rcases List.mem_cons.mp hx with hx | hx
          · subst hx; exact List.mem_cons_self _ _
          · exact List.mem_cons_of_mem _ (i3 x hx hs)
        · intro z hz x hx
          rcases List.mem_cons.mp hx with hx | hx
          · subst hx; exact hz _ (List.mem_cons_self _ _)
          · exact i4 z (fun y hy => hz y (List.mem_cons_of_mem _ hy)) x hx

theorem Deallocate_spec (a a1 : RingAllocator) (block : MemoryBlock) (counter : Nat)
    (hd : a.Deallocate block counter = some a1) (h : a.WellFormed) :
    a1.WellFormed ∧ { block := block, state := .pendingFree counter } ∈ a1.ranges ∧
    ∀ x ∈ a.ranges, x.state ≠ .used → x ∈ a1.ranges := by
  unfold RingAllocator.Deallocate at hd
  split at hd
  · simp at hd
  · rename_i l1 hm
    simp only [Option.some.injEq] at hd
    subst hd
    obtain ⟨m1, m2, m3, _⟩ := markPending_spec block counter a.cursor a.ranges l1 hm h.1
    exact ⟨⟨m1, h.2⟩, m2, m3⟩

theorem Allocate_step (a : RingAllocator) (size alignment c reached : Nat)
    (past : List RingEvent) (hw : a.WellFormed) (hh : a.Accounted reached past) :
    (a.Allocate size alignment c).2.Accounted (max reached c)
      (past ++ [.allocated (a.Allocate size alignment c).1 (max reached c)]) ∧
    ∀ b v, RingEvent.deallocated b v ∈ past → b.overlaps (a.Allocate size alignment c).1 →
      v ≤ max reached c := by
  obtain ⟨w1, w2, w3⟩ := Allocate_spec a size alignment c hw
  have key : ∀ b v, RingEvent.deallocated b v ∈ past →
      v ≤ max reached c ∨
        ({ block := b, state := .pendingFree v } : TrackedRange) ∈
          (a.Allocate size alignment c).2.ranges := by
    intro b v hm
    rcases hh b v hm with h | h
    · exact Or.inl (le_trans h (le_max_left _ _))
    · by_cases hv : v ≤ c
      · exact Or.inl (le_trans hv (le_max_right _ _))
      · right
        refine w3 _ h (by simp) ?_
        intro v1 hv1
        simp only [RangeState.pendingFree.injEq] at hv1
        omega
  refine ⟨?_, ?_⟩
  · intro b v hm
    rw [List.mem_append, List.mem_singleton] at hm
    rcases hm with hm | hm
    · exact key b v hm
    · simp at hm
  · intro b v hm hov
    rcases key b v hm with h | h
    · exact h
    · exfalso
      have hne : ({ block := b, state := .pendingFree v } : TrackedRange) ≠
          { block := (a.Allocate size alignment c).1, state := .used } := by
        intro heq
        simp at heq
      have hsym : Symmetric (fun r1 r2 : TrackedRange => ¬ r1.block.overlaps r2.block) :=
        fun r1 r2 h12 h21 => h12 (overlaps_symm _ _ h21)
      exact (w1.1.1.forall hsym h w2 hne) hov

theorem Deallocate_step (a a1 : RingAllocator) (block : MemoryBlock) (counter reached : Nat)
    (past : List RingEvent) (hd : a.Deallocate block counter = some a1) (hw : a.WellFormed)
    (hh : a.Accounted reached past) :
    a1.WellFormed ∧ a1.Accounted reached (past ++ [.deallocated block counter]) := by
  obtain ⟨d1, d2, d3⟩ := Deallocate_spec a a1 block counter hd hw
  refine ⟨d1, ?_⟩
  intro b v hm
  rw [List.mem_append, List.mem_singleton] at hm
  rcases hm with hm | hm
  · rcases hh b v hm with h | h
    · exact Or.inl h
    · exact Or.inr (d3 _ h (by simp))
  · simp only [RingEvent.deallocated.injEq] at hm
    obtain ⟨e1, e2⟩ := hm
    subst e1 e2
    exact Or.inr d2

theorem run_safe (calls : List RingCall) :
    ∀ (a : RingAllocator) (reached : Nat) (past : List RingEvent), a.WellFormed →
      a.Accounted reached past →
      ∀ (pre post : List RingEvent) (b1 : MemoryBlock) (r1 : Nat),
        RingAllocator.run calls a reached = pre ++ .allocated b1 r1 :: post →
        ∀ b v, RingEvent.deallocated b v ∈ past ++ pre → b.overlaps b1 → v ≤ r1 := by
  induction calls with
  | nil =>
    intro a reached past _ _ pre post b1 r1 hrun
    simp [RingAllocator.run] at hrun
  | cons call rest ih =>
    intro a reached past hw hh pre post b1 r1 hrun b v hm hov
    cases call with
    | Allocate size alignment c =>
      obtain ⟨s1, s2⟩ := Allocate_step a size alignment c reached past hw hh
      simp only [RingAllocator.run] at hrun
      cases pre with
      | nil =>
        simp only [List.nil_append, List.cons.injEq, RingEvent.allocated.injEq] at hrun
        obtain ⟨⟨e1, e2⟩, _⟩ := hrun
        subst e1 e2
        rw [List.append_nil] at hm
        exact s2 b v hm hov
      | cons e pre1 =>
        simp only [List.cons_append, List.cons.injEq] at hrun
        obtain ⟨e1, hrest⟩ := hrun
        subst e1
        refine ih _ _ _ (Allocate_spec a size alignment c hw).1 s1 pre1 post b1 r1 hrest b v ?_ hov
        simpa using hm
    | Deallocate block counter =>
      simp only [RingAllocator.run] at hrun
      split at hrun
      · exact ih a reached past hw hh pre post b1 r1 hrun b v hm hov
      · rename_i a1 hd
        obtain ⟨s1, s2⟩ := Deallocate_step a a1 block counter reached past hd hw hh
        cases pre with
        | nil => simp at hrun
        | cons e pre1 =>
          simp only [List.cons_append, List.cons.injEq] at hrun
          obtain ⟨e1, hrest⟩ := hrun
          subst e1
          refine ih a1 reached _ s1 s2 pre1 post b1 r1 hrest b v ?_ hov
          simpa using hm

theorem empty_WellFormed (capacity : Nat) : (RingAllocator.empty capacity).WellFormed :=
  ⟨⟨List.Pairwise.nil, fun _ h => absurd h (List.not_mem_nil _)⟩, Nat.zero_le _⟩

/-! ## The first frame -/

theorem pixelTextures_copy (dst src : PixelTexture)
    (hw : pixelTextures.Width dst 0 = pixelTextures.Width src 0)
    (hh : pixelTextures.Height dst 0 = pixelTextures.Height src 0) :
    pixelTextures.Readback (pixelTextures.CopyFrom dst src 0 0 0
      { left := 0, top := 0, front := 0, right := pixelTextures.Width src 0,
        bottom := pixelTextures.Height src 0, back := 1 }) = pixelTextures.Readback src ∧
    pixelTextures.Width (pixelTextures.CopyFrom dst src 0 0 0
      { left := 0, top := 0, front := 0, right := pixelTextures.Width src 0,
        bottom := pixelTextures.Height src 0, back := 1 }) 0 = pixelTextures.Width dst 0 ∧
    pixelTextures.Height (pixelTextures.CopyFrom dst src 0 0 0
      { left := 0, top := 0, front := 0, right := pixelTextures.Width src 0,
        bottom := pixelTextures.Height src 0, back := 1 }) 0 = pixelTextures.Height dst 0 ∧
    pixelTextures.Format (pixelTextures.CopyFrom dst src 0 0 0
      { left := 0, top := 0, front := 0, right := pixelTextures.Width src 0,
        bottom := pixelTextures.Height src 0, back := 1 }) = pixelTextures.Format dst := by
  have hw1 : dst.width = src.width := hw
  have hh1 : dst.height = src.height := hh
  simp [pixelTextures, hw1, hh1]

/-! ## Submissions and frame changes that return -/

theorem setFenceVal_submit (s : GpuSystem MA DA) (hbound : s.activeCounter + 1 < UINT64_SIZE) :
    (s.setFenceVal (s.fence_vals_ s.frame_index_)).activeCounter = s.activeCounter + 1 ∧
    (s.setFenceVal (s.fence_vals_ s.frame_index_)).frame_index_ = s.frame_index_ ∧
    (s.activeIsGreatest → (s.setFenceVal (s.fence_vals_ s.frame_index_)).activeIsGreatest) := by
  have h1 := setFenceVal_activeCounter s (s.fence_vals_ s.frame_index_) hbound
  refine ⟨h1, rfl, ?_⟩
  intro hg j hj hne
  rw [h1]
  have hne1 : j ≠ s.frame_index_ := hne
  have : (s.setFenceVal (s.fence_vals_ s.frame_index_)).fence_vals_ j = s.fence_vals_ j := by
    unfold GpuSystem.setFenceVal
    simp only [Function.update_noteq hne1]
  rw [this]
  have := hg j hj hne1
  unfold GpuSystem.activeCounter at this
  omega

theorem advance_submit (s : GpuSystem MA DA) (hfi : s.frame_index_ < FrameCount)
    (hbound : s.activeCounter + 1 < UINT64_SIZE) :
    (s.advanceFrame.setFenceVal (s.fence_vals_ s.frame_index_)).activeCounter =
      s.activeCounter + 1 ∧
    (s.advanceFrame.setFenceVal (s.fence_vals_ s.frame_index_)).frame_index_ < FrameCount ∧
    (s.activeIsGreatest →
      (s.advanceFrame.setFenceVal (s.fence_vals_ s.frame_index_)).activeIsGreatest) := by
  obtain ⟨f1, _, f3, f4⟩ := frame_step s s.frame_index_ (s.fence_vals_ s.frame_index_) rfl hfi rfl
    hbound
  have hlt : (s.frame_index_ + 1) % FrameCount < FrameCount := Nat.mod_lt _ (by decide)
  have hact : (s.advanceFrame.setFenceVal (s.fence_vals_ s.frame_index_)).activeCounter =
      s.activeCounter + 1 := by
    unfold GpuSystem.activeCounter
    rw [f1, f3]
  refine ⟨hact, by rw [f1]; exact hlt, ?_⟩
  intro hg j hj hne
  rw [hact, f4 j (by rw [f1] at hne; exact hne)]
  by_cases hjf : j = s.frame_index_
  · subst hjf
    unfold GpuSystem.activeCounter
    omega
  · have := hg j hj hjf
    omega

theorem signalledBelow_append (s s1 : GpuSystem MA DA) (d d1 : Device)
    (issued : List DriverCall) (hcalls : d1.calls = d.calls ++ issued)
    (hact : s1.activeCounter = s.activeCounter + 1)
    (hissued : ∀ q v, (q, v) ∈ issued.filterMap DriverCall.signalled → v = s.activeCounter)
    (h : s.signalledBelow d) : s1.signalledBelow d1 := by
  intro q v hm
  rw [hcalls, List.filterMap_append, List.mem_append] at hm
  rw [hact]
  rcases hm with hm | hm
  · have := h q v hm
    omega
  · have := hissued q v hm
    omega

theorem step_submit (s : GpuSystem MA DA) (d : Device) (fuel : Nat) (c : SchedulerCall)
    (hc : c.isWaitForGpu = false) (hret : (s.step d fuel c).1.1 = .returned ())
    (hfi : s.frame_index_ < FrameCount) (hbound : s.activeCounter + 1 < UINT64_SIZE) :
    (s.step d fuel c).2.1.activeCounter = s.activeCounter + 1 ∧
    (s.step d fuel c).2.1.frame_index_ < FrameCount ∧
    (s.activeIsGreatest → (s.step d fuel c).2.1.activeIsGreatest) ∧
    (s.signalledBelow d → (s.step d fuel c).2.1.signalledBelow (s.step d fuel c).2.2) ∧
    (∀ h, (s.step d fuel c).1.2 = some h → h = s.activeCounter) := by
  cases c with
  | WaitForGpu v => simp [SchedulerCall.isWaitForGpu] at hc
  | Execute cmd_list w =>
    simp only [GpuSystem.step] at hret ⊢
    obtain ⟨h, hh⟩ := Outcome.void_returned _ hret
    have hEO : (s.ExecuteOnly d cmd_list w).1 = .returned h := by
      rw [← Execute_outcome]; exact hh
    obtain ⟨h1, h2⟩ := ExecuteOnly_returned s d cmd_list w h hEO
    obtain ⟨k1, ⟨n, k2⟩, k3⟩ := ExecuteOnly_returned_closable s d cmd_list w h hEO
    have hst := Execute_state_returned s d cmd_list w h hEO
    rw [h2] at hst
    obtain ⟨a1, a2, a3⟩ := setFenceVal_submit s hbound
    have hcalls := ExecuteOnly_calls_returned s d cmd_list w n h k1 k2 k3 hEO
    rw [hst, hh]
    refine ⟨a1, by rw [← a2] at hfi; exact hfi, a3, ?_, ?_⟩
    · intro hs
      refine signalledBelow_append s _ d _ _ (by rw [Execute_device, hcalls, List.append_assoc,
        List.append_assoc]) a1 ?_ hs
      intro q v hm
      by_cases hw : w = MaxFenceValue <;>
        simp [hw, DriverCall.signalled] at hm <;> exact hm.2
    · intro h0 hh0
      simp only [Outcome.handle, Option.some.injEq] at hh0
      rw [← hh0, h1]
      rfl
  | ExecuteAndReset cmd_list w =>
    simp only [GpuSystem.step] at hret ⊢
    obtain ⟨h, hh⟩ := Outcome.void_returned _ hret
    have hEO := ExecuteAndReset_returned s d cmd_list w h hh
    obtain ⟨h1, h2⟩ := ExecuteOnly_returned s d cmd_list w h hEO
    obtain ⟨k1, ⟨n, k2⟩, k3⟩ := ExecuteOnly_returned_closable s d cmd_list w h hEO
    obtain ⟨a1, a2, a3⟩ := setFenceVal_submit s hbound
    have hcalls := ExecuteOnly_calls_returned s d cmd_list w n h k1 k2 k3 hEO
    have heq := ExecuteAndReset_eq s d cmd_list w h n hEO k2
    rw [heq, h2]
    refine ⟨a1, by rw [← a2] at hfi; exact hfi, a3, ?_, ?_⟩
    · intro hs
      refine signalledBelow_append s _ d _
        ([.Close n] ++ (if w ≠ MaxFenceValue then [.Wait cmd_list.Type.index w] else []) ++
          [.ExecuteCommandLists cmd_list.Type.index (some n),
            .Signal cmd_list.Type.index (s.fence_vals_ s.frame_index_)] ++
          [.ResetCommandList n (s.CurrentCommandAllocator cmd_list.Type)])
        (by simp only [Device.call, hcalls, List.append_assoc]) a1 ?_ hs
      intro q v hm
      by_cases hw : w = MaxFenceValue <;>
        simp [hw, DriverCall.signalled] at hm <;> exact hm.2
    · intro h0 hh0
      simp only [Outcome.handle, Option.some.injEq] at hh0
      rw [← hh0, h1]
      rfl
  | MoveToNextFrame =>
    simp only [GpuSystem.step] at hret ⊢
    obtain ⟨h1, w, hcalls, _⟩ := MoveToNextFrame_returned s (s.MoveToNextFrame d fuel).2.1 d
      (s.MoveToNextFrame d fuel).2.2 fuel (Prod.ext hret rfl)
    obtain ⟨a1, a2, a3⟩ := advance_submit s hfi hbound
    rw [← h1] at a1 a2 a3
    refine ⟨a1, a2, a3, ?_, fun h0 hh0 => by simp [Outcome.handle] at hh0⟩
    intro hs
    refine signalledBelow_append s _ d _ _ (by rw [hcalls, List.append_assoc, List.append_assoc])
      a1 ?_ hs
    intro q v hm
    by_cases hlt : d.completed (d.now + 2) % UINT64_SIZE < s.fence_vals_ s.advanceFrame.frame_index_ <;>
      simp [hlt, DriverCall.signalled] at hm <;>
      rcases hm with hm | hm <;> exact hm.2

theorem run_submit (fuel : Nat) :
    ∀ (calls : List SchedulerCall) (s : GpuSystem MA DA) (d : Device),
      (∀ c ∈ calls, c.isWaitForGpu = false) → s.allReturn fuel calls d = true →
      s.frame_index_ < FrameCount → s.activeCounter + calls.length < UINT64_SIZE →
      (s.run fuel calls d).2.1.activeCounter = s.activeCounter + calls.length ∧
      (s.run fuel calls d).2.1.frame_index_ < FrameCount ∧
      (s.activeIsGreatest → (s.run fuel calls d).2.1.activeIsGreatest) ∧
      (s.signalledBelow d → (s.run fuel calls d).2.1.signalledBelow (s.run fuel calls d).2.2) ∧
      ∀ h ∈ (s.run fuel calls d).1, s.activeCounter ≤ h ∧ h < s.activeCounter + calls.length := by
  intro calls
  induction calls with
  | nil =>
    intro s d _ _ hfi _
    exact ⟨rfl, hfi, id, id, fun h hh => by simp [GpuSystem.run] at hh⟩
  | cons c rest ih =>
    intro s d hc hall hfi hbound
    simp only [GpuSystem.allReturn, Bool.and_eq_true, decide_eq_true_eq] at hall
    obtain ⟨hret, hrest⟩ := hall
    simp only [List.length_cons] at hbound ⊢
    obtain ⟨s1, s2, s3, s4, s5⟩ := step_submit s d fuel c (hc c (List.mem_cons_self _ _)) hret hfi
      (by omega)
    obtain ⟨i1, i2, i3, i4, i5⟩ := ih (s.step d fuel c).2.1 (s.step d fuel c).2.2
      (fun c1 hc1 => hc c1 (List.mem_cons_of_mem _ hc1)) hrest s2 (by omega)
    simp only [GpuSystem.run, hret]
    refine ⟨by rw [i1, s1]; omega, i2, fun h => i3 (s3 h), fun h => i4 (s4 h), ?_⟩
    intro h hh
    rw [List.mem_append] at hh
    rcases hh with hh | hh
    · cases hopt : (s.step d fuel c).1.2 with
      | none => rw [hopt] at hh; simp at hh
      | some h0 =>
        rw [hopt] at hh
        simp only [Option.toList, List.mem_singleton] at hh
        have := s5 h0 hopt
        omega
    · have := i5 h hh
      omega

theorem allReturn_append (fuel : Nat) (post : List SchedulerCall) :
    ∀ (pre : List SchedulerCall) (s : GpuSystem MA DA) (d : Device),
      s.allReturn fuel (pre ++ post) d = true →
      s.allReturn fuel pre d = true ∧
      (s.run fuel pre d).2.1.allReturn fuel post (s.run fuel pre d).2.2 = true := by
  intro pre
  induction pre with
  | nil => intro s d h; exact ⟨rfl, h⟩
  | cons c rest ih =>
    intro s d h
    simp only [List.cons_append, GpuSystem.allReturn, Bool.and_eq_true, decide_eq_true_eq] at h ⊢
    obtain ⟨hret, hrest⟩ := h
    obtain ⟨i1, i2⟩ := ih _ _ hrest
    refine ⟨⟨hret, i1⟩, ?_⟩
    simp only [GpuSystem.run, hret]
    exact i2

theorem constructed_submit (upload readback : MA) (desc : DA) (d : Device)
    (hsig : d.calls.filterMap DriverCall.signalled = []) :
    (GpuSystem.constructed upload readback desc).activeCounter = 1 ∧
    (GpuSystem.constructed upload readback desc).frame_index_ < FrameCount ∧
    (GpuSystem.constructed upload readback desc).activeIsGreatest ∧
    (GpuSystem.constructed upload readback desc).signalledBelow d := by
  obtain ⟨c1, c2, c3⟩ := constructed_fence_vals upload readback desc
  have hact : (GpuSystem.constructed upload readback desc).activeCounter = 1 := c2
  refine ⟨hact, by rw [c1]; decide, ?_, ?_⟩
  · intro j _ hne
    rw [hact, c3 j (by rw [c1] at hne; omega)]
    decide
  · intro q v hm
    rw [hsig] at hm
    simp at hm

/-! ## Align -/

theorem land_mask (x k : Nat) (hx : x < 2 ^ 32) (hk : k ≤ 32) :
    Nat.land x (2 ^ 32 - 2 ^ k) = x - x % 2 ^ k := by
  have hmask : 2 ^ 32 - 2 ^ k = (2 ^ (32 - k) - 1) <<< k := by
    rw [Nat.shiftLeft_eq, Nat.sub_mul, ← Nat.pow_add, Nat.sub_add_cancel hk, Nat.one_mul]
  have hval : x - x % 2 ^ k = (x >>> k) <<< k := by
    rw [Nat.shiftLeft_eq, Nat.shiftRight_eq_div_pow]
    have := Nat.div_add_mod x (2 ^ k)
    rw [Nat.mul_comm] at this
    omega
  rw [hmask, hval]
  apply Nat.eq_of_testBit_eq
  intro i
  show (x &&& (2 ^ (32 - k) - 1) <<< k).testBit i = _
  rw [Nat.testBit_and, Nat.testBit_shiftLeft, Nat.testBit_shiftLeft, Nat.testBit_shiftRight,
    Nat.testBit_two_pow_sub_one]
  by_cases hik : k ≤ i
  · have e : k + (i - k) = i := by omega
    by_cases hi : i < 32
    · have : i - k < 32 - k := by omega
      simp [hik, this, e]
    · have hx0 : x.testBit i = false :=
        Nat.testBit_lt_two_pow (lt_of_lt_of_le hx (Nat.pow_le_pow_right (by decide) (by omega)))
      simp [hik, e, hx0]
  · simp [hik]

theorem Align_value (k size : Nat) (hk : k < 32) (hsize : size + 2 ^ k - 1 < 2 ^ 32) :
    Align (2 ^ k) size = (size + 2 ^ k - 1) / 2 ^ k * 2 ^ k := by
  have hA : 0 < 2 ^ k := Nat.pow_pos (by decide)
  have hA32 : 2 ^ k < 2 ^ 32 := Nat.pow_lt_pow_right (by decide) hk
  have e1 : (2 ^ k + UINT32_SIZE - 1) % UINT32_SIZE = 2 ^ k - 1 := by
    have : 2 ^ k + UINT32_SIZE - 1 = 2 ^ k - 1 + UINT32_SIZE := by omega
    rw [this, Nat.add_mod_right, Nat.mod_eq_of_lt (by unfold UINT32_SIZE; omega)]
  have e2 : size % UINT32_SIZE = size := Nat.mod_eq_of_lt (by unfold UINT32_SIZE; omega)
  have e3 : (size + (2 ^ k - 1)) % UINT32_SIZE = size + 2 ^ k - 1 := by
    rw [Nat.mod_eq_of_lt (by unfold UINT32_SIZE; omega)]
    omega
  have e4 : UINT32_SIZE - 1 - (2 ^ k - 1) = 2 ^ 32 - 2 ^ k := by
    unfold UINT32_SIZE
    omega
  unfold Align
  rw [e1, e2, e3, e4, land_mask _ k hsize (Nat.le_of_lt hk)]
  have := Nat.div_add_mod (size + 2 ^ k - 1) (2 ^ k)
  rw [Nat.mul_comm] at this
  omega

theorem Align_accepted_two_pow (k : Nat) (hk : k < 32) : Align.accepted (2 ^ k) = true := by
  have hA : 0 < 2 ^ k := Nat.pow_pos (by decide)
  have hA32 : 2 ^ k < 2 ^ 32 := Nat.pow_lt_pow_right (by decide) hk
  have e1 : (2 ^ k + UINT32_SIZE - 1) % UINT32_SIZE = 2 ^ k - 1 := by
    have : 2 ^ k + UINT32_SIZE - 1 = 2 ^ k - 1 + UINT32_SIZE := by omega
    rw [this, Nat.add_mod_right, Nat.mod_eq_of_lt (by unfold UINT32_SIZE; omega)]
  have e2 : 2 ^ k % UINT32_SIZE = 2 ^ k := Nat.mod_eq_of_lt (by unfold UINT32_SIZE; omega)
  unfold Align.accepted
  rw [e1, e2, beq_iff_eq]
  apply Nat.eq_of_testBit_eq
  intro i
  show (2 ^ k &&& (2 ^ k - 1)).testBit i = _
  rw [Nat.testBit_and, Nat.testBit_two_pow_sub_one, Nat.testBit_two_pow, Nat.zero_testBit]
  by_cases h : k = i
  · subst h; simp
  · simp [h]

theorem round_up_facts (A size : Nat) (hA : 0 < A) :
    A ∣ (size + A - 1) / A * A ∧ size ≤ (size + A - 1) / A * A ∧
    (size + A - 1) / A * A < size + A ∧
    (∀ m, A ∣ m → size ≤ m → (size + A - 1) / A * A ≤ m) ∧
    ((size + A - 1) / A * A + A - 1) / A * A = (size + A - 1) / A * A := by
  have hdm := Nat.div_add_mod (size + A - 1) A
  rw [Nat.mul_comm] at hdm
  have hmod := Nat.mod_lt (size + A - 1) hA
  refine ⟨Dvd.intro_left _ rfl, by omega, by omega, ?_, ?_⟩
  · rintro m ⟨c, rfl⟩ hm
    rw [Nat.mul_comm A c]
    apply Nat.mul_le_mul_right
    apply Nat.le_of_lt_succ
    rw [Nat.div_lt_iff_lt_mul hA, Nat.succ_mul, Nat.mul_comm c A]
    omega
  · have : ((size + A - 1) / A * A + A - 1) / A = (size + A - 1) / A := by
      have e : (size + A - 1) / A * A + A - 1 = (A - 1) + A * ((size + A - 1) / A) := by
        rw [Nat.mul_comm A]
        omega
      rw [e, Nat.add_mul_div_left _ _ hA, Nat.div_eq_of_lt (by omega), Nat.zero_add]
    rw [this]

/-! ## Descriptor slots -/

theorem slots_in_range (cs : ComputeShaderHelper) (f : Nat)
    (hbound : (cs.num_srvs + cs.num_uavs) * FrameCount ≤ 2 ^ 31) (hf : f < FrameCount) :
    MotionBlurGenerator.descBlockSize cs = (cs.num_srvs + cs.num_uavs) * FrameCount ∧
    (∀ i, i < cs.num_srvs → MotionBlurGenerator.srvSlot cs f i =
      (((cs.num_srvs + cs.num_uavs) * f + i : Nat) : Int)) ∧
    (∀ i, i < cs.num_uavs → MotionBlurGenerator.uavSlot cs f i =
      (((cs.num_srvs + cs.num_uavs) * f + cs.num_srvs + i : Nat) : Int)) := by
  unfold FrameCount at hbound hf
  have h32 : UINT32_SIZE = 4294967296 := rfl
  have hs : cs.num_srvs % UINT32_SIZE = cs.num_srvs := Nat.mod_eq_of_lt (by omega)
  have hu : cs.num_uavs % UINT32_SIZE = cs.num_uavs := Nat.mod_eq_of_lt (by omega)
  have hsu : (cs.num_srvs + cs.num_uavs) % UINT32_SIZE = cs.num_srvs + cs.num_uavs :=
    Nat.mod_eq_of_lt (by omega)
  have hf32 : f % UINT32_SIZE = f := Nat.mod_eq_of_lt (by omega)
  have hmul : (cs.num_srvs + cs.num_uavs) * f ≤ (cs.num_srvs + cs.num_uavs) * 2 :=
    Nat.mul_le_mul_left _ (by omega)
  have hbase : MotionBlurGenerator.desc_block_base cs f = (cs.num_srvs + cs.num_uavs) * f := by
    unfold MotionBlurGenerator.desc_block_base
    rw [hs, hu, hsu, hf32]
    exact Nat.mod_eq_of_lt (by omega)
  refine ⟨?_, fun i hi => ?_, fun i hi => ?_⟩
  · unfold MotionBlurGenerator.descBlockSize FrameCount
    rw [hs, hu, hsu]
    exact Nat.mod_eq_of_lt (by omega)
  · have hi32 : i % UINT32_SIZE = i := Nat.mod_eq_of_lt (by omega)
    have e : ((cs.num_srvs + cs.num_uavs) * f + i) % UINT32_SIZE =
        (cs.num_srvs + cs.num_uavs) * f + i := Nat.mod_eq_of_lt (by omega)
    unfold MotionBlurGenerator.srvSlot toInt32
    rw [hbase, hi32, e, e, if_pos (by omega)]
  · have hi32 : i % UINT32_SIZE = i := Nat.mod_eq_of_lt (by omega)
    have e1 : ((cs.num_srvs + cs.num_uavs) * f + cs.num_srvs) % UINT32_SIZE =
        (cs.num_srvs + cs.num_uavs) * f + cs.num_srvs := Nat.mod_eq_of_lt (by omega)
    have e : ((cs.num_srvs + cs.num_uavs) * f + cs.num_srvs + i) % UINT32_SIZE =
        (cs.num_srvs + cs.num_uavs) * f + cs.num_srvs + i := Nat.mod_eq_of_lt (by omega)
    unfold MotionBlurGenerator.uavSlot toInt32
    rw [hbase, hs, hi32, e1, e, e, if_pos (by omega)]

theorem computeShaderHelpers_bound :
    ∀ cs ∈ computeShaderHelpers, (cs.num_srvs + cs.num_uavs) * FrameCount ≤ 2 ^ 31 := by
  decide

theorem usesSlot_range (cs : ComputeShaderHelper) (f : Nat)
    (hbound : (cs.num_srvs + cs.num_uavs) * FrameCount ≤ 2 ^ 31) (hf : f < FrameCount)
    (slot : Int) (h : MotionBlurGenerator.usesSlot cs f slot) :
    ∃ n : Nat, slot = (n : Int) ∧ (cs.num_srvs + cs.num_uavs) * f ≤ n ∧
      n < (cs.num_srvs + cs.num_uavs) * f + (cs.num_srvs + cs.num_uavs) := by
  obtain ⟨_, k2, k3⟩ := slots_in_range cs f hbound hf
  have h32 : UINT32_SIZE = 4294967296 := rfl
  rcases h with ⟨i, hi, rfl⟩ | ⟨i, hi, rfl⟩
  · have hi1 : i < cs.num_srvs := lt_of_lt_of_le hi (Nat.mod_le _ _)
    exact ⟨_, k2 i hi1, by omega, by omega⟩
  · have hi1 : i < cs.num_uavs := lt_of_lt_of_le hi (Nat.mod_le _ _)
    exact ⟨_, k3 i hi1, by omega, by omega⟩

/-! ## The scaled size -/

theorem clearLowBit_eq (x : Nat) : clearLowBit x = x % UINT32_SIZE - x % UINT32_SIZE % 2 := by
  have h := land_mask (x % UINT32_SIZE) 1 (Nat.mod_lt _ (by decide)) (by decide)
  exact h

theorem clearLowBit_even (x : Nat) : clearLowBit x % 2 = 0 := by
  rw [clearLowBit_eq]
  omega

theorem clearLowBit_le (x : Nat) (hx : x < UINT32_SIZE) :
    clearLowBit x ≤ x ∧ x ≤ clearLowBit x + 1 ∧ clearLowBit x = x - x % 2 := by
  rw [clearLowBit_eq, Nat.mod_eq_of_lt hx]
  omega

theorem scaleTo_some (less : Nat → Nat → Nat → Nat → Bool) (bw bh width height : Nat)
    (hw : 1 ≤ width) (hh : 1 ≤ height) :
    ∃ s : Nat × Nat, MotionBlurGenerator.scaleTo less bw bh width height = some s := by
  have hw0 : width ≠ 0 := by omega
  have hh0 : height ≠ 0 := by omega
  unfold MotionBlurGenerator.scaleTo mulDiv
  rw [if_neg hw0, if_neg hh0]
  cases less bw width bh height <;> simp

theorem scaledSize_some (less : Nat → Nat → Nat → Nat → Bool) (b : MvBounds)
    (width height : Nat) (hw : 1 ≤ width) (hh : 1 ≤ height) :
    ∃ s : Nat × Nat, MotionBlurGenerator.scaledSize less b width height =
      some (clearLowBit s.1, clearLowBit s.2) := by
  obtain ⟨s1, h1⟩ := scaleTo_some less b.max_mv_width_ b.max_mv_height_ width height hw hh
  obtain ⟨s2, h2⟩ := scaleTo_some less b.min_mv_width_ b.min_mv_height_ width height hw hh
  unfold MotionBlurGenerator.scaledSize
  by_cases c1 : width > b.max_mv_width_ ∨ height > b.max_mv_height_ <;>
    by_cases c2 : width < b.min_mv_width_ ∨ height < b.min_mv_height_
  · exact ⟨s2, by simp [c1, c2, h1, h2]⟩
  · exact ⟨s1, by simp [c1, c2, h1]⟩
  · exact ⟨s2, by simp [c1, c2, h2]⟩
  · exact ⟨(width, height), by simp [c1, c2]⟩

theorem scaleTo_within (less : Nat → Nat → Nat → Nat → Bool) (bw bh width height : Nat)
    (hw : 1 ≤ width) (hh : 1 ≤ height)
    (hless : less bw width bh height = ratioLess bw width bh height)
    (hpw : height * bw < UINT32_SIZE) (hph : width * bh < UINT32_SIZE) :
    ∃ s : Nat × Nat,
      MotionBlurGenerator.scaleTo less bw bh width height = some s ∧ s.1 ≤ bw ∧ s.2 ≤ bh := by
  have hw0 : width ≠ 0 := by omega
  have hh0 : height ≠ 0 := by omega
  unfold MotionBlurGenerator.scaleTo mulDiv
  rw [if_neg hw0, if_neg hh0, hless, Nat.mod_eq_of_lt hpw, Nat.mod_eq_of_lt hph]
  by_cases c : bw * height < bh * width
  · refine ⟨(bw, height * bw / width), by simp [ratioLess, c], le_refl _, ?_⟩
    apply Nat.le_of_lt
    rw [Nat.div_lt_iff_lt_mul (by omega), Nat.mul_comm height bw]
    exact c
  · refine ⟨(width * bh / height, bh), by simp [ratioLess, c], ?_, le_refl _⟩
    apply Nat.div_le_of_le_mul
    rw [Nat.mul_comm width bh, Nat.mul_comm height bw]
    omega

theorem clearLowBit_le_self (x : Nat) : clearLowBit x ≤ x := by
  rw [clearLowBit_eq]
  have := Nat.mod_le x UINT32_SIZE
  omega

/-! ## The directory scan of ImageSeqReader -/

theorem scanEntry_directory (files_ : List (List Char)) (entry : directory_entry)
    (h : entry.is_directory = true) : ImageSeqReader.scanEntry files_ entry = .ok files_ := by
  simp [ImageSeqReader.scanEntry, h]

theorem scanEntry_file (files_ : List (List Char)) (entry : directory_entry)
    (h : entry.is_directory = false) (hext : extension entry.filename ≠ []) :
    ImageSeqReader.scanEntry files_ entry = .ok (files_ ++ [entry.filename]) := by
  have hlen : 1 ≤ (extension entry.filename).length := by
    cases hx : extension entry.filename with
    | nil => exact absurd hx hext
    | cons c rest => simp
  simp [ImageSeqReader.scanEntry, h, substr1, hlen, std_find]

theorem scanEntry_no_extension (files_ : List (List Char)) (entry : directory_entry)
    (h : entry.is_directory = false) (hext : extension entry.filename = []) :
    ImageSeqReader.scanEntry files_ entry = .error .out_of_range := by
  simp [ImageSeqReader.scanEntry, h, substr1, hext]

theorem scan_pushes_files :
    ∀ (entries : List directory_entry) (files_ : List (List Char)),
      (∀ e ∈ entries, e.is_directory = false → extension e.filename ≠ []) →
      ImageSeqReader.scan entries files_ =
        .ok (files_ ++ (entries.filter fun e => !e.is_directory).map fun e => e.filename) := by
  intro entries
  induction entries with
  | nil => intro files_ _; simp [ImageSeqReader.scan]
  | cons entry rest ih =>
    intro files_ h
    have hrest := fun f => ih f (fun e he => h e (List.mem_cons_of_mem _ he))
    cases hd : entry.is_directory with
    | true =>
      simp only [ImageSeqReader.scan, scanEntry_directory files_ entry hd, hrest]
      simp [List.filter, hd]
    | false =>
      simp only [ImageSeqReader.scan,
        scanEntry_file files_ entry hd (h entry (List.mem_cons_self _ _) hd), hrest]
      simp [List.filter, hd]

theorem scan_throws :
    ∀ (entries : List directory_entry) (files_ : List (List Char)),
      (∃ e ∈ entries, e.is_directory = false ∧ extension e.filename = []) →
      ImageSeqReader.scan entries files_ = .error .out_of_range := by
  intro entries
  induction entries with
  | nil => intro files_ h; obtain ⟨e, he, _⟩ := h; simp at he
  | cons entry rest ih =>
    intro files_ h
    cases hs : ImageSeqReader.scanEntry files_ entry with
    | error e =>
      cases e
      simp [ImageSeqReader.scan, hs]
    | ok files1 =>
      obtain ⟨e, he, hd, hext⟩ := h
      rcases List.mem_cons.mp he with rfl | hmem
      · rw [scanEntry_no_extension files_ e hd hext] at hs
        cases hs
      · simp only [ImageSeqReader.scan, hs]
        exact ih files1 ⟨e, hmem, hd, hext⟩

end Lemmas

/-! ## The claims -/

section Claims

variable {MA DA MB DB : Type}

/-- C1, counterexample. On a freshly constructed scheduler, with one list submitted by
`ExecuteAndReset` each time. First run: the third `MoveToNextFrame` comes back to slot 0
while the fence shows 0 and the driver rejects its event registration, so it raises with
the frame index already advanced; the submissions that follow return 2 and 3, after 1 and
3 had been returned. Second run: two submissions return 1 and 2; `WaitForGpu(1)`, entered
while the fence shows 0, sleeps and then sets the active counter to 2; the next submission
returns 2 again. -/
theorem handle_returned_twice :
    (sampleSystem.run 4
      [.ExecuteAndReset sampleList MaxFenceValue, .MoveToNextFrame,
        .ExecuteAndReset sampleList MaxFenceValue, .MoveToNextFrame, .MoveToNextFrame,
        .ExecuteAndReset sampleList MaxFenceValue, .ExecuteAndReset sampleList MaxFenceValue]
      (rejectingDevice 21 0)).1 = [1, 3, 2, 3] ∧
    (sampleSystem.run 4
      [.ExecuteAndReset sampleList MaxFenceValue, .ExecuteAndReset sampleList MaxFenceValue,
        .WaitForGpu 1, .ExecuteAndReset sampleList MaxFenceValue]
      (sampleDevice 11 2)).1 = [1, 2, 2] ∧
    ¬ List.Nodup [1, 3, 2, 3] ∧ ¬ List.Nodup [1, 2, 2] := by
  decide

/-- C1, as amended. For every sequence of fewer than 2^63 calls of `Execute`,
`ExecuteAndReset`, `MoveToNextFrame` and `WaitForGpu()` (with the default counter) on a
constructed `GpuSystem`, all of which return normally, the submission handles returned by
`Execute` and `ExecuteAndReset` are strictly increasing in call order, hence pairwise
distinct. -/
theorem handles_strictly_increasing (upload readback : MA) (desc : DA) (fuel : Nat)
    (calls : List SchedulerCall) (d : Device)
    (hdefault : ∀ c ∈ calls, c.defaultCounter = true)
    (hreturn : (GpuSystem.constructed upload readback desc).allReturn fuel calls d = true)
    (hlength : calls.length < 2 ^ 63) :
    ((GpuSystem.constructed upload readback desc).run fuel calls d).1.Pairwise
      (fun a b => a < b) ∧
    ((GpuSystem.constructed upload readback desc).run fuel calls d).1.Nodup := by
  have hcounter : (GpuSystem.constructed upload readback desc).activeCounter = 1 :=
    (constructed_fence_vals upload readback desc).2.1
  obtain ⟨hp, _⟩ := run_handles_increasing fuel calls _ d hdefault hreturn
    (by rw [hcounter]; unfold UINT64_SIZE; omega)
  exact ⟨hp, hp.imp (fun h => Nat.ne_of_lt h)⟩

/-- An instance of `handles_strictly_increasing`: a submission, a frame change, a
submission that waits for the handle 1 on the GPU, a `WaitForGpu()` and a last submission
return the handles 1, 3 and 4. -/
theorem handles_strictly_increasing_witness :
    (sampleSystem.run 4
      [.ExecuteAndReset sampleList MaxFenceValue, .MoveToNextFrame,
        .ExecuteAndReset sampleList 1, .WaitForGpu MaxFenceValue,
        .ExecuteAndReset sampleList MaxFenceValue] (sampleDevice 0 9)).1 = [1, 3, 4] ∧
    List.Pairwise (fun a b => a < b)
      (sampleSystem.run 4
        [.ExecuteAndReset sampleList MaxFenceValue, .MoveToNextFrame,
          .ExecuteAndReset sampleList 1, .WaitForGpu MaxFenceValue,
          .ExecuteAndReset sampleList MaxFenceValue] (sampleDevice 0 9)).1 :=
  ⟨by decide,
    (handles_strictly_increasing [] [] [] 4
      [.ExecuteAndReset sampleList MaxFenceValue, .MoveToNextFrame,
        .ExecuteAndReset sampleList 1, .WaitForGpu MaxFenceValue,
        .ExecuteAndReset sampleList MaxFenceValue] (sampleDevice 0 9)
      (by decide) (by decide) (by decide)).1⟩

/-- C2. In every state in which the command list can be closed, its queue is live and the
driver accepts the `Signal`, `Execute` returns the counter of the active frame slot as it
was before the call; afterwards that counter is the returned handle plus one (in 64-bit
arithmetic, and exactly the handle plus one below `MaxFenceValue`), and the frame index and
the counters of the other slots are unchanged. -/
theorem Execute_returns_active_counter (s : GpuSystem MA DA) (d : Device)
    (cmd_list : GpuCommandList) (w n : Nat) (htype : cmd_list.type_ ≠ .Num)
    (hnative : cmd_list.cmd_list_ = some n)
    (hqueue : (s.cmd_queues_ cmd_list.Type.index).cmd_queue = true)
    (hsignal : 0 ≤ d.hresult (ExecuteOnly.signalTick d w)) :
    (s.Execute d cmd_list w).1 = .returned (s.fence_vals_ s.frame_index_) ∧
    (s.Execute d cmd_list w).2.1.fence_vals_ s.frame_index_ =
      (s.fence_vals_ s.frame_index_ + 1) % UINT64_SIZE ∧
    (s.fence_vals_ s.frame_index_ < MaxFenceValue →
      (s.Execute d cmd_list w).2.1.fence_vals_ s.frame_index_ =
        s.fence_vals_ s.frame_index_ + 1) ∧
    (s.Execute d cmd_list w).2.1.frame_index_ = s.frame_index_ ∧
    ∀ i, i ≠ s.frame_index_ →
      (s.Execute d cmd_list w).2.1.fence_vals_ i = s.fence_vals_ i := by
  obtain ⟨h1, h2⟩ := ExecuteOnly_signal_ok s d cmd_list w n htype hnative hqueue hsignal
  have h3 := Execute_state_returned s d cmd_list w _ h1
  rw [h2] at h3
  refine ⟨by rw [Execute_outcome, h1], ?_, ?_, ?_, ?_⟩
  · rw [h3]; simp [GpuSystem.poolEmplaceBack, GpuSystem.setFenceVal]
  · intro hlt
    rw [h3]
    simp only [GpuSystem.poolEmplaceBack, GpuSystem.setFenceVal, Function.update_same]
    apply Nat.mod_eq_of_lt
    unfold MaxFenceValue at hlt
    unfold UINT64_SIZE
    omega
  · rw [h3]; rfl
  · intro i hi
    rw [h3]
    simp [GpuSystem.poolEmplaceBack, GpuSystem.setFenceVal, Function.update_noteq hi]

/-- An instance of `Execute_returns_active_counter`: on a freshly constructed scheduler
`Execute` returns 1 and leaves the counters 2, 0, 0. -/
theorem Execute_returns_active_counter_witness :
    (sampleSystem.Execute (sampleDevice 0 0) sampleList MaxFenceValue).1 = .returned 1 ∧
    (sampleSystem.Execute (sampleDevice 0 0) sampleList MaxFenceValue).2.1.fence_vals_ 0 =
      (1 + 1) % UINT64_SIZE ∧
    (1 < MaxFenceValue →
      (sampleSystem.Execute (sampleDevice 0 0) sampleList MaxFenceValue).2.1.fence_vals_ 0 =
        1 + 1) ∧
    (sampleSystem.Execute (sampleDevice 0 0) sampleList MaxFenceValue).2.1.frame_index_ = 0 ∧
    ∀ i, i ≠ 0 →
      (sampleSystem.Execute (sampleDevice 0 0) sampleList MaxFenceValue).2.1.fence_vals_ i =
        sampleSystem.fence_vals_ i :=
  Execute_returns_active_counter sampleSystem (sampleDevice 0 0) sampleList MaxFenceValue 7
    (by decide) rfl rfl (by decide)

/-- C5. After a `MoveToNextFrame` that returns normally, the counter of the newly active
slot is the old value plus one (in 64-bit arithmetic, and exactly the old value plus one
below `MaxFenceValue`), where the old value is the counter of the slot being left, which
the call signalled on both queues and is the only value it signalled; the counters of the
slots other than the newly active one are unchanged. -/
theorem MoveToNextFrame_records_successor (s s1 : GpuSystem MA DA) (d d1 : Device)
    (fuel : Nat) (h : s.MoveToNextFrame d fuel = (.returned (), s1, d1)) :
    s1.fence_vals_ s1.frame_index_ = (s.fence_vals_ s.frame_index_ + 1) % UINT64_SIZE ∧
    (s.fence_vals_ s.frame_index_ < MaxFenceValue →
      s1.fence_vals_ s1.frame_index_ = s.fence_vals_ s.frame_index_ + 1) ∧
    (∃ rest, d1.calls = d.calls ++
        [.Signal 0 (s.fence_vals_ s.frame_index_), .Signal 1 (s.fence_vals_ s.frame_index_)] ++
        rest ∧ ∀ q v, DriverCall.Signal q v ∉ rest) ∧
    ∀ i, i ≠ s1.frame_index_ → s1.fence_vals_ i = s.fence_vals_ i := by
  obtain ⟨hs1, w, hcalls, _, _, _, _⟩ := MoveToNextFrame_returned s s1 d d1 fuel h
  have hval : s1.fence_vals_ s1.frame_index_ =
      (s.fence_vals_ s.frame_index_ + 1) % UINT64_SIZE := by
    rw [hs1]; simp [GpuSystem.setFenceVal, GpuSystem.advanceFrame]
  refine ⟨hval, ?_, ?_, ?_⟩
  · intro hlt
    rw [hval]
    apply Nat.mod_eq_of_lt
    unfold MaxFenceValue at hlt
    unfold UINT64_SIZE
    omega
  · refine ⟨[.GetCompletedValue (d.completed (d.now + 2) % UINT64_SIZE)] ++
        (if d.completed (d.now + 2) % UINT64_SIZE < s.fence_vals_ s.advanceFrame.frame_index_
          then [.SetEventOnCompletion (s.fence_vals_ s.advanceFrame.frame_index_),
            .WaitForSingleObjectEx w]
          else []) ++
        [.ResetCommandAllocator 0 s.advanceFrame.frame_index_,
          .ResetCommandAllocator 1 s.advanceFrame.frame_index_], ?_, ?_⟩
    · rw [hcalls]
      simp only [List.append_assoc, List.cons_append, List.nil_append]
    · intro q v
      by_cases hlt : d.completed (d.now + 2) % UINT64_SIZE <
          s.fence_vals_ s.advanceFrame.frame_index_ <;> simp [hlt]
  · intro i hi
    rw [hs1] at hi ⊢
    simp only [GpuSystem.setFenceVal, GpuSystem.advanceFrame] at hi ⊢
    exact Function.update_noteq hi _ _

/-- An instance of `MoveToNextFrame_records_successor`: the third `MoveToNextFrame` after
construction leaves slot 2, whose counter is 3, and records 4 for slot 0. -/
theorem MoveToNextFrame_records_successor_witness :
    (thirdFrameSystem.MoveToNextFrame (sampleDevice 5 1) 4).1 = .returned () ∧
    (thirdFrameSystem.MoveToNextFrame (sampleDevice 5 1) 4).2.1.fence_vals_ 0 = 4 ∧
    (thirdFrameSystem.MoveToNextFrame (sampleDevice 5 1) 4).2.1.fence_vals_ 2 = 3 := by
  have h := MoveToNextFrame_records_successor thirdFrameSystem
    (thirdFrameSystem.MoveToNextFrame (sampleDevice 5 1) 4).2.1 (sampleDevice 5 1)
    (thirdFrameSystem.MoveToNextFrame (sampleDevice 5 1) 4).2.2 4
    (Prod.ext (by decide) rfl)
  exact ⟨by decide, h.2.1 (by decide), h.2.2.2 2 (by decide)⟩

/-- C6. From a frame index `i` below `FrameCount`, a `MoveToNextFrame` that returns normally
leaves `FrameIndex()` at `(i + 1) mod FrameCount`, so three such calls in a row bring it back
to `i`; `Execute`, `ExecuteAndReset`, `CreateCommandList`, `WaitForGpu` and the nine
allocation pass-throughs leave `FrameIndex()` as it is, however they end. -/
theorem FrameIndex_advances_modulo_FrameCount (mops : GpuMemoryAllocatorOps MA MB)
    (dops : GpuDescriptorAllocatorOps DA DB) (s : GpuSystem MA DA)
    (hs : s.FrameIndex < FrameCount) :
    (∀ d fuel s1 d1, s.MoveToNextFrame d fuel = (.returned (), s1, d1) →
      s1.FrameIndex = (s.FrameIndex + 1) % FrameCount) ∧
    (∀ da db dc fa fb fc s1 d1 s2 d2 s3 d3,
      s.MoveToNextFrame da fa = (.returned (), s1, d1) →
      s1.MoveToNextFrame db fb = (.returned (), s2, d2) →
      s2.MoveToNextFrame dc fc = (.returned (), s3, d3) →
      s3.FrameIndex = s.FrameIndex) ∧
    (∀ d cmd_list w, (s.Execute d cmd_list w).2.1.FrameIndex = s.FrameIndex) ∧
    (∀ d cmd_list w, (s.ExecuteAndReset d cmd_list w).2.1.FrameIndex = s.FrameIndex) ∧
    (∀ d type, (s.CreateCommandList d type).2.1.FrameIndex = s.FrameIndex) ∧
    (∀ d fuel fence_value, (s.WaitForGpu d fuel fence_value).2.1.FrameIndex = s.FrameIndex) ∧
    (∀ size, (s.AllocCbvSrvUavDescBlock dops size).2.FrameIndex = s.FrameIndex) ∧
    (∀ block, (s.DeallocCbvSrvUavDescBlock dops block).FrameIndex = s.FrameIndex) ∧
    (∀ block size, (s.ReallocCbvSrvUavDescBlock dops block size).2.FrameIndex = s.FrameIndex) ∧
    (∀ size al, (s.AllocUploadMemBlock mops size al).2.FrameIndex = s.FrameIndex) ∧
    (∀ block, (s.DeallocUploadMemBlock mops block).FrameIndex = s.FrameIndex) ∧
    (∀ block size al, (s.ReallocUploadMemBlock mops block size al).2.FrameIndex = s.FrameIndex) ∧
    (∀ size al, (s.AllocReadbackMemBlock mops size al).2.FrameIndex = s.FrameIndex) ∧
    (∀ block, (s.DeallocReadbackMemBlock mops block).FrameIndex = s.FrameIndex) ∧
    (∀ block size al,
      (s.ReallocReadbackMemBlock mops block size al).2.FrameIndex = s.FrameIndex) := by
  have step : ∀ (t t1 : GpuSystem MA DA) (d d1 : Device) (fuel : Nat),
      t.frame_index_ < FrameCount → t.MoveToNextFrame d fuel = (.returned (), t1, d1) →
      t1.frame_index_ = (t.frame_index_ + 1) % FrameCount := by
    intro t t1 d d1 fuel ht h
    obtain ⟨h1, _⟩ := MoveToNextFrame_returned t t1 d d1 fuel h
    rw [h1]
    exact advanceFrame_index t ht
  refine ⟨fun d fuel s1 d1 h => step s s1 d d1 fuel hs h, ?_,
    fun d l w => Execute_frame_index s d l w, fun d l w => ExecuteAndReset_frame_index s d l w,
    fun d t => (CreateCommandList_frame_index s d t).1,
    fun d fuel v => WaitForGpu_frame_index s d fuel v,
    fun _ => rfl, fun _ => rfl, fun _ _ => rfl, fun _ _ => rfl, fun _ => rfl,
    fun _ _ _ => rfl, fun _ _ => rfl, fun _ => rfl, fun _ _ _ => rfl⟩
  intro da db dc fa fb fc s1 d1 s2 d2 s3 d3 ha hb hc
  have h1 := step s s1 da d1 fa hs ha
  have h1lt : s1.frame_index_ < FrameCount := by
    rw [h1]; exact Nat.mod_lt _ (by decide)
  have h2 := step s1 s2 db d2 fb h1lt hb
  have h2lt : s2.frame_index_ < FrameCount := by
    rw [h2]; exact Nat.mod_lt _ (by decide)
  have h3 := step s2 s3 dc d3 fc h2lt hc
  unfold GpuSystem.FrameIndex at hs ⊢
  unfold FrameCount at *
  omega

/-- An instance of `FrameIndex_advances_modulo_FrameCount`: three `MoveToNextFrame` calls
on a freshly constructed scheduler visit the slots 1, 2 and 0. -/
theorem FrameIndex_advances_modulo_FrameCount_witness :
    sampleSystem.FrameIndex = 0 ∧
    (sampleSystem.run 4 [.MoveToNextFrame] (sampleDevice 0 1)).2.1.FrameIndex = 1 ∧
    (sampleSystem.run 4 [.MoveToNextFrame, .MoveToNextFrame]
      (sampleDevice 0 1)).2.1.FrameIndex = 2 ∧
    (sampleSystem.run 4 [.MoveToNextFrame, .MoveToNextFrame, .MoveToNextFrame]
      (sampleDevice 0 1)).2.1.FrameIndex = 0 ∧
    (sampleSystem.Execute (sampleDevice 0 1) sampleList MaxFenceValue).2.1.FrameIndex =
      sampleSystem.FrameIndex := by
  have h := FrameIndex_advances_modulo_FrameCount recordingMemoryAllocator
    recordingDescriptorAllocator sampleSystem (by decide)
  exact ⟨by decide, by decide, by decide, by decide, h.2.2.1 _ _ _⟩

/-- C7. Each `Dealloc` and `Realloc` pass-through hands its block to its own allocator
(upload, readback, descriptor) with the counter of the active frame slot,
`fence_vals_[frame_index_]`, as the fence value; each `Alloc` pass-through hands its
arguments unchanged to the same allocator and returns what the allocator returns; none of
the nine touches the other two allocators, the frame index or the slot counters. -/
theorem pass_throughs_forward_active_counter (mops : GpuMemoryAllocatorOps MA MB)
    (dops : GpuDescriptorAllocatorOps DA DB) (s : GpuSystem MA DA) (mem_block : MB)
    (desc_block : DB) (size alignment : Nat) :
    ((s.DeallocUploadMemBlock mops mem_block).upload_mem_allocator_ =
        mops.Deallocate s.upload_mem_allocator_ mem_block (s.fence_vals_ s.frame_index_) ∧
      (s.DeallocUploadMemBlock mops mem_block).readback_mem_allocator_ =
        s.readback_mem_allocator_ ∧
      (s.DeallocUploadMemBlock mops mem_block).cbv_srv_uav_desc_allocator_ =
        s.cbv_srv_uav_desc_allocator_ ∧
      s.sameCounters (s.DeallocUploadMemBlock mops mem_block)) ∧
    ((s.DeallocReadbackMemBlock mops mem_block).readback_mem_allocator_ =
        mops.Deallocate s.readback_mem_allocator_ mem_block (s.fence_vals_ s.frame_index_) ∧
      (s.DeallocReadbackMemBlock mops mem_block).upload_mem_allocator_ =
        s.upload_mem_allocator_ ∧
      (s.DeallocReadbackMemBlock mops mem_block).cbv_srv_uav_desc_allocator_ =
        s.cbv_srv_uav_desc_allocator_ ∧
      s.sameCounters (s.DeallocReadbackMemBlock mops mem_block)) ∧
    ((s.DeallocCbvSrvUavDescBlock dops desc_block).cbv_srv_uav_desc_allocator_ =
        dops.Deallocate s.cbv_srv_uav_desc_allocator_ desc_block
          (s.fence_vals_ s.frame_index_) ∧
      (s.DeallocCbvSrvUavDescBlock dops desc_block).upload_mem_allocator_ =
        s.upload_mem_allocator_ ∧
      (s.DeallocCbvSrvUavDescBlock dops desc_block).readback_mem_allocator_ =
        s.readback_mem_allocator_ ∧
      s.sameCounters (s.DeallocCbvSrvUavDescBlock dops desc_block)) ∧
    (((s.ReallocUploadMemBlock mops mem_block size alignment).1,
        (s.ReallocUploadMemBlock mops mem_block size alignment).2.upload_mem_allocator_) =
        mops.Reallocate s.upload_mem_allocator_ mem_block (s.fence_vals_ s.frame_index_)
          size alignment ∧
      (s.ReallocUploadMemBlock mops mem_block size alignment).2.readback_mem_allocator_ =
        s.readback_mem_allocator_ ∧
      (s.ReallocUploadMemBlock mops mem_block size alignment).2.cbv_srv_uav_desc_allocator_ =
        s.cbv_srv_uav_desc_allocator_ ∧
      s.sameCounters (s.ReallocUploadMemBlock mops mem_block size alignment).2) ∧
    (((s.ReallocReadbackMemBlock mops mem_block size alignment).1,
        (s.ReallocReadbackMemBlock mops mem_block size alignment).2.readback_mem_allocator_) =
        mops.Reallocate s.readback_mem_allocator_ mem_block (s.fence_vals_ s.frame_index_)
          size alignment ∧
      (s.ReallocReadbackMemBlock mops mem_block size alignment).2.upload_mem_allocator_ =
        s.upload_mem_allocator_ ∧
      (s.ReallocReadbackMemBlock mops mem_block size alignment).2.cbv_srv_uav_desc_allocator_ =
        s.cbv_srv_uav_desc_allocator_ ∧
      s.sameCounters (s.ReallocReadbackMemBlock mops mem_block size alignment).2) ∧
    (((s.ReallocCbvSrvUavDescBlock dops desc_block size).1,
        (s.ReallocCbvSrvUavDescBlock dops desc_block size).2.cbv_srv_uav_desc_allocator_) =
        dops.Reallocate s.cbv_srv_uav_desc_allocator_ desc_block
          (s.fence_vals_ s.frame_index_) size ∧
      (s.ReallocCbvSrvUavDescBlock dops desc_block size).2.upload_mem_allocator_ =
        s.upload_mem_allocator_ ∧
      (s.ReallocCbvSrvUavDescBlock dops desc_block size).2.readback_mem_allocator_ =
        s.readback_mem_allocator_ ∧
      s.sameCounters (s.ReallocCbvSrvUavDescBlock dops desc_block size).2) ∧
    (((s.AllocUploadMemBlock mops size alignment).1,
        (s.AllocUploadMemBlock mops size alignment).2.upload_mem_allocator_) =
        mops.Allocate s.upload_mem_allocator_ size alignment ∧
      (s.AllocUploadMemBlock mops size alignment).2.readback_mem_allocator_ =
        s.readback_mem_allocator_ ∧
      (s.AllocUploadMemBlock mops size alignment).2.cbv_srv_uav_desc_allocator_ =
        s.cbv_srv_uav_desc_allocator_ ∧
      s.sameCounters (s.AllocUploadMemBlock mops size alignment).2) ∧
    (((s.AllocReadbackMemBlock mops size alignment).1,
        (s.AllocReadbackMemBlock mops size alignment).2.readback_mem_allocator_) =
        mops.Allocate s.readback_mem_allocator_ size alignment ∧
      (s.AllocReadbackMemBlock mops size alignment).2.upload_mem_allocator_ =
        s.upload_mem_allocator_ ∧
      (s.AllocReadbackMemBlock mops size alignment).2.cbv_srv_uav_desc_allocator_ =
        s.cbv_srv_uav_desc_allocator_ ∧
      s.sameCounters (s.AllocReadbackMemBlock mops size alignment).2) ∧
    (((s.AllocCbvSrvUavDescBlock dops size).1,
        (s.AllocCbvSrvUavDescBlock dops size).2.cbv_srv_uav_desc_allocator_) =
        dops.Allocate s.cbv_srv_uav_desc_allocator_ size ∧
      (s.AllocCbvSrvUavDescBlock dops size).2.upload_mem_allocator_ =
        s.upload_mem_allocator_ ∧
      (s.AllocCbvSrvUavDescBlock dops size).2.readback_mem_allocator_ =
        s.readback_mem_allocator_ ∧
      s.sameCounters (s.AllocCbvSrvUavDescBlock dops size).2) := by
  refine ⟨⟨rfl, rfl, rfl, rfl, rfl⟩, ⟨rfl, rfl, rfl, rfl, rfl⟩, ⟨rfl, rfl, rfl, rfl, rfl⟩,
    ⟨rfl, rfl, rfl, rfl, rfl⟩, ⟨rfl, rfl, rfl, rfl, rfl⟩, ⟨rfl, rfl, rfl, rfl, rfl⟩,
    ⟨rfl, rfl, rfl, rfl, rfl⟩, ⟨rfl, rfl, rfl, rfl, rfl⟩, ⟨rfl, rfl, rfl, rfl, rfl⟩⟩

/-- An instance of `pass_throughs_forward_active_counter` on the recording allocators:
after one submission the active counter is 2, and `DeallocUploadMemBlock` of block 0 reaches
the upload allocator, and only it, as `Deallocate(0, 2)`. -/
theorem pass_throughs_forward_active_counter_witness :
    ((sampleSystem.Execute (sampleDevice 0 0) sampleList MaxFenceValue).2.1.DeallocUploadMemBlock
      recordingMemoryAllocator 0).upload_mem_allocator_ = [.Deallocate 0 2] ∧
    ((sampleSystem.Execute (sampleDevice 0 0) sampleList MaxFenceValue).2.1.DeallocUploadMemBlock
      recordingMemoryAllocator 0).readback_mem_allocator_ = [] := by
  have h := (pass_throughs_forward_active_counter recordingMemoryAllocator
    recordingDescriptorAllocator
    (sampleSystem.Execute (sampleDevice 0 0) sampleList MaxFenceValue).2.1 0 0 0 0).1
  exact ⟨h.1.trans (by decide), h.2.1.trans (by decide)⟩

/-- C9, counterexample. The driver rejects the native `Close` of the list (the call at
tick 0) with `E_FAIL`; `Execute` and `ExecuteAndReset` go on to submit the list and return
the handle 1 instead of raising an error. -/
theorem Execute_returns_after_rejected_Close :
    FAILED ((rejectingDevice 0 0).hresult 0) = true ∧
    (sampleSystem.Execute (rejectingDevice 0 0) sampleList MaxFenceValue).1 = .returned 1 ∧
    (sampleSystem.Execute (rejectingDevice 0 0) sampleList MaxFenceValue).2.2.calls =
      [.Close 7, .ExecuteCommandLists 0 (some 7), .Signal 0 1] ∧
    (sampleSystem.ExecuteAndReset (rejectingDevice 0 0) sampleList MaxFenceValue).1 =
      .returned 1 ∧
    (sampleSystem.ExecuteAndReset (rejectingDevice 0 0) sampleList MaxFenceValue).2.2.calls =
      [.Close 7, .ExecuteCommandLists 0 (some 7), .Signal 0 1,
        .ResetCommandList 7 (some (0, 0))] := by
  decide

/-- C9, as amended. Whenever the driver rejects the `Signal` that follows the submission
in `Execute` or `ExecuteAndReset` (the list can be closed and its queue is live), the call
raises an `HrException` to the caller instead of returning a submission handle, whatever
the driver answers to its other calls. -/
theorem Execute_raises_on_rejected_Signal (s : GpuSystem MA DA) (d : Device)
    (cmd_list : GpuCommandList) (w n : Nat) (htype : cmd_list.type_ ≠ .Num)
    (hnative : cmd_list.cmd_list_ = some n)
    (hqueue : (s.cmd_queues_ cmd_list.Type.index).cmd_queue = true)
    (hsignal : FAILED (d.hresult (ExecuteOnly.signalTick d w)) = true) :
    (∃ e, (s.Execute d cmd_list w).1 = .raised e) ∧
    (∃ e, (s.ExecuteAndReset d cmd_list w).1 = .raised e) ∧
    (∀ h, (s.Execute d cmd_list w).1 ≠ .returned h) ∧
    (∀ h, (s.ExecuteAndReset d cmd_list w).1 ≠ .returned h) := by
  have hneg : d.hresult (ExecuteOnly.signalTick d w) < 0 := by simpa [FAILED] using hsignal
  obtain ⟨h1, _⟩ := ExecuteOnly_signal_failed s d cmd_list w n htype hnative hqueue hneg
  obtain ⟨h2, h3⟩ := Execute_of_raised s d cmd_list w _ h1
  rw [h2, h3, h1]
  exact And.intro ⟨_, rfl⟩ (And.intro ⟨_, rfl⟩
    (And.intro (fun _ hh => Outcome.noConfusion hh) (fun _ hh => Outcome.noConfusion hh)))

/-- An instance of `Execute_raises_on_rejected_Signal`: the driver rejects the `Signal` of
the first submission (the call at tick 2) with `E_FAIL`, and `Execute` and
`ExecuteAndReset` raise. -/
theorem Execute_raises_on_rejected_Signal_witness :
    FAILED ((rejectingDevice 2 0).hresult
      (ExecuteOnly.signalTick (rejectingDevice 2 0) MaxFenceValue)) = true ∧
    ((∃ e, (sampleSystem.Execute (rejectingDevice 2 0) sampleList MaxFenceValue).1 =
        .raised e) ∧
    (∃ e, (sampleSystem.ExecuteAndReset (rejectingDevice 2 0) sampleList MaxFenceValue).1 =
        .raised e) ∧
    (∀ h, (sampleSystem.Execute (rejectingDevice 2 0) sampleList MaxFenceValue).1 ≠
        .returned h) ∧
    (∀ h, (sampleSystem.ExecuteAndReset (rejectingDevice 2 0) sampleList MaxFenceValue).1 ≠
        .returned h)) :=
  ⟨by decide, Execute_raises_on_rejected_Signal sampleSystem (rejectingDevice 2 0) sampleList
    MaxFenceValue 7 (by decide) rfl rfl (by decide)⟩

/-- C10. `WaitForGpu` never raises an error (it returns, or is still asleep when the fuel
is used up). In the pass of its loop for a queue: when the `Signal` fails, or when the fence is
behind and the event registration fails, the pass performs no sleep, leaves the frame index
and all slot counters as they are, and lets the loop go on with an unchanged `fence_value`.
When the fence is null (or the event handle is not valid) the call changes nothing and
issues no driver call. -/
theorem WaitForGpu_never_raises (s : GpuSystem MA DA) (d : Device) (fuel fence_value : Nat) :
    (∀ e, (s.WaitForGpu d fuel fence_value).1 ≠ .raised e) ∧
    (s.WaitForGpu d fuel fence_value).1 ≠ .undefined ∧
    (∀ i, FAILED (d.hresult d.now) = true →
      (s.waitForGpuQueue d fuel fence_value i).1 = .returned fence_value ∧
      (s.waitForGpuQueue d fuel fence_value i).2.1 = s ∧
      ∀ c ∈ (s.waitForGpuQueue d fuel fence_value i).2.2.calls, c ∈ d.calls ∨
        c = .Signal i
          (if fence_value = MaxFenceValue then s.fence_vals_ s.frame_index_
            else fence_value)) ∧
    (∀ i, (s.cmd_queues_ i).cmd_queue = true → SUCCEEDED (d.hresult d.now) = true →
      d.completed (d.now + 1) % UINT64_SIZE <
        (if fence_value = MaxFenceValue then s.fence_vals_ s.frame_index_ else fence_value) →
      FAILED (d.hresult (d.now + 2)) = true →
      (s.waitForGpuQueue d fuel fence_value i).1 = .returned fence_value ∧
      (s.waitForGpuQueue d fuel fence_value i).2.1 = s ∧
      (s.waitForGpuQueue d fuel fence_value i).2.2.calls = d.calls ++
        [.Signal i
            (if fence_value = MaxFenceValue then s.fence_vals_ s.frame_index_
              else fence_value),
          .GetCompletedValue (d.completed (d.now + 1) % UINT64_SIZE),
          .SetEventOnCompletion
            (if fence_value = MaxFenceValue then s.fence_vals_ s.frame_index_
              else fence_value)]) ∧
    ((s.fence_ = false ∨ s.fence_event_ = false) →
      s.WaitForGpu d fuel fence_value = (.returned (), s, d)) := by
  have hout : (s.WaitForGpu d fuel fence_value).1 = .returned () ∨
      (s.WaitForGpu d fuel fence_value).1 = .blocked := by
    unfold GpuSystem.WaitForGpu
    split
    · exact waitForGpuLoop_outcome fuel _ s d fence_value
    · exact Or.inl rfl
  refine ⟨?_, ?_, fun i h => waitForGpuQueue_signal_failed s d fuel fence_value i h,
    fun i hq h1 h2 h3 => waitForGpuQueue_registration_failed s d fuel fence_value i hq h1 h2 h3,
    ?_⟩
  · intro e he
    rcases hout with h | h <;> rw [h] at he <;> simp at he
  · intro he
    rcases hout with h | h <;> rw [h] at he <;> simp at he
  · intro h
    unfold GpuSystem.WaitForGpu
    rcases h with h | h <;> simp [h]

/-- An instance of `WaitForGpu_never_raises`: the driver rejects the first `Signal` of
`WaitForGpu()`; the call returns, the counters stay 1, 0, 0 and the thread never sleeps. -/
theorem WaitForGpu_never_raises_witness :
    (sampleSystem.WaitForGpu (rejectingDevice 0 1) 4 MaxFenceValue).1 = .returned () ∧
    (sampleSystem.waitForGpuQueue (rejectingDevice 0 1) 4 MaxFenceValue 0).1 =
      .returned MaxFenceValue ∧
    (sampleSystem.waitForGpuQueue (rejectingDevice 0 1) 4 MaxFenceValue 0).2.1.fence_vals_ 0 = 1 ∧
    (sampleSystem.WaitForGpu (rejectingDevice 0 1) 4 MaxFenceValue).2.2.calls =
      [.Signal 0 1, .Signal 1 1, .GetCompletedValue 1] := by
  have h := (WaitForGpu_never_raises sampleSystem (rejectingDevice 0 1) 4 MaxFenceValue).2.2.1 0
    (by decide)
  exact ⟨by decide, h.1, by rw [h.2.1]; decide, by decide⟩

/-- C12: a successful `Execute` of a command list puts it at the back of the reuse pool of
the list's queue type: the pool is the former pool followed by the list (one entry longer,
former entries in their order); the pool of every other queue type, and the queue and
allocators of the list's type, are as before. -/
theorem Execute_appends_to_pool (s s1 : GpuSystem MA DA) (d d1 : Device)
    (cmd_list : GpuCommandList) (w h : Nat)
    (hret : s.Execute d cmd_list w = (.returned h, s1, d1)) :
    cmd_list.Type ≠ .Num ∧
    (s1.cmd_queues_ cmd_list.Type.index).cmd_list_pool =
      (s.cmd_queues_ cmd_list.Type.index).cmd_list_pool ++ [cmd_list] ∧
    (s1.cmd_queues_ cmd_list.Type.index).cmd_list_pool.length =
      (s.cmd_queues_ cmd_list.Type.index).cmd_list_pool.length + 1 ∧
    (∀ i, i ≠ cmd_list.Type.index → s1.cmd_queues_ i = s.cmd_queues_ i) := by
  have ho : (s.ExecuteOnly d cmd_list w).1 = .returned h := by
    rw [← Execute_outcome, hret]
  have hs := Execute_state_returned s d cmd_list w h ho
  rw [hret, (ExecuteOnly_returned s d cmd_list w h ho).2] at hs
  simp only at hs
  subst hs
  obtain ⟨p1, _, _, p4⟩ :=
    poolEmplaceBack_pool (s.setFenceVal (s.fence_vals_ s.frame_index_)) cmd_list
  refine ⟨(ExecuteOnly_returned_closable s d cmd_list w h ho).1, p1, ?_, p4⟩
  rw [p1]
  simp [GpuSystem.setFenceVal]

theorem Execute_appends_to_pool_witness :
    sampleSystem.Execute (sampleDevice 0 0) sampleList MaxFenceValue =
      (.returned 1, (sampleSystem.Execute (sampleDevice 0 0) sampleList MaxFenceValue).2.1,
        (sampleSystem.Execute (sampleDevice 0 0) sampleList MaxFenceValue).2.2) ∧
    ((sampleSystem.Execute (sampleDevice 0 0) sampleList MaxFenceValue).2.1.cmd_queues_
        sampleList.Type.index).cmd_list_pool = [sampleList] :=
  ⟨Prod.ext (by decide) rfl,
    (Execute_appends_to_pool sampleSystem _ (sampleDevice 0 0) _ sampleList MaxFenceValue 1
      (Prod.ext (by decide) rfl)).2.1⟩


/-- C13: from the same state, with the same (closable) command list and wait counter on a
live queue, `ExecuteAndReset` ends as `Execute` does (the same handle when they return, the
same exception when they raise), with the same slot counters and frame index.
`ExecuteAndReset` leaves `cmd_queues_` (every pool) as it was. When the calls return, the
driver calls of `Execute` are the close, the wait exactly when the counter is not
`MaxFenceValue`, the submission and the signal of the handle; the object after `Execute` is
the one after `ExecuteAndReset` with the list added to its pool, and `ExecuteAndReset`
issues the same driver calls and one more, the reset of the list against the active slot's
allocator for the list's type. When they do not return, both leave the same object and the
same device, so they have issued the same driver calls. -/
theorem ExecuteAndReset_matches_Execute (s : GpuSystem MA DA) (d : Device)
    (cmd_list : GpuCommandList) (w n : Nat)
    (htype : cmd_list.type_ ≠ .Num) (hnative : cmd_list.cmd_list_ = some n)
    (hqueue : (s.cmd_queues_ cmd_list.Type.index).cmd_queue = true) :
    (s.ExecuteAndReset d cmd_list w).1 = (s.Execute d cmd_list w).1 ∧
    (s.ExecuteAndReset d cmd_list w).2.1.fence_vals_ = (s.Execute d cmd_list w).2.1.fence_vals_ ∧
    (s.ExecuteAndReset d cmd_list w).2.1.frame_index_ =
      (s.Execute d cmd_list w).2.1.frame_index_ ∧
    (s.ExecuteAndReset d cmd_list w).2.1.cmd_queues_ = s.cmd_queues_ ∧
    (∀ h, (s.Execute d cmd_list w).1 = .returned h →
      (s.Execute d cmd_list w).2.2.calls = d.calls ++ [.Close n] ++
        (if w ≠ MaxFenceValue then [.Wait cmd_list.Type.index w] else []) ++
        [.ExecuteCommandLists cmd_list.Type.index (some n),
          .Signal cmd_list.Type.index h] ∧
      (s.Execute d cmd_list w).2.1 =
        (s.ExecuteAndReset d cmd_list w).2.1.poolEmplaceBack cmd_list ∧
      (s.ExecuteAndReset d cmd_list w).2.2.calls = (s.Execute d cmd_list w).2.2.calls ++
        [.ResetCommandList n (s.CurrentCommandAllocator cmd_list.Type)]) ∧
    ((∀ h, (s.Execute d cmd_list w).1 ≠ .returned h) →
      s.ExecuteAndReset d cmd_list w = s.Execute d cmd_list w) := by
  have hq : (s.ExecuteAndReset d cmd_list w).2.1.cmd_queues_ = s.cmd_queues_ := by
    rw [ExecuteAndReset_state, ExecuteOnly_cmd_queues]
  rcases ExecuteOnly_returned_or_not s d cmd_list w with ⟨h, hr⟩ | hnot
  · have h1 := ExecuteAndReset_eq s d cmd_list w h n hr hnative
    have h2 := Execute_state_returned s d cmd_list w h hr
    have h3 := Execute_outcome s d cmd_list w
    have h4 := Execute_device s d cmd_list w
    have hcalls := ExecuteOnly_calls_returned s d cmd_list w n h htype hnative hqueue hr
    have hh := (ExecuteOnly_returned s d cmd_list w h hr).1
    refine ⟨?_, ?_, ?_, hq, ?_, ?_⟩
    · rw [h1, h3, hr]
    · rw [h1, h2]; rfl
    · rw [h1, h2]; rfl
    · intro h0 hh0
      have e0 : h0 = h := by
        rw [h3, hr] at hh0
        cases hh0
        rfl
      subst e0
      refine ⟨?_, by rw [h1, h2], ?_⟩
      · rw [h4, hcalls, hh]
      · rw [h1, h4]
        rfl
    · intro hno
      exact absurd (h3.trans hr) (hno h)
  · obtain ⟨h1, h2⟩ := ExecuteAndReset_not_returned s d cmd_list w hnot
    refine ⟨by rw [h1, h2], by rw [h1, h2], by rw [h1, h2], hq, ?_, ?_⟩
    · intro h hh
      rw [h2] at hh
      exact absurd hh (hnot h)
    · intro _
      rw [h1, h2]

/-- An instance of `ExecuteAndReset_matches_Execute`: a submission that waits for the
counter 4, on a fresh scheduler whose driver accepts every call. -/
theorem ExecuteAndReset_matches_Execute_witness :
    (sampleSystem.ExecuteAndReset (sampleDevice 0 0) sampleList 4).1 = .returned 1 ∧
    (sampleSystem.Execute (sampleDevice 0 0) sampleList 4).1 = .returned 1 ∧
    (sampleSystem.Execute (sampleDevice 0 0) sampleList 4).2.2.calls =
      [.Close 7, .Wait 0 4, .ExecuteCommandLists 0 (some 7), .Signal 0 1] ∧
    (sampleSystem.ExecuteAndReset (sampleDevice 0 0) sampleList 4).2.2.calls =
      [.Close 7, .Wait 0 4, .ExecuteCommandLists 0 (some 7), .Signal 0 1,
        .ResetCommandList 7 (some (0, 0))] ∧
    (sampleSystem.ExecuteAndReset (sampleDevice 0 0) sampleList 4).1 =
      (sampleSystem.Execute (sampleDevice 0 0) sampleList 4).1 :=
  ⟨by decide, by decide, by decide, by decide,
    (ExecuteAndReset_matches_Execute sampleSystem (sampleDevice 0 0) sampleList 4 7
      (by decide) rfl rfl).1⟩

/-- C14: after `HandleDeviceLost`, from any state, `FrameIndex()` is 0; for each queue type
the command queue is null, every per-frame command allocator is null (so the active slot's
allocator is null) and the reuse pool is empty; the fence and the device are null; each of
the three allocators is the former one after one `Clear` (for the recording allocators: the
former requests followed by exactly one `Clear`); the slot counters are not touched. -/
theorem HandleDeviceLost_tears_down (mops : GpuMemoryAllocatorOps MA MB)
    (dops : GpuDescriptorAllocatorOps DA DB) (s : GpuSystem MA DA) :
    (s.HandleDeviceLost mops dops).FrameIndex = 0 ∧
    (∀ t : CmdQueueType, t ≠ .Num →
      ((s.HandleDeviceLost mops dops).cmd_queues_ t.index).cmd_queue = false ∧
      (∀ f, f < FrameCount →
        ((s.HandleDeviceLost mops dops).cmd_queues_ t.index).cmd_allocators f = false) ∧
      (s.HandleDeviceLost mops dops).CurrentCommandAllocator t = none ∧
      ((s.HandleDeviceLost mops dops).cmd_queues_ t.index).cmd_list_pool = []) ∧
    (s.HandleDeviceLost mops dops).fence_ = false ∧
    (s.HandleDeviceLost mops dops).device_ = false ∧
    (s.HandleDeviceLost mops dops).upload_mem_allocator_ = mops.Clear s.upload_mem_allocator_ ∧
    (s.HandleDeviceLost mops dops).readback_mem_allocator_ =
      mops.Clear s.readback_mem_allocator_ ∧
    (s.HandleDeviceLost mops dops).cbv_srv_uav_desc_allocator_ =
      dops.Clear s.cbv_srv_uav_desc_allocator_ ∧
    (s.HandleDeviceLost mops dops).fence_vals_ = s.fence_vals_ ∧
    (∀ r : GpuSystem (List AllocatorRequest) (List AllocatorRequest),
      (r.HandleDeviceLost recordingMemoryAllocator
          recordingDescriptorAllocator).upload_mem_allocator_ =
        r.upload_mem_allocator_ ++ [.Clear] ∧
      (r.HandleDeviceLost recordingMemoryAllocator
          recordingDescriptorAllocator).readback_mem_allocator_ =
        r.readback_mem_allocator_ ++ [.Clear] ∧
      (r.HandleDeviceLost recordingMemoryAllocator
          recordingDescriptorAllocator).cbv_srv_uav_desc_allocator_ =
        r.cbv_srv_uav_desc_allocator_ ++ [.Clear]) := by
  refine ⟨rfl, ?_, rfl, rfl, rfl, rfl, rfl, rfl, fun _ => ⟨rfl, rfl, rfl⟩⟩
  intro t ht
  cases t with
  | Num => exact absurd rfl ht
  | Graphics =>
    refine ⟨rfl, ?_, rfl, rfl⟩
    intro f hf
    simp [GpuSystem.HandleDeviceLost, CmdQueueType.index, hf]
  | VideoEncode =>
    refine ⟨rfl, ?_, rfl, rfl⟩
    intro f hf
    simp [GpuSystem.HandleDeviceLost, CmdQueueType.index, hf]

/-- C15, the code against the claim. The constructor issues nine creation calls (for each
of the two queues the command queue and its three per-frame command allocators, then the
fence), each as the argument of `TIFHR`. Whichever of them is the first that the driver
rejects, the constructor raises an `HrException` and returns no object; the macro evaluates
the rejected call a second time, so the calls issued are the creation calls up to the
rejected one followed by the rejected one once more, and `Error()` of the exception is the
result code of that second call, not the rejected code. `TIFHR` raises exactly when the
first result code is a failure code, that is negative, and `HrException::Error()` returns
the code the exception was built with. -/
theorem construct_raises_with_second_result (upload readback : MA) (desc : DA) (d : Device)
    (k : Nat) (hk : k < GpuSystem.creationCalls.length)
    (hprev : ∀ j, j < k → 0 ≤ d.hresult (d.now + j))
    (hrej : d.hresult (d.now + k) < 0) :
    (GpuSystem.construct upload readback desc d).1 = .raised ⟨d.hresult (d.now + k + 1)⟩ ∧
    (∀ e, (GpuSystem.construct upload readback desc d).1 = .raised e →
      e.Error = d.hresult (d.now + k + 1)) ∧
    (GpuSystem.construct upload readback desc d).2.calls =
      d.calls ++ GpuSystem.creationCalls.take (k + 1) ++
        (GpuSystem.creationCalls.drop k).take 1 ∧
    (∀ (expr : Device → HRESULT × Device) (d1 : Device),
      ((TIFHR expr d1).1 = .ok () ↔ ¬ FAILED (expr d1).1 = true) ∧
      (FAILED (expr d1).1 = true ↔ (expr d1).1 < 0) ∧
      (∀ e, (TIFHR expr d1).1 = .error e → e.Error = (expr (expr d1).2).1)) ∧
    (∀ hr : HRESULT, (HrException.mk hr).Error = hr) := by
  have h0 : 0 < k → ¬ d.hresult d.now < 0 := fun h => not_lt.mpr (by simpa using hprev 0 h)
  have h1 : 1 < k → ¬ d.hresult (d.now + 1) < 0 := fun h => not_lt.mpr (hprev 1 h)
  have h2 : 2 < k → ¬ d.hresult (d.now + 2) < 0 := fun h => not_lt.mpr (hprev 2 h)
  have h3 : 3 < k → ¬ d.hresult (d.now + 3) < 0 := fun h => not_lt.mpr (hprev 3 h)
  have h4 : 4 < k → ¬ d.hresult (d.now + 4) < 0 := fun h => not_lt.mpr (hprev 4 h)
  have h5 : 5 < k → ¬ d.hresult (d.now + 5) < 0 := fun h => not_lt.mpr (hprev 5 h)
  have h6 : 6 < k → ¬ d.hresult (d.now + 6) < 0 := fun h => not_lt.mpr (hprev 6 h)
  have h7 : 7 < k → ¬ d.hresult (d.now + 7) < 0 := fun h => not_lt.mpr (hprev 7 h)
  have hT : ∀ (expr : Device → HRESULT × Device) (d1 : Device),
      ((TIFHR expr d1).1 = .ok () ↔ ¬ FAILED (expr d1).1 = true) ∧
      (FAILED (expr d1).1 = true ↔ (expr d1).1 < 0) ∧
      (∀ e, (TIFHR expr d1).1 = .error e → e.Error = (expr (expr d1).2).1) := by
    intro expr d1
    refine ⟨?_, by simp [FAILED], ?_⟩
    · rw [TIFHR_ok_iff]
      simp [FAILED]
    · intro e he
      rw [((TIFHR_error_iff expr d1 e).mp he).2]
      rfl
  have hlen : GpuSystem.creationCalls.length = 9 := by decide
  rw [hlen] at hk
  have hmain : (GpuSystem.construct upload readback desc d).1 =
        .raised ⟨d.hresult (d.now + k + 1)⟩ ∧
      (GpuSystem.construct upload readback desc d).2.calls =
        d.calls ++ GpuSystem.creationCalls.take (k + 1) ++
          (GpuSystem.creationCalls.drop k).take 1 := by
    clear hprev hT hlen
    interval_cases k <;>
      simp at h0 h1 h2 h3 h4 h5 h6 h7 hrej <;>
      simp [GpuSystem.construct, GpuSystem.createQueues, GpuSystem.createAllocators,
        GpuSystem.creationCalls, GpuSystem.initial, queueIndices, CmdQueueType.index,
        FrameCount, List.range, List.range.loop, TIFHR, FAILED, Device.call, ite_accepted, *]
  refine ⟨hmain.1, ?_, hmain.2, hT, fun _ => rfl⟩
  intro e he
  rw [hmain.1] at he
  simp only [Outcome.raised.injEq] at he
  rw [← he]
  rfl

/-- An instance of `construct_raises_with_second_result`: the driver rejects the creation
of the second command queue (the call at tick 4) with `E_FAIL` and accepts every other
call; the constructor issues that creation twice and raises an exception that carries the
success code 0 of the second call. -/
theorem construct_raises_with_second_result_witness :
    (rejectingDevice 4 0).hresult ((rejectingDevice 4 0).now + 4) = -2147467259 ∧
    (rejectingDevice 4 0).hresult ((rejectingDevice 4 0).now + 4 + 1) = 0 ∧
    (GpuSystem.construct ([] : List AllocatorRequest) ([] : List AllocatorRequest)
        ([] : List AllocatorRequest) (rejectingDevice 4 0)).2.calls =
      [.CreateCommandQueue 0, .CreateCommandAllocator 0 0, .CreateCommandAllocator 0 1,
        .CreateCommandAllocator 0 2, .CreateCommandQueue 1, .CreateCommandQueue 1] ∧
    (GpuSystem.construct ([] : List AllocatorRequest) ([] : List AllocatorRequest)
        ([] : List AllocatorRequest) (rejectingDevice 4 0)).1 =
      .raised ⟨(rejectingDevice 4 0).hresult ((rejectingDevice 4 0).now + 4 + 1)⟩ :=
  ⟨by decide, by decide, by decide,
    (construct_raises_with_second_result [] [] [] (rejectingDevice 4 0) 4 (by decide)
      (fun j hj => by interval_cases j <;> decide) (by decide)).1⟩

/-- C11: in every reachable state and for each queue type `t` (graphics, video encode),
`CreateCommandList(t)` returns a command list whose `Type()` is `t`. When the reuse pool of
`t` is not empty the list returned is the front entry of the pool, the one driver call is
the reset of its native list against the active slot's command allocator for `t`, and the
pool is left with the entries behind the front, in their order. When the pool is empty, the
device is live and the driver accepts the creation, the list is a new one, created by one
driver call against that allocator, and the pool stays empty. The pool, queue and
allocators of every other queue type are as before. -/
theorem CreateCommandList_pops_or_constructs (mops : GpuMemoryAllocatorOps MA MB)
    (dops : GpuDescriptorAllocatorOps DA DB) (s : GpuSystem MA DA) (d : Device)
    (t : CmdQueueType) (ht : t ≠ .Num) (hreach : GpuSystem.Reachable mops dops s)
    (hnew : (s.cmd_queues_ t.index).cmd_list_pool = [] →
      s.device_ = true ∧ 0 ≤ d.hresult d.now) :
    ∃ l, (s.CreateCommandList d t).1 = .returned l ∧ l.Type = t ∧
      (∀ front rest, (s.cmd_queues_ t.index).cmd_list_pool = front :: rest →
        l = front ∧
        ((s.CreateCommandList d t).2.1.cmd_queues_ t.index).cmd_list_pool = rest ∧
        ∃ n, front.cmd_list_ = some n ∧
          (s.CreateCommandList d t).2.2.calls =
            d.calls ++ [.ResetCommandList n (s.CurrentCommandAllocator t)]) ∧
      ((s.cmd_queues_ t.index).cmd_list_pool = [] →
        l = { type_ := t, cmd_list_ := some d.now } ∧
        ((s.CreateCommandList d t).2.1.cmd_queues_ t.index).cmd_list_pool = [] ∧
        (s.CreateCommandList d t).2.2.calls =
          d.calls ++ [.CreateCommandList t (s.CurrentCommandAllocator t) d.now]) ∧
      (∀ i, i ≠ t.index → (s.CreateCommandList d t).2.1.cmd_queues_ i = s.cmd_queues_ i) := by
  obtain ⟨_, hwf⟩ := Reachable_invariant mops dops s hreach
  cases hp : (s.cmd_queues_ t.index).cmd_list_pool with
  | nil =>
    obtain ⟨hdev, hok⟩ := hnew hp
    rw [CreateCommandList_empty_pool s d t ht hp hdev hok]
    refine ⟨_, rfl, rfl, ?_, ?_, fun _ _ => rfl⟩
    · intro front rest hfr
      exact absurd hfr (by simp)
    · intro _
      exact ⟨rfl, hp, rfl⟩
  | cons front rest =>
    obtain ⟨hft, hfi, hfn⟩ := hwf t.index front (by rw [hp]; exact List.mem_cons_self _ _)
    obtain ⟨n, hn⟩ := Option.ne_none_iff_exists'.mp hfn
    rw [CreateCommandList_from_pool s d t front rest n ht hp hft hn]
    obtain ⟨q1, q2⟩ := poolPopFront_pool s t
    refine ⟨front, rfl, CmdQueueType.index_injective _ _ hfi, ?_, ?_, q2⟩
    · intro front1 rest1 hfr
      simp only [List.cons.injEq] at hfr
      obtain ⟨e1, e2⟩ := hfr
      subst e1 e2
      refine ⟨rfl, ?_, n, hn, rfl⟩
      show ((s.poolPopFront t).cmd_queues_ t.index).cmd_list_pool = rest
      rw [q1, hp]
      rfl
    · intro hnil
      exact absurd hnil (by simp)

theorem CreateCommandList_pops_or_constructs_witness :
    (pooledSystem.cmd_queues_ CmdQueueType.Graphics.index).cmd_list_pool = [sampleList] ∧
    (pooledSystem.CreateCommandList (sampleDevice 0 0) .Graphics).1 = .returned sampleList ∧
    (pooledSystem.CreateCommandList (sampleDevice 0 0) .Graphics).2.2.calls =
      [.ResetCommandList 7 (some (0, 0))] ∧
    ∃ l, (pooledSystem.CreateCommandList (sampleDevice 0 0) .Graphics).1 = .returned l ∧
      l.Type = .Graphics :=
  ⟨by decide, by decide, by decide,
    (CreateCommandList_pops_or_constructs recordingMemoryAllocator recordingDescriptorAllocator
      pooledSystem (sampleDevice 0 0) .Graphics (by decide) pooledSystem_reachable
      (fun h => absurd h (by decide))).imp fun _ h => ⟨h.1, h.2.1⟩⟩

/-- C19: in every state reachable from construction through the public member functions
(`MoveToNextFrame`, `Execute`, `ExecuteAndReset`, `CreateCommandList`, `WaitForGpu`,
`HandleDeviceLost` and the nine allocation pass-throughs, with any arguments, whatever the
device does, also after a call that raised), the frame index is below `FrameCount`, the
length of `fence_vals_` and of each queue's `cmd_allocators`: the index that
`CurrentCommandAllocator` and the accesses `fence_vals_[frame_index_]` use is in bounds. -/
theorem frame_index_in_bounds (mops : GpuMemoryAllocatorOps MA MB)
    (dops : GpuDescriptorAllocatorOps DA DB) (s : GpuSystem MA DA)
    (hreach : GpuSystem.Reachable mops dops s) :
    s.frame_index_ < FrameCount ∧ s.FrameIndex ∈ List.range FrameCount ∧
    (∀ t q f, s.CurrentCommandAllocator t = some (q, f) → q = t.index ∧ f < FrameCount) := by
  have h := (Reachable_invariant mops dops s hreach).1
  refine ⟨h, List.mem_range.mpr h, ?_⟩
  intro t q f hc
  unfold GpuSystem.CurrentCommandAllocator at hc
  split at hc
  · simp only [Option.some.injEq, Prod.mk.injEq] at hc
    exact ⟨hc.1.symm, hc.2 ▸ h⟩
  · simp at hc

theorem frame_index_in_bounds_witness :
    (pooledSystem.MoveToNextFrame (sampleDevice 0 0) 0).2.1.frame_index_ = 1 ∧
    (pooledSystem.MoveToNextFrame (sampleDevice 0 0) 0).2.1.frame_index_ < FrameCount :=
  ⟨by decide,
    (frame_index_in_bounds recordingMemoryAllocator recordingDescriptorAllocator _
      (GpuSystem.Reachable.MoveToNextFrame pooledSystem (sampleDevice 0 0) 0
        pooledSystem_reachable (by decide))).1⟩

/-- C20, counterexample: on a freshly constructed scheduler (active counter 1) whose device
still reports 0, `WaitForGpu()` with the default counter signals 1 on the first queue,
sleeps, and signals 2 on the second queue; `WaitForGpu(1)` does the same. The queues are
not asked to signal the same value. -/
theorem WaitForGpu_queues_signal_different_values :
    (sampleSystem.WaitForGpu (sampleDevice 3 5) 1 MaxFenceValue).1 = .returned () ∧
    (sampleSystem.WaitForGpu (sampleDevice 3 5) 1 MaxFenceValue).2.2.calls =
      [.Signal 0 1, .GetCompletedValue 0, .SetEventOnCompletion 1, .WaitForSingleObjectEx 5,
        .Signal 1 2, .GetCompletedValue 5] ∧
    (sampleSystem.WaitForGpu (sampleDevice 3 5) 1 1).1 = .returned () ∧
    (sampleSystem.WaitForGpu (sampleDevice 3 5) 1 1).2.2.calls.filterMap DriverCall.signalled =
      [(0, 1), (1, 2)] := by
  decide

/-- C20, amended: with a live fence, a valid fence event, both queues live and a driver that
accepts every call, a `WaitForGpu(counter)` that returns asks each queue for one signal,
the first queue first. The first queue signals the given counter when it is explicit, or
the active slot's counter as of the call when it is `MaxFenceValue`. The second queue
signals the same value when the fence had reached it at the first queue's read (no sleep),
and that value plus one (in 64-bit arithmetic) when the call slept for the first queue. -/
theorem WaitForGpu_signal_values (s s1 : GpuSystem MA DA) (d d1 : Device) (fuel v : Nat)
    (hfence : s.fence_ = true) (hevent : s.fence_event_ = true)
    (hq0 : (s.cmd_queues_ 0).cmd_queue = true) (hq1 : (s.cmd_queues_ 1).cmd_queue = true)
    (hok : ∀ t, d.now ≤ t → 0 ≤ d.hresult t)
    (hret : s.WaitForGpu d fuel v = (.returned (), s1, d1)) :
    d1.calls.filterMap DriverCall.signalled = d.calls.filterMap DriverCall.signalled ++
      [(0, if v = MaxFenceValue then s.fence_vals_ s.frame_index_ else v),
       (1, if d.completed (d.now + 1) % UINT64_SIZE <
              (if v = MaxFenceValue then s.fence_vals_ s.frame_index_ else v) then
            ((if v = MaxFenceValue then s.fence_vals_ s.frame_index_ else v) + 1) % UINT64_SIZE
          else (if v = MaxFenceValue then s.fence_vals_ s.frame_index_ else v))] := by
  unfold GpuSystem.WaitForGpu at hret
  simp only [hfence, hevent, Bool.and_self, if_true, queueIndices_eq] at hret
  unfold GpuSystem.waitForGpuLoop at hret
  generalize hr0 : s.waitForGpuQueue d fuel v 0 = r0 at hret
  obtain ⟨o0, sa, da⟩ := r0
  cases o0 with
  | raised e => simp at hret
  | blocked => simp at hret
  | undefined => simp at hret
  | returned fva =>
    simp only at hret
    unfold GpuSystem.waitForGpuLoop at hret
    generalize hr1 : sa.waitForGpuQueue da fuel fva 1 = r1 at hret
    obtain ⟨o1, sb, db⟩ := r1
    cases o1 with
    | raised e => simp at hret
    | blocked => simp at hret
    | undefined => simp at hret
    | returned fvb =>
      simp only [GpuSystem.waitForGpuLoop, Prod.mk.injEq, true_and] at hret
      obtain ⟨_, hd⟩ := hret
      subst hd
      obtain ⟨a1, a2⟩ := waitForGpuQueue_signals s sa d da fuel v fva 0 hq0 hok hr0
      obtain ⟨_, b2, b3, _⟩ := waitForGpuQueue_reports s sa d da fuel v fva 0 hq0 hok hr0
      have hqa : (sa.cmd_queues_ 1).cmd_queue = true := by
        have := waitForGpuQueue_state s d fuel v 0
        rw [hr0] at this
        rcases this with h | ⟨_, h⟩ <;> simp only at h <;> rw [h]
        · exact hq1
        · exact hq1
      obtain ⟨c1, _⟩ := waitForGpuQueue_signals sa sb da db fuel fva fvb 1 hqa
        (fun t ht => by rw [b2]; exact hok t (by omega)) hr1
      rw [c1, a1, List.append_assoc]
      congr 2
      simp only [List.singleton_append, List.cons.injEq, Prod.mk.injEq, true_and, and_true]
      by_cases hlt : d.completed (d.now + 1) % UINT64_SIZE <
          (if v = MaxFenceValue then s.fence_vals_ s.frame_index_ else v)
      · simp only [hlt, if_true] at a2 ⊢
        obtain ⟨e1, e2⟩ := a2
        subst e1 e2
        by_cases hv : v = MaxFenceValue
        · simp [hv, GpuSystem.setFenceVal]
        · by_cases hv1 : (v + 1) % UINT64_SIZE = MaxFenceValue
          · simp [hv, hv1, GpuSystem.setFenceVal]
          · simp [hv, hv1]
      · simp only [hlt, if_false] at a2 ⊢
        obtain ⟨e1, e2⟩ := a2
        subst e1 e2
        rfl

theorem WaitForGpu_signal_values_witness :
    (sampleSystem.WaitForGpu (sampleDevice 3 5) 1 MaxFenceValue).2.2.calls.filterMap
        DriverCall.signalled =
      (sampleDevice 3 5).calls.filterMap DriverCall.signalled ++
      [(0, if MaxFenceValue = MaxFenceValue then
            sampleSystem.fence_vals_ sampleSystem.frame_index_ else MaxFenceValue),
       (1, if (sampleDevice 3 5).completed ((sampleDevice 3 5).now + 1) % UINT64_SIZE <
              (if MaxFenceValue = MaxFenceValue then
                sampleSystem.fence_vals_ sampleSystem.frame_index_ else MaxFenceValue) then
            ((if MaxFenceValue = MaxFenceValue then
                sampleSystem.fence_vals_ sampleSystem.frame_index_ else MaxFenceValue) + 1) %
              UINT64_SIZE
          else (if MaxFenceValue = MaxFenceValue then
            sampleSystem.fence_vals_ sampleSystem.frame_index_ else MaxFenceValue))] ∧
    (sampleSystem.WaitForGpu (sampleDevice 3 5) 1 MaxFenceValue).2.2.calls.filterMap
        DriverCall.signalled = [(0, 1), (1, 2)] :=
  ⟨WaitForGpu_signal_values sampleSystem _ (sampleDevice 3 5) _ 1 MaxFenceValue rfl rfl rfl rfl
    (fun _ _ => Int.le_refl 0) (Prod.ext (by decide) rfl), by decide⟩

/-- C17, counterexample: a reader that yields 4294967295 (that is 2^32 - 1) frames. The pass
that finds the end of the input has `i = 2^32 - 1`; it saves `Frame_4294967294.png`, the
32-bit sum `total_frames - 1 + FrameCount - 1` is 0, and `++i` wraps to 0, so the next pass
saves nothing and breaks: the loop ends after 4294967294 saves, the last frame is not
saved. -/
theorem main_loop_drops_last_save :
    ∃ st : MainLoop Nat Nat,
      MainLoop.run (countingReader 4294967295) (4294967295 + 2) (MainLoop.start 0) = some st ∧
      st.total_frames = 4294967295 ∧
      (st.calls.filterMap MainCall.saved).length = 4294967294 := by
  have hlen : (List.range' 0 4294967295).length + 1 = UINT32_SIZE := by
    rw [List.length_range']
    norm_num [UINT32_SIZE]
  obtain ⟨st, h1, h2, h3⟩ := run_wraps (countingReader 4294967295) 0
    (List.range' 0 4294967295) hlen
    (countingReader_yields 4294967295 4294967295 0 (Nat.zero_add _))
  rw [List.length_range'] at h1 h2 h3
  exact ⟨st, h1, h2, by omega⟩

/-- C17, amended: for every reader that yields `n` frames with `1 ≤ n ≤ 2^32 - 2`, the main
loop ends (after `n + 2` passes) with `total_frames = n`; its `AddFrame` calls are one per
frame, in reading order, frame `k` (counted from 0) in slot `k mod FrameCount`; its
`SaveTexture` calls are `n`, numbered 1 to `n` in that order, and the save numbered `k + 1`
reads the output texture of slot `k mod FrameCount` while it holds the result of frame `k`
(after that frame's `AddFrame`, before a later `AddFrame` writes the slot). For an image
sequence of fewer than 2^32 files the frames are the file names in ascending order. -/
theorem main_loop_processes_and_saves_in_order {R F : Type} (ops : ReaderOps R F) (r : R)
    (frames : List F) (hn : 1 ≤ frames.length) (hbound : frames.length + 1 < UINT32_SIZE)
    (hyields : ops.yields r frames) :
    (∃ st, MainLoop.run ops (frames.length + 2) (MainLoop.start r) = some st ∧
      st.total_frames = frames.length ∧
      st.calls.filterMap MainCall.added =
        frames.enum.map (fun p => (p.1 % FrameCount, some p.2)) ∧
      st.calls.filterMap MainCall.saved =
        frames.enum.map (fun p => (p.1 % FrameCount, p.1 + 1, some p.2))) ∧
    (∀ (P : Type) [LinearOrder P] (pushed : List P), pushed.length < UINT32_SIZE →
      (imageSeqReader P).yields (ImageSeqReader.sorted pushed)
        (pushed.insertionSort (· ≤ ·)) ∧
      (pushed.insertionSort (· ≤ ·)).Sorted (· ≤ ·) ∧
      (pushed.insertionSort (· ≤ ·)).Perm pushed) := by
  constructor
  · obtain ⟨st, h1, h2, h3⟩ := run_passes ops frames (MainLoop.start r) rfl rfl
      (by show 1 ≤ 0 + frames.length; omega)
      (by show 0 + frames.length + 1 < UINT32_SIZE; omega) hyields
    refine ⟨st, h1, by rw [h2]; show 0 + frames.length = _; omega, ?_, ?_⟩
    · rw [h3]
      show List.filterMap MainCall.added ([] ++ passCalls 0 (fun _ => none) frames) = _
      rw [List.nil_append, passCalls_added]
      rfl
    · rw [h3]
      show List.filterMap MainCall.saved ([] ++ passCalls 0 (fun _ => none) frames) = _
      rw [List.nil_append, passCalls_saved_start frames hn]
  · intro P _ pushed hlen
    exact ⟨ImageSeqReader_sorted_yields pushed hlen, List.sorted_insertionSort _ pushed,
      List.perm_insertionSort _ pushed⟩

theorem main_loop_processes_and_saves_in_order_witness :
    (MainLoop.run (imageSeqReader Nat) 5 (MainLoop.start (ImageSeqReader.sorted [30, 10, 20]))).map
        (fun st => st.calls) =
      some [.ReadFrame 0 (some 10), .AddFrame 0 (some 10), .MoveToNextFrame,
        .ReadFrame 1 (some 20), .AddFrame 1 (some 20), .MoveToNextFrame,
        .ReadFrame 2 (some 30), .AddFrame 2 (some 30), .MoveToNextFrame,
        .SaveTexture 0 1 (some 10),
        .ReadFrame 0 none, .SaveTexture 1 2 (some 20), .SaveTexture 2 3 (some 30)] ∧
    ∃ st, MainLoop.run (imageSeqReader Nat) ([10, 20, 30].length + 2)
        (MainLoop.start (ImageSeqReader.sorted [30, 10, 20])) = some st ∧
      st.total_frames = [10, 20, 30].length :=
  ⟨by decide,
    (main_loop_processes_and_saves_in_order (imageSeqReader Nat)
      (ImageSeqReader.sorted [30, 10, 20]) [10, 20, 30] (by decide)
      (by decide)
      (ImageSeqReader_sorted_yields [30, 10, 20] (by decide))).1.imp
      fun _ h => ⟨h.1, h.2.1⟩⟩

/-- C18: for every sequence of `Allocate` and `Deallocate` calls on a ring allocator that
starts empty, whatever the sizes, alignments, tags and confirmed-complete values: when an
accepted `Deallocate(b, v)` is followed, at any distance, by an `Allocate` that returns a
block sharing a byte with `b`, the tag `v` is at most the highest confirmed-complete value
the allocator has been given up to that `Allocate` (with a counter that only grows, the
value at that call): a deallocated range is not handed out again before the counter has
reached its tag. -/
theorem RingAllocator_reuses_only_confirmed_ranges (capacity : Nat) (calls : List RingCall)
    (pre mid post : List RingEvent) (b b1 : MemoryBlock) (v reached : Nat)
    (hrun : RingAllocator.run calls (RingAllocator.empty capacity) 0 =
      pre ++ .deallocated b v :: mid ++ .allocated b1 reached :: post)
    (hoverlap : b.overlaps b1) : v ≤ reached := by
  refine run_safe calls (RingAllocator.empty capacity) 0 [] (empty_WellFormed capacity)
    (fun _ _ h => absurd h (List.not_mem_nil _)) (pre ++ .deallocated b v :: mid) post b1
    reached (by rw [hrun]) b v ?_ hoverlap
  simp

theorem RingAllocator_reuses_only_confirmed_ranges_witness :
    RingAllocator.run
        [.Allocate 1024 256 0, .Deallocate { offset := 0, size := 1024, generation := 0 } 5,
          .Allocate 1024 256 3, .Allocate 1024 256 7]
        (RingAllocator.empty 4096) 0 =
      [.allocated { offset := 0, size := 1024, generation := 0 } 0,
        .deallocated { offset := 0, size := 1024, generation := 0 } 5,
        .allocated { offset := 1024, size := 1024, generation := 0 } 3,
        .allocated { offset := 0, size := 1024, generation := 0 } 7] ∧
    5 ≤ 7 :=
  ⟨by decide,
    RingAllocator_reuses_only_confirmed_ranges 4096
      [.Allocate 1024 256 0, .Deallocate { offset := 0, size := 1024, generation := 0 } 5,
        .Allocate 1024 256 3, .Allocate 1024 256 7]
      [.allocated { offset := 0, size := 1024, generation := 0 } 0]
      [.allocated { offset := 1024, size := 1024, generation := 0 } 3] []
      { offset := 0, size := 1024, generation := 0 }
      { offset := 0, size := 1024, generation := 0 } 5 7 (by decide) (by decide)⟩

/-- C16: on the call of `AddFrame` that finds no earlier frame (the RGB texture of the
previous slot is null), with an input frame that is an RGBA image (format
`R8G8B8A8_UNORM`, one plane) and the output texture the main loop constructs for it (same
size, `R8G8B8A8_UNORM`), the output texture reads back as the input frame does, pixel for
pixel: the frame goes through two whole-texture copies and nothing else. The result is the
same whatever `time_span` (the framerate option) and `overlay_mv` (the overlay option) are.
The texture class is outside the sources: that a whole-texture copy between textures of
one size and format hands over the pixel data and keeps the description of the
destination, and that a constructed texture has the size and format asked for, are the
hypotheses `hcopy` and `hconstruct`. -/
theorem first_frame_is_copied {T P S : Type} (tex : GpuTexture2DOps T P)
    (passes : GeneratorPasses T S) (frames_ : Nat → Frame T)
    (frame_index scaled_width scaled_height mv_block_size_ : Nat) (frame_tex : T)
    (time_span : S) (overlay_mv : Bool)
    (hfirst : tex.valid
      (frames_ ((frame_index + FrameCount - 1) % UINT32_SIZE % FrameCount)).frame_rgb_tex = false)
    (hrgba : tex.Format frame_tex = DXGI_FORMAT_R8G8B8A8_UNORM)
    (hplanes : tex.Planes frame_tex = 1)
    (hcopy : ∀ dst src, tex.Width dst 0 = tex.Width src 0 → tex.Height dst 0 = tex.Height src 0 →
      tex.Format dst = tex.Format src →
      tex.Readback (tex.CopyFrom dst src 0 0 0
        { left := 0, top := 0, front := 0, right := tex.Width src 0,
          bottom := tex.Height src 0, back := 1 }) = tex.Readback src ∧
      tex.Width (tex.CopyFrom dst src 0 0 0
        { left := 0, top := 0, front := 0, right := tex.Width src 0,
          bottom := tex.Height src 0, back := 1 }) 0 = tex.Width dst 0 ∧
      tex.Height (tex.CopyFrom dst src 0 0 0
        { left := 0, top := 0, front := 0, right := tex.Width src 0,
          bottom := tex.Height src 0, back := 1 }) 0 = tex.Height dst 0 ∧
      tex.Format (tex.CopyFrom dst src 0 0 0
        { left := 0, top := 0, front := 0, right := tex.Width src 0,
          bottom := tex.Height src 0, back := 1 }) = tex.Format dst)
    (hconstruct : ∀ width height mips format,
      tex.Width (tex.construct width height mips format) 0 = width ∧
      tex.Height (tex.construct width height mips format) 0 = height ∧
      tex.Format (tex.construct width height mips format) = format) :
    tex.Readback
        (MotionBlurGenerator.AddFrame tex passes frames_ frame_index scaled_width scaled_height
          mv_block_size_
          (tex.construct (tex.Width frame_tex 0) (tex.Height frame_tex 0) 1
            DXGI_FORMAT_R8G8B8A8_UNORM)
          frame_tex time_span overlay_mv).1 = tex.Readback frame_tex ∧
    ∀ (time_span1 : S) (overlay_mv1 : Bool),
      (MotionBlurGenerator.AddFrame tex passes frames_ frame_index scaled_width scaled_height
          mv_block_size_
          (tex.construct (tex.Width frame_tex 0) (tex.Height frame_tex 0) 1
            DXGI_FORMAT_R8G8B8A8_UNORM)
          frame_tex time_span1 overlay_mv1).1 =
      (MotionBlurGenerator.AddFrame tex passes frames_ frame_index scaled_width scaled_height
          mv_block_size_
          (tex.construct (tex.Width frame_tex 0) (tex.Height frame_tex 0) 1
            DXGI_FORMAT_R8G8B8A8_UNORM)
          frame_tex time_span overlay_mv).1 := by
  have hnv : tex.Format frame_tex ≠ DXGI_FORMAT_NV12 := by
    rw [hrgba]; decide
  have hthis : frame_index % FrameCount < FrameCount := Nat.mod_lt _ (by decide)
  have hrange : List.range 1 = [0] := rfl
  refine ⟨?_, ?_⟩
  · simp only [MotionBlurGenerator.AddFrame, hfirst, Bool.not_false, if_true, hnv, if_false,
      hthis, hplanes, hrange, MotionBlurGenerator.copyPlanes, pow_zero, Nat.div_one,
      MotionBlurGenerator.createFrame, ne_eq, not_false_eq_true]
    obtain ⟨c1, c2, c3⟩ := hconstruct (tex.Width frame_tex 0) (tex.Height frame_tex 0) 1
      (tex.Format frame_tex)
    obtain ⟨k1, k2, k3, k4⟩ := hcopy _ frame_tex c1 c2 c3
    obtain ⟨o1, o2, o3⟩ := hconstruct (tex.Width frame_tex 0) (tex.Height frame_tex 0) 1
      DXGI_FORMAT_R8G8B8A8_UNORM
    have m := hcopy (tex.construct (tex.Width frame_tex 0) (tex.Height frame_tex 0) 1
        DXGI_FORMAT_R8G8B8A8_UNORM)
      (tex.CopyFrom (tex.construct (tex.Width frame_tex 0) (tex.Height frame_tex 0) 1
          (tex.Format frame_tex)) frame_tex 0 0 0
        { left := 0, top := 0, front := 0, right := tex.Width frame_tex 0,
          bottom := tex.Height frame_tex 0, back := 1 })
      (by rw [o1, k2, c1]) (by rw [o2, k3, c2]) (by rw [o3, k4, c3, hrgba])
    rw [k2, k3, c1, c2] at m
    rw [m.1, k1]
  · intro time_span1 overlay_mv1
    simp only [MotionBlurGenerator.AddFrame, hfirst, Bool.not_false, if_true]

theorem first_frame_is_copied_witness :
    pixelTextures.Readback
        (MotionBlurGenerator.AddFrame pixelTextures samplePasses nullFrames 0 512 384 16
          (pixelTextures.construct (pixelTextures.Width sampleFrame 0)
            (pixelTextures.Height sampleFrame 0) 1 DXGI_FORMAT_R8G8B8A8_UNORM)
          sampleFrame 24 true).1 = pixelTextures.Readback sampleFrame ∧
    pixelTextures.Readback sampleFrame = [4278190335, 4294901760] :=
  ⟨(first_frame_is_copied pixelTextures samplePasses nullFrames 0 512 384 16 sampleFrame 24 true
      rfl rfl rfl (fun dst src hw hh _ => pixelTextures_copy dst src hw hh)
      (fun _ _ _ _ => ⟨rfl, rfl, rfl⟩)).1, rfl⟩

/-- C21: with a list that can be closed and a live queue for its type, every driver call
that `Execute(list, w)` issues on a queue is on the queue of the list's type, whatever the
driver answers; it issues a wait exactly when `w` is not `MaxFenceValue`, and then for `w`.
When the call returns a handle, its driver calls are, in this order: the close of the list,
the wait for `w` on that queue when `w` is not `MaxFenceValue`, the submission of the list
on that queue, and a signal on that queue of the handle returned, which is the active
slot's counter as of the call. -/
theorem Execute_issues_on_own_queue_in_order (s : GpuSystem MA DA) (d : Device)
    (cmd_list : GpuCommandList) (w n : Nat) (htype : cmd_list.type_ ≠ .Num)
    (hnative : cmd_list.cmd_list_ = some n)
    (hqueue : (s.cmd_queues_ cmd_list.Type.index).cmd_queue = true) :
    ∃ issued, (s.Execute d cmd_list w).2.2.calls = d.calls ++ issued ∧
      (DriverCall.Wait cmd_list.Type.index w ∈ issued ↔ w ≠ MaxFenceValue) ∧
      (∀ c ∈ issued, ∀ q, c.queue = some q → q = cmd_list.Type.index) ∧
      (∀ c ∈ issued, ∀ q v, c = .Wait q v → v = w) ∧
      (∀ h, (s.Execute d cmd_list w).1 = .returned h →
        h = s.fence_vals_ s.frame_index_ ∧
        issued = [.Close n] ++
          (if w ≠ MaxFenceValue then [.Wait cmd_list.Type.index w] else []) ++
          [.ExecuteCommandLists cmd_list.Type.index (some n),
            .Signal cmd_list.Type.index h]) := by
  have hc := ExecuteOnly_calls s d cmd_list w n htype hnative hqueue
  refine ⟨[.Close n] ++ (if w ≠ MaxFenceValue then [.Wait cmd_list.Type.index w] else []) ++
      [.ExecuteCommandLists cmd_list.Type.index (some n),
        .Signal cmd_list.Type.index (s.fence_vals_ s.frame_index_)] ++
      (if d.hresult (ExecuteOnly.signalTick d w) < 0 then
        [.Signal cmd_list.Type.index (s.fence_vals_ s.frame_index_)] else []), ?_, ?_, ?_, ?_, ?_⟩
  · rw [Execute_device, hc]
    simp only [List.append_assoc]
  · by_cases hw : w = MaxFenceValue <;>
      by_cases hs : d.hresult (ExecuteOnly.signalTick d w) < 0 <;> simp [hw, hs]
  · by_cases hw : w = MaxFenceValue <;>
      by_cases hs : d.hresult (ExecuteOnly.signalTick d w) < 0 <;>
      simp [hw, hs, DriverCall.queue]
  · by_cases hw : w = MaxFenceValue <;>
      by_cases hs : d.hresult (ExecuteOnly.signalTick d w) < 0 <;>
      simp [hw, hs]
  · intro h hh
    rw [Execute_outcome] at hh
    have hacc := ExecuteOnly_returned_accepted s d cmd_list w n h htype hnative hqueue hh
    have hv := (ExecuteOnly_returned s d cmd_list w h hh).1
    refine ⟨hv, ?_⟩
    rw [if_neg (not_lt.mpr hacc), List.append_nil, hv]

/-- An instance of `Execute_issues_on_own_queue_in_order`: a submission on the graphics
queue of a fresh scheduler, with a wait for the counter 4; the run without a wait and the
run whose `Signal` the driver rejects are shown next to it. -/
theorem Execute_issues_on_own_queue_in_order_witness :
    (sampleSystem.Execute (sampleDevice 0 0) sampleList 4).1 = .returned 1 ∧
    (sampleSystem.Execute (sampleDevice 0 0) sampleList 4).2.2.calls =
      [.Close 7, .Wait 0 4, .ExecuteCommandLists 0 (some 7), .Signal 0 1] ∧
    (sampleSystem.Execute (sampleDevice 0 0) sampleList MaxFenceValue).2.2.calls =
      [.Close 7, .ExecuteCommandLists 0 (some 7), .Signal 0 1] ∧
    (sampleSystem.Execute (rejectingDevice 2 0) sampleList MaxFenceValue).2.2.calls =
      [.Close 7, .ExecuteCommandLists 0 (some 7), .Signal 0 1, .Signal 0 1] ∧
    ∃ issued, (sampleSystem.Execute (sampleDevice 0 0) sampleList 4).2.2.calls =
        (sampleDevice 0 0).calls ++ issued ∧
      (DriverCall.Wait sampleList.Type.index 4 ∈ issued ↔ 4 ≠ MaxFenceValue) ∧
      (∀ c ∈ issued, ∀ q, c.queue = some q → q = sampleList.Type.index) ∧
      (∀ c ∈ issued, ∀ q v, c = .Wait q v → v = 4) ∧
      (∀ h, (sampleSystem.Execute (sampleDevice 0 0) sampleList 4).1 = .returned h →
        h = sampleSystem.fence_vals_ sampleSystem.frame_index_ ∧
        issued = [.Close 7] ++
          (if 4 ≠ MaxFenceValue then [.Wait sampleList.Type.index 4] else []) ++
          [.ExecuteCommandLists sampleList.Type.index (some 7),
            .Signal sampleList.Type.index h]) :=
  ⟨by decide, by decide, by decide, by decide,
    Execute_issues_on_own_queue_in_order sampleSystem (sampleDevice 0 0) sampleList 4 7
      (by decide) rfl rfl⟩

/-- C24: when the driver rejects the `Signal` of `Execute` (the list can be closed and its
queue is live), the call raises an `HrException` and the object is exactly as before the
call: the frame index, every slot counter and every reuse pool are unchanged, so the list
has not been added to any pool. -/
theorem Execute_leaves_state_on_rejected_Signal (s : GpuSystem MA DA) (d : Device)
    (cmd_list : GpuCommandList) (w n : Nat) (htype : cmd_list.type_ ≠ .Num)
    (hnative : cmd_list.cmd_list_ = some n)
    (hqueue : (s.cmd_queues_ cmd_list.Type.index).cmd_queue = true)
    (hsignal : FAILED (d.hresult (ExecuteOnly.signalTick d w)) = true) :
    (∃ e, (s.Execute d cmd_list w).1 = .raised e) ∧
    (s.Execute d cmd_list w).2.1 = s ∧
    (s.Execute d cmd_list w).2.1.frame_index_ = s.frame_index_ ∧
    (s.Execute d cmd_list w).2.1.fence_vals_ = s.fence_vals_ ∧
    (∀ i, ((s.Execute d cmd_list w).2.1.cmd_queues_ i).cmd_list_pool =
      (s.cmd_queues_ i).cmd_list_pool) := by
  have hneg : d.hresult (ExecuteOnly.signalTick d w) < 0 := by simpa [FAILED] using hsignal
  obtain ⟨h1, h2⟩ := ExecuteOnly_signal_failed s d cmd_list w n htype hnative hqueue hneg
  obtain ⟨h3, _⟩ := Execute_of_raised s d cmd_list w _ h1
  rw [h3, h2]
  exact ⟨⟨_, h1⟩, rfl, rfl, rfl, fun _ => rfl⟩

/-- An instance of `Execute_leaves_state_on_rejected_Signal`: the driver rejects the
`Signal` of the first submission on a fresh scheduler (the call at tick 2) with `E_FAIL`;
the active counter stays 1 and the pool of the graphics queue stays empty. -/
theorem Execute_leaves_state_on_rejected_Signal_witness :
    (rejectingDevice 2 0).hresult (ExecuteOnly.signalTick (rejectingDevice 2 0) MaxFenceValue) =
      -2147467259 ∧
    (∃ e, (sampleSystem.Execute (rejectingDevice 2 0) sampleList MaxFenceValue).1 =
      .raised e) ∧
    (sampleSystem.Execute (rejectingDevice 2 0) sampleList MaxFenceValue).2.1.activeCounter =
      1 ∧
    ((sampleSystem.Execute (rejectingDevice 2 0) sampleList MaxFenceValue).2.1.cmd_queues_
      0).cmd_list_pool = [] :=
  ⟨by decide, (Execute_leaves_state_on_rejected_Signal sampleSystem (rejectingDevice 2 0)
      sampleList MaxFenceValue 7 (by decide) rfl rfl (by decide)).1, by decide, by decide⟩

/-- C22, counterexample. On a freshly constructed scheduler. First run: two frame changes
return, the third comes back to slot 0 while the fence shows 0 and the driver rejects its
event registration, so it raises with the frame index already advanced; the submission that
follows returns the handle 1, which both queues were asked to signal by the first frame
change. Second run: `WaitForGpu()` finds the fence at 1 already, so it asks both queues to
signal 1 and leaves the counter alone; the submission that follows returns the handle 1. -/
theorem handle_signalled_before_submission :
    ((sampleSystem.run 4 [.MoveToNextFrame, .MoveToNextFrame, .MoveToNextFrame]
        (rejectingDevice 13 0)).2.1.step
      (sampleSystem.run 4 [.MoveToNextFrame, .MoveToNextFrame, .MoveToNextFrame]
        (rejectingDevice 13 0)).2.2 4 (.Execute sampleList MaxFenceValue)).1.2 = some 1 ∧
    (sampleSystem.run 4 [.MoveToNextFrame, .MoveToNextFrame, .MoveToNextFrame]
        (rejectingDevice 13 0)).2.2.calls.filterMap DriverCall.signalled =
      [(0, 1), (1, 1), (0, 2), (1, 2), (0, 3), (1, 3)] ∧
    ((sampleSystem.run 4 [.WaitForGpu MaxFenceValue] (sampleDevice 0 1)).2.1.step
      (sampleSystem.run 4 [.WaitForGpu MaxFenceValue] (sampleDevice 0 1)).2.2 4
      (.Execute sampleList MaxFenceValue)).1.2 = some 1 ∧
    (sampleSystem.run 4 [.WaitForGpu MaxFenceValue]
        (sampleDevice 0 1)).2.2.calls.filterMap DriverCall.signalled = [(0, 1), (1, 1)] := by
  decide

/-- C22, as amended. For every sequence of fewer than 2^63 calls of `Execute`,
`ExecuteAndReset` and `MoveToNextFrame` on a constructed `GpuSystem` whose device has not
been asked to signal yet, all of which return normally, and every behaviour of the device:
the handle returned by a submission is a value that no queue has been asked to signal on
the fence before that submission. -/
theorem returned_handle_not_signalled_before (upload readback : MA) (desc : DA) (fuel : Nat)
    (pre : List SchedulerCall) (c : SchedulerCall) (d : Device) (h : Nat)
    (hfresh : d.calls.filterMap DriverCall.signalled = [])
    (hcalls : ∀ c1 ∈ pre ++ [c], c1.isWaitForGpu = false)
    (hreturn : (GpuSystem.constructed upload readback desc).allReturn fuel (pre ++ [c]) d = true)
    (hlength : (pre ++ [c]).length < 2 ^ 63)
    (hhandle : (((GpuSystem.constructed upload readback desc).run fuel pre d).2.1.step
      ((GpuSystem.constructed upload readback desc).run fuel pre d).2.2 fuel c).1.2 = some h) :
    ∀ q, (q, h) ∉ ((GpuSystem.constructed upload readback desc).run fuel pre
      d).2.2.calls.filterMap DriverCall.signalled := by
  obtain ⟨k1, k2, _, k4⟩ := constructed_submit upload readback desc d hfresh
  obtain ⟨a1, a2⟩ := allReturn_append fuel [c] pre _ d hreturn
  simp only [List.length_append, List.length_singleton] at hlength
  obtain ⟨r1, r2, _, r4, _⟩ := run_submit fuel pre _ d
    (fun c1 hc1 => hcalls c1 (List.mem_append_left _ hc1)) a1 k2
    (by rw [k1]; unfold UINT64_SIZE; omega)
  simp only [GpuSystem.allReturn, Bool.and_true, decide_eq_true_eq] at a2
  obtain ⟨_, _, _, _, s5⟩ := step_submit _ _ fuel c
    (hcalls c (List.mem_append_right _ (List.mem_singleton_self c))) a2 r2
    (by rw [r1, k1]; unfold UINT64_SIZE; omega)
  intro q hm
  have h1 := r4 k4 q h hm
  have h2 := s5 h hhandle
  omega

/-- An instance of `returned_handle_not_signalled_before`: after a frame change, a
submission and another frame change, while the fence shows 0, a submission returns the
handle 4; the queues had been asked to signal 1, 1, then 2, then 3, 3. -/
theorem returned_handle_not_signalled_before_witness :
    ((sampleSystem.run 4
        [.MoveToNextFrame, .ExecuteAndReset sampleList MaxFenceValue, .MoveToNextFrame]
        (sampleDevice 99 9)).2.1.step
      (sampleSystem.run 4
        [.MoveToNextFrame, .ExecuteAndReset sampleList MaxFenceValue, .MoveToNextFrame]
        (sampleDevice 99 9)).2.2 4 (.Execute sampleList MaxFenceValue)).1.2 = some 4 ∧
    (sampleSystem.run 4
        [.MoveToNextFrame, .ExecuteAndReset sampleList MaxFenceValue, .MoveToNextFrame]
        (sampleDevice 99 9)).2.2.calls.filterMap DriverCall.signalled =
      [(0, 1), (1, 1), (0, 2), (0, 3), (1, 3)] ∧
    ∀ q, (q, 4) ∉ (sampleSystem.run 4
        [.MoveToNextFrame, .ExecuteAndReset sampleList MaxFenceValue, .MoveToNextFrame]
        (sampleDevice 99 9)).2.2.calls.filterMap DriverCall.signalled :=
  ⟨by decide, by decide,
    returned_handle_not_signalled_before [] [] [] 4
      [.MoveToNextFrame, .ExecuteAndReset sampleList MaxFenceValue, .MoveToNextFrame]
      (.Execute sampleList MaxFenceValue) (sampleDevice 99 9) 4 (by decide) (by decide)
      (by decide) (by decide) (by decide)⟩

/-- C23, counterexample. On a freshly constructed scheduler: a frame change, a submission
(it returns the handle 2) and another frame change return; the next frame change comes back
to slot 0 while the fence shows 0 and the driver rejects its event registration, so it
raises with the frame index already advanced. In the state reached slot 0 is active with
counter 1, below the handle 2 returned earlier and below the counters 3 and 4 of the other
two slots. -/
theorem active_counter_below_after_raise :
    (sampleSystem.run 4
      [.MoveToNextFrame, .ExecuteAndReset sampleList MaxFenceValue, .MoveToNextFrame,
        .MoveToNextFrame] (rejectingDevice 17 0)).1 = [2] ∧
    (sampleSystem.run 4
      [.MoveToNextFrame, .ExecuteAndReset sampleList MaxFenceValue, .MoveToNextFrame,
        .MoveToNextFrame] (rejectingDevice 17 0)).2.1.frame_index_ = 0 ∧
    (sampleSystem.run 4
      [.MoveToNextFrame, .ExecuteAndReset sampleList MaxFenceValue, .MoveToNextFrame,
        .MoveToNextFrame] (rejectingDevice 17 0)).2.1.activeCounter = 1 ∧
    (sampleSystem.run 4
      [.MoveToNextFrame, .ExecuteAndReset sampleList MaxFenceValue, .MoveToNextFrame,
        .MoveToNextFrame] (rejectingDevice 17 0)).2.1.fence_vals_ 1 = 3 ∧
    (sampleSystem.run 4
      [.MoveToNextFrame, .ExecuteAndReset sampleList MaxFenceValue, .MoveToNextFrame,
        .MoveToNextFrame] (rejectingDevice 17 0)).2.1.fence_vals_ 2 = 4 := by
  decide

/-- C23, as amended. In every state reached from construction by fewer than 2^63 calls of
`Execute`, `ExecuteAndReset` and `MoveToNextFrame` that all return normally, the active
slot's counter is strictly greater than every handle returned by an earlier submission and
strictly greater than the counters of the other two slots. -/
theorem active_counter_is_greatest (upload readback : MA) (desc : DA) (fuel : Nat)
    (calls : List SchedulerCall) (d : Device)
    (hcalls : ∀ c ∈ calls, c.isWaitForGpu = false)
    (hreturn : (GpuSystem.constructed upload readback desc).allReturn fuel calls d = true)
    (hlength : calls.length < 2 ^ 63) :
    (∀ h ∈ ((GpuSystem.constructed upload readback desc).run fuel calls d).1,
      h < ((GpuSystem.constructed upload readback desc).run fuel calls d).2.1.activeCounter) ∧
    ∀ j, j < FrameCount →
      j ≠ ((GpuSystem.constructed upload readback desc).run fuel calls d).2.1.frame_index_ →
      ((GpuSystem.constructed upload readback desc).run fuel calls d).2.1.fence_vals_ j <
        ((GpuSystem.constructed upload readback desc).run fuel calls d).2.1.activeCounter := by
  obtain ⟨c1, c2, c3⟩ := constructed_fence_vals upload readback desc
  have k1 : (GpuSystem.constructed upload readback desc).activeCounter = 1 := c2
  have k3 : (GpuSystem.constructed upload readback desc).activeIsGreatest := by
    intro j _ hne
    rw [k1, c3 j (by rw [c1] at hne; omega)]
    decide
  obtain ⟨r1, _, r3, _, r5⟩ := run_submit fuel calls _ d hcalls hreturn (by rw [c1]; decide)
    (by rw [k1]; unfold UINT64_SIZE; omega)
  refine ⟨fun h hh => ?_, r3 k3⟩
  rw [r1]
  exact (r5 h hh).2

/-- An instance of `active_counter_is_greatest`: after a frame change, a submission and
two more frame changes, while the fence shows 9, the handle returned is 2, slot 0 is active
with counter 5, and the other slots hold 3 and 4. -/
theorem active_counter_is_greatest_witness :
    (sampleSystem.run 4
      [.MoveToNextFrame, .ExecuteAndReset sampleList MaxFenceValue, .MoveToNextFrame,
        .MoveToNextFrame] (sampleDevice 0 9)).1 = [2] ∧
    (sampleSystem.run 4
      [.MoveToNextFrame, .ExecuteAndReset sampleList MaxFenceValue, .MoveToNextFrame,
        .MoveToNextFrame] (sampleDevice 0 9)).2.1.activeCounter = 5 ∧
    ((∀ h ∈ (sampleSystem.run 4
      [.MoveToNextFrame, .ExecuteAndReset sampleList MaxFenceValue, .MoveToNextFrame,
        .MoveToNextFrame] (sampleDevice 0 9)).1,
      h < (sampleSystem.run 4
        [.MoveToNextFrame, .ExecuteAndReset sampleList MaxFenceValue, .MoveToNextFrame,
          .MoveToNextFrame] (sampleDevice 0 9)).2.1.activeCounter) ∧
    ∀ j, j < FrameCount →
      j ≠ (sampleSystem.run 4
        [.MoveToNextFrame, .ExecuteAndReset sampleList MaxFenceValue, .MoveToNextFrame,
          .MoveToNextFrame] (sampleDevice 0 9)).2.1.frame_index_ →
      (sampleSystem.run 4
        [.MoveToNextFrame, .ExecuteAndReset sampleList MaxFenceValue, .MoveToNextFrame,
          .MoveToNextFrame] (sampleDevice 0 9)).2.1.fence_vals_ j <
        (sampleSystem.run 4
          [.MoveToNextFrame, .ExecuteAndReset sampleList MaxFenceValue, .MoveToNextFrame,
            .MoveToNextFrame] (sampleDevice 0 9)).2.1.activeCounter) :=
  ⟨by decide, by decide,
    active_counter_is_greatest [] [] [] 4
      [.MoveToNextFrame, .ExecuteAndReset sampleList MaxFenceValue, .MoveToNextFrame,
        .MoveToNextFrame] (sampleDevice 0 9) (by decide) (by decide) (by decide)⟩

/-- C25. For every compute shader helper within the range of the 32-bit slot arithmetic,
(num_srvs + num_uavs) * FrameCount at most 2^31, and every frame index f < FrameCount, the
block `CreateComputeShader` asks for has (num_srvs + num_uavs) * FrameCount slots, view i
of the shader resource views uses slot (num_srvs + num_uavs) * f + i and view j of the
unordered access views slot (num_srvs + num_uavs) * f + num_srvs + j, every slot used lies
inside the block, and no slot used under f is used under another frame index. -/
theorem descriptor_slots_inside_block_and_disjoint (cs : ComputeShaderHelper) (f g : Nat)
    (hbound : (cs.num_srvs + cs.num_uavs) * FrameCount ≤ 2 ^ 31)
    (hf : f < FrameCount) (hg : g < FrameCount) (hne : f ≠ g) :
    MotionBlurGenerator.descBlockSize cs = (cs.num_srvs + cs.num_uavs) * FrameCount ∧
    (∀ i, i < cs.num_srvs → MotionBlurGenerator.srvSlot cs f i =
      (((cs.num_srvs + cs.num_uavs) * f + i : Nat) : Int)) ∧
    (∀ j, j < cs.num_uavs → MotionBlurGenerator.uavSlot cs f j =
      (((cs.num_srvs + cs.num_uavs) * f + cs.num_srvs + j : Nat) : Int)) ∧
    (∀ slot, MotionBlurGenerator.usesSlot cs f slot →
      0 ≤ slot ∧ slot < (MotionBlurGenerator.descBlockSize cs : Int)) ∧
    (∀ slot, MotionBlurGenerator.usesSlot cs f slot →
      ¬ MotionBlurGenerator.usesSlot cs g slot) := by
  obtain ⟨k1, k2, k3⟩ := slots_in_range cs f hbound hf
  refine ⟨k1, k2, k3, fun slot h => ?_, fun slot h h1 => ?_⟩
  · obtain ⟨n, rfl, _, hn⟩ := usesSlot_range cs f hbound hf slot h
    have hmul : (cs.num_srvs + cs.num_uavs) * f ≤ (cs.num_srvs + cs.num_uavs) * 2 :=
      Nat.mul_le_mul_left _ (by unfold FrameCount at hf; omega)
    rw [k1]
    unfold FrameCount
    omega
  · obtain ⟨n, rfl, hn1, hn2⟩ := usesSlot_range cs f hbound hf _ h
    obtain ⟨m, hm, hm1, hm2⟩ := usesSlot_range cs g hbound hg _ h1
    have hnm : n = m := by exact_mod_cast hm
    subst hnm
    rcases Nat.lt_or_gt_of_ne hne with hlt | hlt
    · have := Nat.mul_le_mul_left (cs.num_srvs + cs.num_uavs) (Nat.succ_le_of_lt hlt)
      rw [Nat.mul_succ] at this
      omega
    · have := Nat.mul_le_mul_left (cs.num_srvs + cs.num_uavs) (Nat.succ_le_of_lt hlt)
      rw [Nat.mul_succ] at this
      omega

/-- An instance of `descriptor_slots_inside_block_and_disjoint`: the helper of the gather
pass (four shader resource views, one unordered access view) under the frame indices 1
and 2; the block has 15 slots and frame index 1 uses the slots 5 to 9. Each of the five
helpers the generator has is within the range. -/
theorem descriptor_slots_inside_block_and_disjoint_witness :
    (∀ cs ∈ computeShaderHelpers, (cs.num_srvs + cs.num_uavs) * FrameCount ≤ 2 ^ 31) ∧
    MotionBlurGenerator.uavSlot gather_cs_ 1 0 = 9 ∧
    (MotionBlurGenerator.descBlockSize gather_cs_ =
      (gather_cs_.num_srvs + gather_cs_.num_uavs) * FrameCount ∧
    (∀ i, i < gather_cs_.num_srvs → MotionBlurGenerator.srvSlot gather_cs_ 1 i =
      (((gather_cs_.num_srvs + gather_cs_.num_uavs) * 1 + i : Nat) : Int)) ∧
    (∀ j, j < gather_cs_.num_uavs → MotionBlurGenerator.uavSlot gather_cs_ 1 j =
      (((gather_cs_.num_srvs + gather_cs_.num_uavs) * 1 + gather_cs_.num_srvs + j : Nat) : Int)) ∧
    (∀ slot, MotionBlurGenerator.usesSlot gather_cs_ 1 slot →
      0 ≤ slot ∧ slot < (MotionBlurGenerator.descBlockSize gather_cs_ : Int)) ∧
    (∀ slot, MotionBlurGenerator.usesSlot gather_cs_ 1 slot →
      ¬ MotionBlurGenerator.usesSlot gather_cs_ 2 slot)) :=
  ⟨by decide, by decide,
    descriptor_slots_inside_block_and_disjoint gather_cs_ 1 2 (by decide) (by decide)
      (by decide) (by decide)⟩

/-- C26, the code against the claim. When the first two `ReadFrame` calls both report the
end, the main loop records `total_frames = 0` in pass 0, which is also its mark for the
end not found yet, so pass 1 reads again and records `total_frames = 1`; pass 2 then calls
`SaveTexture` on the null texture of slot 0 (`Frame_1.png`) and breaks. `AddFrame` is never
called, `SaveTexture` once, and `total_frames` ends as 1. -/
theorem empty_reader_saves_null_texture {R F : Type} (ops : ReaderOps R F) (reader : R)
    (fuel : Nat) (hfirst : (ops.ReadFrame reader).1 = none)
    (hsecond : (ops.ReadFrame (ops.ReadFrame reader).2).1 = none) :
    ∃ st, MainLoop.run ops (fuel + 3) (MainLoop.start reader) = some st ∧
      st.i = 2 ∧ st.total_frames = 1 ∧
      st.calls = [.ReadFrame 0 none, .ReadFrame 0 none, .SaveTexture 0 1 none] ∧
      st.calls.filterMap MainCall.added = [] ∧
      st.calls.filterMap MainCall.saved = [(0, 1, none)] := by
  have e1 : ops.ReadFrame reader = (none, (ops.ReadFrame reader).2) := Prod.ext hfirst rfl
  have e2 : ops.ReadFrame (ops.ReadFrame reader).2 =
      (none, (ops.ReadFrame (ops.ReadFrame reader).2).2) := Prod.ext hsecond rfl
  generalize (ops.ReadFrame reader).2 = r1 at e1 e2
  generalize (ops.ReadFrame r1).2 = r2 at e2
  refine ⟨{ i := 2, total_frames := 1, reader := r2, frame_index := 0,
            frame_texs := fun _ => none, motion_blurred_texs := fun _ => none,
            calls := [.ReadFrame 0 none, .ReadFrame 0 none, .SaveTexture 0 1 none] },
    ?_, rfl, rfl, rfl, rfl, rfl⟩
  simp [MainLoop.run, MainLoop.body, MainLoop.readBlock, MainLoop.saveBlock, MainLoop.start,
    e1, e2, FrameCount, UINT32_SIZE]

/-- An instance of `empty_reader_saves_null_texture`: the reader of an image sequence
without files. -/
theorem empty_reader_saves_null_texture_witness :
    ∃ st, MainLoop.run (imageSeqReader Nat) 3 (MainLoop.start (ImageSeqReader.sorted [])) =
        some st ∧
      st.i = 2 ∧ st.total_frames = 1 ∧
      st.calls = [.ReadFrame 0 none, .ReadFrame 0 none, .SaveTexture 0 1 none] ∧
      st.calls.filterMap MainCall.added = [] ∧
      st.calls.filterMap MainCall.saved = [(0, 1, none)] :=
  empty_reader_saves_null_texture (imageSeqReader Nat) (ImageSeqReader.sorted []) 0
    (by decide) (by decide)

/-- C27, the code against the claim. When every entry that is not a directory has an
extension, the constructor completes and its frame list holds the file names of all
entries that are not directories, whatever their extension: the pointer `std::find`
returns is tested for null, not compared with the end of `SupportedExts`. When some entry
that is not a directory has no extension, `substr(1)` on the empty extension throws
`std::out_of_range` and the constructor ends with that exception. -/
theorem constructor_pushes_every_file (entries : List directory_entry) :
    ((∀ e ∈ entries, e.is_directory = false → extension e.filename ≠ []) →
      ∃ reader, ImageSeqReader.construct entries = .ok reader ∧
        ∀ name, name ∈ reader.files_ ↔
          ∃ e ∈ entries, e.is_directory = false ∧ e.filename = name) ∧
    ((∃ e ∈ entries, e.is_directory = false ∧ extension e.filename = []) →
      ImageSeqReader.construct entries = .error .out_of_range) := by
  constructor
  · intro h
    refine ⟨ImageSeqReader.sorted
      ((entries.filter fun e => !e.is_directory).map fun e => e.filename), ?_, ?_⟩
    · simp [ImageSeqReader.construct, scan_pushes_files entries [] h]
    · intro name
      have hperm := List.perm_insertionSort (fun a b : List Char => a ≤ b)
        ((entries.filter fun e => !e.is_directory).map fun e => e.filename)
      show name ∈ List.insertionSort (fun a b : List Char => a ≤ b) _ ↔ _
      rw [hperm.mem_iff]
      simp only [List.mem_map, List.mem_filter, Bool.not_eq_true', and_assoc]
  · intro h
    simp [ImageSeqReader.construct, scan_throws entries [] h]

/-- An instance of `constructor_pushes_every_file`: for a directory with `b.PNG`,
`notes.txt`, a sub-directory `old.png` and `a.jpg` the frame list is `a.jpg`, `b.PNG`,
`notes.txt`, although `txt` is not a supported extension; with a file `README` in the
directory the constructor throws. -/
theorem constructor_pushes_every_file_witness :
    supportedExtension "notes.txt".toList = false ∧
    (ImageSeqReader.construct sampleDirectory).map (fun r => r.files_) =
      .ok ["a.jpg".toList, "b.PNG".toList, "notes.txt".toList] ∧
    (∃ reader, ImageSeqReader.construct sampleDirectory = .ok reader ∧
      ∀ name, name ∈ reader.files_ ↔
        ∃ e ∈ sampleDirectory, e.is_directory = false ∧ e.filename = name) ∧
    ImageSeqReader.construct
      (sampleDirectory ++ [{ filename := "README".toList, is_directory := false }]) =
        .error .out_of_range :=
  ⟨by decide, rfl, (constructor_pushes_every_file sampleDirectory).1 (by decide),
    (constructor_pushes_every_file
      (sampleDirectory ++ [{ filename := "README".toList, is_directory := false }])).2
      ⟨{ filename := "README".toList, is_directory := false }, by decide, rfl, by decide⟩⟩

/-- C28, counterexample. With the bounds 1920 x 1080 and 512 x 384, a frame of 4000 x 100
is above the maximum width and below the minimum height; whatever the comparison of the
two quotients gives, the block for the minimum overwrites the result of the block for the
maximum and the scaled size is 512 x 12 (height below 384) or 15360 x 384 (width above
1920); with the exact comparison it is 512 x 12. A frame of 256 x 256 is scaled to
384 x 384 with the exact comparison, below the minimum width 512. -/
theorem scaled_size_outside_range :
    (∀ less : Nat → Nat → Nat → Nat → Bool,
      MotionBlurGenerator.scaledSize less defaultBounds 4000 100 = some (512, 12) ∨
      MotionBlurGenerator.scaledSize less defaultBounds 4000 100 = some (15360, 384)) ∧
    MotionBlurGenerator.scaledSize ratioLess defaultBounds 4000 100 = some (512, 12) ∧
    MotionBlurGenerator.scaledSize ratioLess defaultBounds 256 256 = some (384, 384) := by
  refine ⟨fun less => ?_, by decide, by decide⟩
  cases h2 : less 512 4000 384 100
  · right
    cases h1 : less 1920 4000 1080 100 <;>
      simp [MotionBlurGenerator.scaledSize, MotionBlurGenerator.scaleTo, mulDiv, defaultBounds,
        h1, h2] <;> decide
  · left
    cases h1 : less 1920 4000 1080 100 <;>
      simp [MotionBlurGenerator.scaledSize, MotionBlurGenerator.scaleTo, mulDiv, defaultBounds,
        h1, h2] <;> decide

/-- C28, as amended. For every frame size with width, height ≥ 1, every bounds and every
outcome of the comparisons of the quotients, the scaled size `AddFrame` computes on the
first frame is even in both dimensions. When the frame size lies within the bounds, the
scaled size is the frame size rounded down to even numbers. When the frame is at least
the minimum in both dimensions and above a maximum, the products height * max_mv_width_
and width * max_mv_height_ are below 2^32 and the comparison orders the two quotients as
the exact quotients are ordered, the scaled size is at most the maximum in both
dimensions. -/
theorem scaled_size_even_and_within (less : Nat → Nat → Nat → Nat → Bool) (b : MvBounds)
    (width height : Nat) (hw : 1 ≤ width) (hh : 1 ≤ height)
    (hw32 : width < UINT32_SIZE) (hh32 : height < UINT32_SIZE) :
    ∃ s : Nat × Nat, MotionBlurGenerator.scaledSize less b width height = some s ∧
      s.1 % 2 = 0 ∧ s.2 % 2 = 0 ∧
      (b.min_mv_width_ ≤ width → width ≤ b.max_mv_width_ →
        b.min_mv_height_ ≤ height → height ≤ b.max_mv_height_ →
        s = (width - width % 2, height - height % 2)) ∧
      (b.min_mv_width_ ≤ width → b.min_mv_height_ ≤ height →
        width > b.max_mv_width_ ∨ height > b.max_mv_height_ →
        less b.max_mv_width_ width b.max_mv_height_ height =
          ratioLess b.max_mv_width_ width b.max_mv_height_ height →
        height * b.max_mv_width_ < UINT32_SIZE → width * b.max_mv_height_ < UINT32_SIZE →
        s.1 ≤ b.max_mv_width_ ∧ s.2 ≤ b.max_mv_height_) := by
  obtain ⟨s0, h0⟩ := scaledSize_some less b width height hw hh
  refine ⟨_, h0, clearLowBit_even _, clearLowBit_even _, ?_, ?_⟩
  · intro m1 m2 m3 m4
    have c1 : ¬ (width > b.max_mv_width_ ∨ height > b.max_mv_height_) := by omega
    have c2 : ¬ (width < b.min_mv_width_ ∨ height < b.min_mv_height_) := by omega
    have e : MotionBlurGenerator.scaledSize less b width height =
        some (clearLowBit width, clearLowBit height) := by
      simp [MotionBlurGenerator.scaledSize, c1, c2]
    rw [e] at h0
    rw [← Option.some.inj h0, (clearLowBit_le width hw32).2.2, (clearLowBit_le height hh32).2.2]
  · intro m1 m3 c1 hless hpw hph
    have c2 : ¬ (width < b.min_mv_width_ ∨ height < b.min_mv_height_) := by omega
    obtain ⟨s1, k1, k2, k3⟩ := scaleTo_within less b.max_mv_width_ b.max_mv_height_ width height
      hw hh hless hpw hph
    have e : MotionBlurGenerator.scaledSize less b width height =
        some (clearLowBit s1.1, clearLowBit s1.2) := by
      simp [MotionBlurGenerator.scaledSize, c1, c2, k1]
    rw [e] at h0
    rw [← Option.some.inj h0]
    exact ⟨le_trans (clearLowBit_le_self _) k2, le_trans (clearLowBit_le_self _) k3⟩

/-- An instance of `scaled_size_even_and_within`: with the bounds 1920 x 1080 and
512 x 384 and the exact comparison, a frame of 3841 x 2161 is scaled to 1918 x 1080. -/
theorem scaled_size_even_and_within_witness :
    MotionBlurGenerator.scaledSize ratioLess defaultBounds 3841 2161 = some (1918, 1080) ∧
    ∃ s : Nat × Nat, MotionBlurGenerator.scaledSize ratioLess defaultBounds 3841 2161 = some s ∧
      s.1 % 2 = 0 ∧ s.2 % 2 = 0 ∧
      (defaultBounds.min_mv_width_ ≤ 3841 → 3841 ≤ defaultBounds.max_mv_width_ →
        defaultBounds.min_mv_height_ ≤ 2161 → 2161 ≤ defaultBounds.max_mv_height_ →
        s = (3841 - 3841 % 2, 2161 - 2161 % 2)) ∧
      (defaultBounds.min_mv_width_ ≤ 3841 → defaultBounds.min_mv_height_ ≤ 2161 →
        3841 > defaultBounds.max_mv_width_ ∨ 2161 > defaultBounds.max_mv_height_ →
        ratioLess defaultBounds.max_mv_width_ 3841 defaultBounds.max_mv_height_ 2161 =
          ratioLess defaultBounds.max_mv_width_ 3841 defaultBounds.max_mv_height_ 2161 →
        2161 * defaultBounds.max_mv_width_ < UINT32_SIZE →
        3841 * defaultBounds.max_mv_height_ < UINT32_SIZE →
        s.1 ≤ defaultBounds.max_mv_width_ ∧ s.2 ≤ defaultBounds.max_mv_height_) :=
  ⟨by decide, scaled_size_even_and_within ratioLess defaultBounds 3841 2161 (by decide)
    (by decide) (by decide) (by decide)⟩

/-- C29, the code against the claim. The constructor takes both height bounds from the
reported widths: `max_mv_height_` is min(1080, MaxWidth) and `min_mv_height_` is
max(384, MinWidth). The width bounds are as claimed, and the height bounds agree with the
per-dimension bounds when the reported heights equal the reported widths; for the range
4096 x 720 down to 256 x 512 the constructor sets the height bounds 1080 and 384 where the
per-dimension bounds are 720 and 512. -/
theorem constructor_height_bounds_use_width :
    (∀ r : D3D12_VIDEO_SIZE_RANGE,
      (MotionBlurGenerator.sizeBounds r).max_mv_width_ = min 1920 r.MaxWidth ∧
      (MotionBlurGenerator.sizeBounds r).max_mv_height_ = min 1080 r.MaxWidth ∧
      (MotionBlurGenerator.sizeBounds r).min_mv_width_ = max 512 r.MinWidth ∧
      (MotionBlurGenerator.sizeBounds r).min_mv_height_ = max 384 r.MinWidth ∧
      (r.MaxHeight = r.MaxWidth → r.MinHeight = r.MinWidth →
        MotionBlurGenerator.sizeBounds r = MotionBlurGenerator.sizeBoundsPerDimension r)) ∧
    MotionBlurGenerator.sizeBounds
        { MaxWidth := 4096, MaxHeight := 720, MinWidth := 256, MinHeight := 512 } =
      { max_mv_width_ := 1920, max_mv_height_ := 1080, min_mv_width_ := 512,
        min_mv_height_ := 384 } ∧
    MotionBlurGenerator.sizeBoundsPerDimension
        { MaxWidth := 4096, MaxHeight := 720, MinWidth := 256, MinHeight := 512 } =
      { max_mv_width_ := 1920, max_mv_height_ := 720, min_mv_width_ := 512,
        min_mv_height_ := 512 } := by
  refine ⟨fun r => ⟨rfl, rfl, rfl, rfl, fun h1 h2 => ?_⟩, by decide, by decide⟩
  simp [MotionBlurGenerator.sizeBounds, MotionBlurGenerator.sizeBoundsPerDimension, h1, h2,
    MaxMvWidth, MaxMvHeight, MinMvWidth, MinMvHeight]

/-- C30. For a power-of-two `Alignment` (2^k with k < 32, which the `static_assert`
accepts) and a size with size + Alignment - 1 < 2^32, `Align<Alignment>(size)` is a
multiple of `Alignment`, lies between size and size + Alignment - 1, is below every other
multiple of `Alignment` that is at least size, and aligning it again returns it. -/
theorem Align_is_least_multiple (k size : Nat) (hk : k < 32)
    (hsize : size + 2 ^ k - 1 < 2 ^ 32) :
    Align.accepted (2 ^ k) = true ∧
    2 ^ k ∣ Align (2 ^ k) size ∧ size ≤ Align (2 ^ k) size ∧
    Align (2 ^ k) size < size + 2 ^ k ∧
    (∀ m, 2 ^ k ∣ m → size ≤ m → Align (2 ^ k) size ≤ m) ∧
    Align (2 ^ k) (Align (2 ^ k) size) = Align (2 ^ k) size := by
  have hA : 0 < 2 ^ k := Nat.pow_pos (by decide)
  obtain ⟨f1, f2, f3, f4, f5⟩ := round_up_facts (2 ^ k) size hA
  have hv := Align_value k size hk hsize
  have hagain : (size + 2 ^ k - 1) / 2 ^ k * 2 ^ k + 2 ^ k - 1 < 2 ^ 32 := by
    have hq : (size + 2 ^ k - 1) / 2 ^ k < 2 ^ (32 - k) := by
      rw [Nat.div_lt_iff_lt_mul hA, ← Nat.pow_add, Nat.sub_add_cancel (Nat.le_of_lt hk)]
      exact hsize
    have h1 : ((size + 2 ^ k - 1) / 2 ^ k + 1) * 2 ^ k ≤ 2 ^ (32 - k) * 2 ^ k :=
      Nat.mul_le_mul_right _ hq
    rw [← Nat.pow_add, Nat.sub_add_cancel (Nat.le_of_lt hk), Nat.succ_mul] at h1
    omega
  refine ⟨Align_accepted_two_pow k hk, ?_, ?_, ?_, ?_, ?_⟩
  · rw [hv]; exact f1
  · rw [hv]; exact f2
  · rw [hv]; exact f3
  · rw [hv]; exact f4
  · rw [hv, Align_value k _ hk hagain]
    exact f5

/-- An instance of `Align_is_least_multiple`: `Align<256>(1000)` is 1024. -/
theorem Align_is_least_multiple_witness :
    Align 256 1000 = 1024 ∧
    (Align.accepted (2 ^ 8) = true ∧
    2 ^ 8 ∣ Align (2 ^ 8) 1000 ∧ 1000 ≤ Align (2 ^ 8) 1000 ∧
    Align (2 ^ 8) 1000 < 1000 + 2 ^ 8 ∧
    (∀ m, 2 ^ 8 ∣ m → 1000 ≤ m → Align (2 ^ 8) 1000 ≤ m) ∧
    Align (2 ^ 8) (Align (2 ^ 8) 1000) = Align (2 ^ 8) 1000) :=
  ⟨by decide, Align_is_least_multiple 8 1000 (by decide) (by decide)⟩

end Claims

end MotionToGo
